import Mathlib

/-! # Virtual file resolver, diagnostics and parser messages of the SQF runtime

A shallow embedding of `sqf::fileio::impl_default` (`src/fileio/default.cpp`): the mount tree,
`add_mapping`, `get_info_virtual` and `get_info_physical`; of the class of preprocessor
macros (`src/runtime/parser/preprocessor.h`); of the diagnostics of `src/logging.cpp`: the
location prefix, the message kinds, the level filter and the logger sinks; and of the error
messages and the statement lists of the generated SQC parser (`src/sqc/parser.tab.cc`). The
definitions come first, the theorems about them after.

Conventions of the embedding
* `std::string` is `List Char` (abbreviated `Str`).
* The non-Windows branch of every `#if WIN32` is the one embedded.
* `std::optional<pathinfo>` is `Option pathinfo`; an access that has no defined result in
  C++ (`back()` of an empty vector, `map::at` of a missing key, reading past the end of a
  range, `substr` past the end) is an explicit `Fault`, so every resolver function returns
  `Except Fault (Option pathinfo)`.
* The file system is a parameter `file_exists : Str → Bool`.
* The tracing blocks under `DF__SQF_FILEIO__TRACE_REESOLVE` print only and are omitted.
-/

namespace sqf

/-- A `std::string`. -/
abbrev Str := List Char

/-- The steps that have no defined result in C++: four accesses of the resolver (reading past
the end of a range stands for every read outside an array), the end of a function that has to
return a value but has no `return` statement, a call through a null function pointer and a
read through a null pointer. -/
inductive Fault where
  | back_of_empty_vector
  | map_at_missing_key
  | read_past_end
  | substr_out_of_range
  | no_return_value
  | call_of_null_pointer
  | null_pointer_read
  deriving DecidableEq, Repr

/-- `sqf::runtime::fileio::pathinfo`: the pair handed out by the resolver. -/
structure pathinfo where
  physical : Str
  virtual_ : Str
  deriving DecidableEq, Repr

/-- Modelled from the spec: `impl_default::path_element` is declared in `default.h`, which
is not part of the sources at hand. Its three fields are the ones `default.cpp` uses:
`virtual_full` (a string), `physical` (a vector of paths, kept as their strings) and `next`
(a map from segment name to child node, kept as an association list whose keys are compared
exactly). A child is owned by exactly one `next` entry, so the `shared_ptr` graph is this tree. -/
inductive path_element where
  | mk (virtual_full : Str) (physical : List Str) (next : List (Str × path_element))

namespace path_element

/-- Field `virtual_full`. -/
def virtual_full : path_element → Str
  | mk v _ _ => v

/-- Field `physical`. -/
def physical : path_element → List Str
  | mk _ p _ => p

/-- Field `next`. -/
def next : path_element → List (Str × path_element)
  | mk _ _ n => n

end path_element

/-- The string `".."`. -/
def dotdot : Str := ['.', '.']

/-- `std::replace(s.begin(), s.end(), '\\', '/')`. -/
def replace_backslash (s : Str) : Str :=
  s.map (fun c => if c = '\\' then '/' else c)

/-- Modelled from the spec: the whitespace set of `sqf::runtime::util::trim` (declared in
`runtime/util.h`, not part of the sources at hand): blank, tab, line feed, carriage return,
vertical tab and form feed. -/
def is_space (c : Char) : Bool :=
  c = ' ' || c = '\t' || c = '\n' || c = '\r' || c = '\x0b' || c = '\x0c'

/-- Modelled from the spec: `sqf::runtime::util::trim` ("trim whitespace"): the argument
without its leading and trailing whitespace. -/
def trim (s : Str) : Str :=
  ((s.dropWhile is_space).reverse.dropWhile is_space).reverse

/-- The values an `std::istream_iterator<StringDelimiter<'/'>>` yields over a string stream:
`operator>>` is `std::getline(is, output, '/')`, which reads up to the next `'/'` (consumed,
not stored) or the end of the stream, and fails, ending the iteration, when it extracts
nothing at all. The pieces between slashes are yielded in order; an empty piece after the
last slash is not yielded. -/
def istream_split : Str → List Str
  | [] => []
  | c :: cs =>
    if c = '/' then [] :: istream_split cs
    else
      match istream_split cs with
      | [] => [[c]]
      | s :: ss => (c :: s) :: ss

/-- `std::map::find(key)`, `none` standing for `end()`. -/
def map_find : List (Str × path_element) → Str → Option path_element
  | [], _ => none
  | (k, v) :: m, key => if k = key then some v else map_find m key

/-- `std::map::at(key)`: throws `std::out_of_range` when the key is missing. -/
def map_at (m : List (Str × path_element)) (key : Str) : Except Fault path_element :=
  match map_find m key with
  | some v => .ok v
  | none => .error .map_at_missing_key

/-- `std::vector::back()`. The local vector `nodes` of `get_info_virtual` is kept with its
back at the head of the list: `push_back` is cons, `pop_back` is `List.tail`. -/
def vector_back {α : Type} : List α → Except Fault α
  | [] => .error .back_of_empty_vector
  | a :: _ => .ok a

/-- Lines 86 to 114 of `get_info_virtual`: replay the segments of `current.virtual_` from the
root. `none` is the early `return {}` at a dead end. -/
def navigate_current : List path_element → List Str → Except Fault (Option (List path_element))
  | nodes, [] => .ok (some nodes)
  | nodes, seg :: it =>
    if seg = [] then navigate_current nodes it
    else do
      let b ← vector_back nodes
      match map_find b.next seg with
      | some _ => do
        let b2 ← vector_back nodes
        let n ← map_at b2.next seg
        navigate_current (n :: nodes) it
      | none => pure none

/-- Lines 122 to 173 of `get_info_virtual`: walk the segments of the query. The result is the
vector `nodes` and what the iterator `it` still has to yield when the loop is left: the whole
rest, starting with the segment at which `break` was taken, or nothing when the loop ran to
the end. -/
def explore : List path_element → List Str → Except Fault (List path_element × List Str)
  | nodes, [] => .ok (nodes, [])
  | nodes, seg :: it =>
    if seg = [] then explore nodes it
    else if seg = dotdot ∧ nodes.isEmpty = false then explore nodes.tail it
    else if nodes.isEmpty then .ok (nodes, seg :: it)
    else do
      let b ← vector_back nodes
      match map_find b.next seg with
      | none => pure (nodes, seg :: it)
      | some _ => do
        let b2 ← vector_back nodes
        let n ← map_at b2.next seg
        explore (n :: nodes) it

/-- Lines 190 to 196 of `get_info_virtual`: the remainder built from what `it` still yields. -/
def build_remainder : List Str → Str
  | [] => []
  | seg :: it =>
    if seg = dotdot then build_remainder it
    else '/' :: (seg ++ build_remainder it)

/-- Lines 206 to 228 of `get_info_virtual`: the first overlay with an existing file wins. -/
def test_physical (file_exists : Str → Bool) (virt virtFull : Str) : List Str → Option pathinfo
  | [] => none
  | phys :: rest =>
    if file_exists (phys ++ virt) then some ⟨phys ++ virt, virtFull⟩
    else test_physical file_exists virt virtFull rest

/-- The query as cleansed by lines 36 to 38: backslashes replaced, then trimmed. -/
def cleanse (viewVirtual : Str) : Str :=
  trim (replace_backslash viewVirtual)

/-- Lines 39 and 83: the virtual path of the result to be. -/
def virt_full (virt : Str) (current : pathinfo) : Str :=
  if virt.head? ≠ some '/' ∧ current.virtual_ ≠ [] then current.virtual_ ++ '/' :: virt
  else virt

/-- Lines 62 to 116: the vector `nodes` before the query is walked, `none` for the early
`return {}`. -/
def start_nodes (root : path_element) (virt : Str) (current : pathinfo) :
    Except Fault (Option (List path_element)) :=
  if virt.head? ≠ some '/' then
    if current.virtual_ ≠ [] then navigate_current [root] (istream_split current.virtual_)
    else .ok (some [root])
  else .ok (some [root])

/-- `impl_default::get_info_virtual` with `m_virtual_file_root = root`. -/
def get_info_virtual (file_exists : Str → Bool) (root : path_element)
    (viewVirtual : Str) (current : pathinfo) : Except Fault (Option pathinfo) :=
  let virt := cleanse viewVirtual
  if virt = [] then .ok none
  else do
    let virtFull := virt_full virt current
    match ← start_nodes root virt current with
    | none => pure none
    | some nodes0 =>
      let (nodes, it) ← explore nodes0 (istream_split virt)
      if nodes.isEmpty then pure none
      else do
        let virt2 := build_remainder it
        let b ← vector_back nodes
        pure (test_physical file_exists virt2 virtFull b.physical)

/-! ### `std::filesystem::path` on a POSIX system

A path keeps the string it was built from (`path(s).string() = s`). Its elements are the root
directory `"/"` when the string starts with a slash, then the names between runs of slashes,
then an empty name when the string ends with a slash that follows a name. -/

/-- The string `"."`. -/
def dot : Str := ['.']

/-- The names of a path: the non-empty pieces between slashes. -/
def path_filenames (p : Str) : List Str :=
  (istream_split p).filter (fun s => !s.isEmpty)

/-- The elements `path::begin() .. path::end()` iterates over. -/
def path_elements (p : Str) : List Str :=
  (if p.head? = some '/' then [['/']] else []) ++ path_filenames p ++
    (if p.getLast? = some '/' ∧ (path_filenames p).isEmpty = false then [[]] else [])

/-- `"/" + s1 + "/" + ... + "/" + sn` without the leading slash: names joined by `'/'`. -/
def join_slash : List Str → Str
  | [] => []
  | [s] => s
  | s :: t :: rest => s ++ '/' :: join_slash (t :: rest)

/-- One element of the normalisation loop of `path::lexically_normal`. The path built so far
is its names and whether it ends with a separator after the last name. A dot-dot removes the
name before it, is dropped right after the root directory and is kept otherwise; a dot or the
empty last element leaves a trailing separator; any other name is appended. -/
def normal_step (rooted : Bool) : List Str × Bool → Str → List Str × Bool
  | (names, _), e =>
    if e = dotdot then
      match names.getLast? with
      | none => if rooted then ([], false) else ([dotdot], false)
      | some l =>
        if l = dotdot then (names ++ [dotdot], false)
        else (names.dropLast, !names.dropLast.isEmpty)
    else if e = dot ∨ e = [] then (names, !names.isEmpty)
    else (names ++ [e], false)

/-- `std::filesystem::path::lexically_normal` (generic format, no root name): the empty path
stays empty, runs of slashes collapse, dots go, `name/..` goes, dot-dots after the root go, a
separator after a final dot-dot goes, and an empty result is `"."`. -/
def lexically_normal (p : Str) : Str :=
  if p = [] then []
  else
    let rooted : Bool := p.head? = some '/'
    let names := path_filenames p
    let elems := if p.getLast? = some '/' ∧ names.isEmpty = false then names ++ [[]] else names
    let r := elems.foldl (normal_step rooted) ([], false)
    let trail : Bool := r.2 && !(r.1.getLast? = some dotdot)
    if rooted = false ∧ r.1.isEmpty then dot
    else (if rooted then ['/'] else []) ++ join_slash r.1 ++ (if trail then ['/'] else [])

/-! ### `add_mapping` -/

/-- Modelled from the spec: the members of `impl_default` are declared in `default.h`, which
is not part of the sources at hand; `default.cpp` uses the root of the tree and the flat index
of created nodes. A `shared_ptr<path_element>` held outside the tree is kept as the key path
that leads from the root to the node, so `m_path_elements` is a list of key paths in the
order of the `push_back` calls. -/
structure impl_default where
  m_virtual_file_root : path_element
  m_path_elements : List (List Str)

/-- Modelled from the spec: the state after construction (the constructor is in `default.h`):
a root without overlays or children and an empty index. -/
def impl_default.empty : impl_default :=
  ⟨path_element.mk [] [] [], []⟩

/-- Lines 329 to 333 of `add_mapping`: `"/" + el` for every element of `path_elements`. -/
def virtual_of : List Str → Str
  | [] => []
  | el :: rest => '/' :: (el ++ virtual_of rest)

/-- Assignment `m[key] = v` of `std::map`: replaces the value of an existing key, adds the
key otherwise. -/
def map_set : List (Str × path_element) → Str → path_element → List (Str × path_element)
  | [], key, v => [(key, v)]
  | (k, w) :: m, key, v => if k = key then (k, v) :: m else (k, w) :: map_set m key v

/-- Lines 322 to 345 of `add_mapping` from the node `tree` on: `path_elements` are the
non-empty segments consumed so far (they are also the key path of `tree`), `it` the segments
still to come. The result is the node after the call and the key paths of the nodes created
below it, in creation order. -/
def add_mapping_walk (phys : Str) : List Str → List Str → path_element →
    path_element × List (List Str)
  | _, [], tree => (path_element.mk tree.virtual_full (tree.physical ++ [phys]) tree.next, [])
  | path_elements, seg :: it, tree =>
    if seg = [] then add_mapping_walk phys path_elements it tree
    else
      let path_elements2 := path_elements ++ [seg]
      match map_find tree.next seg with
      | none =>
        let fresh := path_element.mk (virtual_of path_elements2) [] []
        let r := add_mapping_walk phys path_elements2 it fresh
        (path_element.mk tree.virtual_full tree.physical (map_set tree.next seg r.1),
          path_elements2 :: r.2)
      | some child =>
        let r := add_mapping_walk phys path_elements2 it child
        (path_element.mk tree.virtual_full tree.physical (map_set tree.next seg r.1), r.2)

/-- `impl_default::add_mapping(viewPhysical, viewVirtual)`. -/
def add_mapping (s : impl_default) (viewPhysical viewVirtual : Str) : impl_default :=
  let phys := replace_backslash viewPhysical
  let virt := replace_backslash viewVirtual
  let r := add_mapping_walk (lexically_normal phys) [] (istream_split virt) s.m_virtual_file_root
  ⟨r.1, s.m_path_elements ++ r.2⟩

/-- A sequence of `add_mapping` calls, from the first to the last. -/
def add_mappings (s : impl_default) : List (Str × Str) → impl_default
  | [] => s
  | (p, v) :: rest => add_mappings (add_mapping s p v) rest

/-! ### `get_info_physical` -/

/-- `path::is_relative()` on a POSIX system: the path has no root directory. -/
def is_relative (p : Str) : Bool :=
  !(p.head? = some '/')

/-- `path::has_filename()`: the last element is a non-empty name. -/
def has_filename (p : Str) : Bool :=
  !p.isEmpty && !(p.getLast? = some '/')

/-- `operator/` of two paths: an absolute right side replaces the left side; otherwise the
right side is appended, after a separator when the left side ends with a name. -/
def path_append (p q : Str) : Str :=
  if q.head? = some '/' then q
  else if has_filename p then p ++ '/' :: q
  else p ++ q

/-- A string without the slashes at its end. -/
def drop_trailing_slashes (p : Str) : Str :=
  (p.reverse.dropWhile (fun c => c = '/')).reverse

/-- `path::parent_path()`: the path itself when it has no name; otherwise the string up to the
end of the element before the last one. -/
def parent_path (p : Str) : Str :=
  if (path_filenames p).isEmpty then p
  else
    let q :=
      if p.getLast? = some '/' then drop_trailing_slashes p
      else drop_trailing_slashes (p.reverse.dropWhile (fun c => c ≠ '/')).reverse
    if q.isEmpty ∧ p.head? = some '/' then ['/'] else q

/-- `std::mismatch(first1, last1, first2)`, the form without an end of the second range: the
second range is read for as long as the first has elements. The result is what is left of the
first range at the first difference (empty for `last1`). -/
def mismatch : List Str → List Str → Except Fault (List Str)
  | [], _ => .ok []
  | _ :: _, [] => .error .read_past_end
  | a :: l1, b :: l2 => if a = b then mismatch l1 l2 else .ok (a :: l1)

/-- `std::string::substr(pos)`: throws `std::out_of_range` when `pos > size()`. -/
def substr (s : Str) (pos : Nat) : Except Fault Str :=
  if pos > s.length then .error .substr_out_of_range else .ok (s.drop pos)

/-- The node a key path leads to from `n`: what dereferencing the pointer gives. -/
def node_at : path_element → List Str → Option path_element
  | n, [] => some n
  | n, k :: ks =>
    match map_find n.next k with
    | some c => node_at c ks
    | none => none

/-- Lines 275 to 303 of `get_info_physical`: the overlays of one indexed node. -/
def physical_overlays (file_exists : Str → Bool) (root : path_element) (toFindPath : Str)
    (current : pathinfo) (virtual_full : Str) : List Str → Except Fault (Option pathinfo)
  | [] => .ok none
  | phys :: rest => do
    let rootEnd ← mismatch (path_elements phys) (path_elements toFindPath)
    if rootEnd.isEmpty ∧ path_elements phys ≠ path_elements toFindPath then do
      let tail ← substr toFindPath (phys.length + 1)
      let res ← get_info_virtual file_exists root (virtual_full ++ tail) current
      if res.isSome then pure res
      else physical_overlays file_exists root toFindPath current virtual_full rest
    else physical_overlays file_exists root toFindPath current virtual_full rest

/-- Lines 273 to 305 of `get_info_physical`: the indexed nodes in order. -/
def physical_nodes (file_exists : Str → Bool) (root : path_element) (toFindPath : Str)
    (current : pathinfo) : List path_element → Except Fault (Option pathinfo)
  | [] => .ok none
  | it :: rest => do
    match ← physical_overlays file_exists root toFindPath current it.virtual_full it.physical with
    | some res => pure (some res)
    | none => physical_nodes file_exists root toFindPath current rest

/-- Lines 250 to 265 of `get_info_physical`: the path looked for. `is_regular_file` is the
file system's answer to `std::filesystem::is_regular_file`. -/
def to_find_path (is_regular_file : Str → Bool) (viewVirtual : Str) (current : pathinfo) : Str :=
  let toFindPath := lexically_normal viewVirtual
  if is_relative toFindPath ∨ (viewVirtual.length > 3 ∧
      (viewVirtual.take 3 = ['.', '.', '/'] ∨ viewVirtual.take 3 = ['.', '.', '\\'])) then
    if is_regular_file current.physical then
      lexically_normal (path_append (parent_path current.physical) toFindPath)
    else
      lexically_normal (path_append current.physical toFindPath)
  else toFindPath

/-- `impl_default::get_info_physical`. The nodes of `m_path_elements` are read through their
key paths. -/
def get_info_physical (file_exists is_regular_file : Str → Bool) (s : impl_default)
    (viewVirtual : Str) (current : pathinfo) : Except Fault (Option pathinfo) :=
  physical_nodes file_exists s.m_virtual_file_root
    (to_find_path is_regular_file viewVirtual current) current
    (s.m_path_elements.filterMap (node_at s.m_virtual_file_root))

/-! ### Notions used to state the properties -/

/-- The cursor node and the remainder with which line 205 of `get_info_virtual` is reached:
the back of `nodes` after the walk and the string built from the rest of the iterator; `none`
when the function returned before. -/
def walk_result (root : path_element) (viewVirtual : Str) (current : pathinfo) :
    Option (path_element × Str) :=
  if cleanse viewVirtual = [] then none
  else
    match start_nodes root (cleanse viewVirtual) current with
    | .ok (some nodes0) =>
      match explore nodes0 (istream_split (cleanse viewVirtual)) with
      | .ok (n :: _, it) => some (n, build_remainder it)
      | _ => none
    | _ => none

/-- The non-empty segments of a virtual path, the ones the loops do not skip. -/
def segments (virt : Str) : List Str :=
  (istream_split virt).filter (fun s => !s.isEmpty)

/-! ### Sample states -/

/-- A current `pathinfo` with an empty virtual path: resolution starts at the root. -/
def root_info : pathinfo := ⟨[], []⟩

/-- Two mounts on one virtual path: `(/a, /m)` first, `(/b, /m)` second. -/
def overlay_state : impl_default :=
  add_mappings impl_default.empty [("/a".toList, "/m".toList), ("/b".toList, "/m".toList)]

/-- A file system holding `/a/f.txt` and `/b/f.txt`. -/
def overlay_files (p : Str) : Bool :=
  p = "/a/f.txt".toList || p = "/b/f.txt".toList

/-- A file system holding `/a/x/y` only. -/
def remainder_files (p : Str) : Bool :=
  p = "/a/x/y".toList

/-- One mount of the directory `/a/b` on the virtual path `/m`. -/
def deep_state : impl_default :=
  add_mapping impl_default.empty "/a/b".toList "/m".toList

/-- All pieces of a string between slashes, the last one included when it is empty: what
`istream_split` yields for the part of a string that is followed by a further slash. -/
def split_all : Str → List Str
  | [] => [[]]
  | c :: cs =>
    if c = '/' then [] :: split_all cs
    else
      match split_all cs with
      | [] => [[c]]
      | s :: ss => (c :: s) :: ss

/-- The mounts `(/p1, /m)` and `(/p2, /m/sub)`: the second one is below the first. -/
def shadow_mounts : List (Str × Str) :=
  [("/p1".toList, "/m".toList), ("/p2".toList, "/m/sub".toList)]

/-- The state after `shadow_mounts`. -/
def shadow_state : impl_default :=
  add_mappings impl_default.empty shadow_mounts

/-- A file system holding `/p1/sub/x.txt` only. -/
def shadow_files (p : Str) : Bool :=
  p = "/p1/sub/x.txt".toList

/-- A file system holding `/a/b/f.txt` only. -/
def deep_files (p : Str) : Bool :=
  p = "/a/b/f.txt".toList

/-- The invariant of the mount tree: a node reached by the key path `ks` has the
`virtual_full` `"/" + k` for every key `k` of `ks`; the keys are not empty and contain neither
a slash nor a backslash; and no node has two children under one key. -/
def tree_inv (root : path_element) : Prop :=
  ∀ ks n, node_at root ks = some n →
    n.virtual_full = virtual_of ks ∧ (∀ k ∈ ks, k ≠ [] ∧ '/' ∉ k ∧ '\\' ∉ k) ∧
      (n.next.map Prod.fst).Nodup

/-- The invariant of the flat index: it has no key path twice, and its key paths are exactly
the non-empty key paths that lead to a node. -/
def index_inv (s : impl_default) : Prop :=
  s.m_path_elements.Nodup ∧
    ∀ ks, ks ∈ s.m_path_elements ↔ ks ≠ [] ∧ (node_at s.m_virtual_file_root ks).isSome = true


/-- The tree `b` is the tree `a` with further overlays: the same key paths lead to a node in
both, and a node of `b` has the overlays of the node of `a` first, in their order, then its
own. -/
def overlays_grown (a b : path_element) : Prop :=
  (∀ ks n, node_at a ks = some n →
    ∃ n2, node_at b ks = some n2 ∧ ∃ extra, n2.physical = n.physical ++ extra) ∧
  ∀ ks, node_at a ks = none → node_at b ks = none


/-! ### Preprocessor macros (`src/runtime/parser/preprocessor.h`)

The class `sqf::runtime::parser::macro`; its Lean name has an underscore at the end. The
types `diagnostics::diag_info` and `runtime` are declared outside the sources at hand and
are type parameters here; `diag_info` has a default value, the one `{}` builds. -/

/-- A value of the function pointer type `macro::callback`, lines 28 to 34: `none` is
`nullptr`, `some a` is the address `a` of a function. -/
abbrev callback := Option Nat

/-- The members of `macro`, lines 36 to 42. -/
structure macro_ (diag_info : Type) where
  m_name : Str
  m_content : Str
  m_args : List Str
  m_is_callable : Bool
  m_callback : callback
  m_diag_info : diag_info

namespace macro_

/-- The constructor `macro(diag_info, name, args, is_callable, content, callback)`, lines 45
to 51. -/
def make {diag_info : Type}
    (diag_info_ : diag_info) (name : Str) (args : List Str) (is_callable : Bool)
    (content : Str) (callback_ : callback) : macro_ diag_info :=
  ⟨name, content, args, is_callable, callback_, diag_info_⟩

/-- `macro(diag_info, name)`, line 53. -/
def of_dinf_name {diag_info : Type} (diag_info_ : diag_info) (name : Str) : macro_ diag_info :=
  make diag_info_ name [] false [] none

/-- `macro(diag_info, name, content)`, line 54. -/
def of_dinf_name_content {diag_info : Type}
    (diag_info_ : diag_info) (name content : Str) : macro_ diag_info :=
  make diag_info_ name [] false content none

/-- `macro(diag_info, name, args)`, line 55. -/
def of_dinf_name_args {diag_info : Type} (diag_info_ : diag_info) (name : Str) (args : List Str) :
    macro_ diag_info :=
  make diag_info_ name args true [] none

/-- `macro(diag_info, name, args, content)`, line 56. -/
def of_dinf_name_args_content {diag_info : Type}
    (diag_info_ : diag_info) (name : Str) (args : List Str)
    (content : Str) : macro_ diag_info :=
  make diag_info_ name args true content none

/-- `macro(name)`, line 57. -/
def of_name {diag_info : Type} [Inhabited diag_info] (name : Str) : macro_ diag_info :=
  make default name [] false [] none

/-- `macro(name, content)`, line 58. -/
def of_name_content {diag_info : Type}
    [Inhabited diag_info] (name content : Str) : macro_ diag_info :=
  make default name [] false content none

/-- `macro(name, args, content)`, line 60. -/
def of_name_args_content {diag_info : Type} [Inhabited diag_info] (name : Str) (args : List Str)
    (content : Str) : macro_ diag_info :=
  make default name args true content none

/-- `name()`, line 63. -/
def name {diag_info : Type} (self : macro_ diag_info) : Str := self.m_name

/-- `content()`, line 64. -/
def content {diag_info : Type} (self : macro_ diag_info) : Str := self.m_content

/-- `args()`, line 65. -/
def args {diag_info : Type} (self : macro_ diag_info) : List Str := self.m_args

/-- `diag_info()`, line 66. -/
def diag_info_of {diag_info : Type} (self : macro_ diag_info) : diag_info := self.m_diag_info

/-- `has_callback()`, line 67: the pointer converted to `bool`. -/
def has_callback {diag_info : Type} (self : macro_ diag_info) : Bool := self.m_callback.isSome

/-- `is_callable()`, line 68. -/
def is_callable {diag_info : Type} (self : macro_ diag_info) : Bool := self.m_is_callable

end macro_

end sqf

open sqf

/-! # Diagnostics (`src/logging.cpp`)

The message classes, the location prefix and the level filter of `CanLog`. The classes of
`logging.cpp` are global or in `logmessage::*`; they are embedded outside the namespace `sqf`.
A function that ends without a `return` statement has no defined result; that is the fault
`no_return_value`. -/

/-- `std::to_string` of an unsigned value, and `stream << num`: the decimal digits. -/
def decimal (num : Nat) : Str :=
  Nat.toDigits 10 num

/-- Modelled from the spec: `LogLocationInfo` is declared in `logging.h`, which is not part of
the sources at hand; its members `path`, `line` and `col` are the ones `logging.cpp` assigns
and formats, the latter two unsigned. -/
structure LogLocationInfo where
  path : Str
  line : Nat
  col : Nat

/-- `LogLocationInfo::format()`, lines 52 to 77; `output.reserve` has no effect on the result. -/
def LogLocationInfo.format (self : LogLocationInfo) : Str :=
  let output : Str := []
  let output := output ++ "[L".toList
  let output := output ++ decimal self.line
  let output := output ++ "[C".toList
  let output := output ++ decimal self.col
  let output := if self.path ≠ [] then (output ++ "|".toList) ++ self.path else output
  output ++ "]\t".toList

/-- Modelled from the spec: the severity levels of `loglevel` (`logging.h`): "trace, verbose,
info, warning, error, fatal". -/
inductive loglevel where
  | fatal
  | error
  | warning
  | info
  | verbose
  | trace
  deriving DecidableEq, Repr

/-- Modelled from the spec: what `CanLog::log` uses of a `LogMessageBase` (`logging.h`): the
result of `getLevel()` and the result of the virtual `formatMessage()`, which is a string or
no value at all. -/
structure LogMessageBase where
  getLevel : loglevel
  formatMessage : Except Fault Str

/-- Modelled from the spec: what `CanLog::log` uses of a `Logger` (`logging.h`): the answer of
`isEnabled(level)`. The calls of the virtual `log(level, message)` are what `CanLog::log`
produces; they are kept as the list of their arguments. -/
structure Logger where
  isEnabled : loglevel → Bool

/-- `CanLog::log(LogMessageBase& message)`, lines 81 to 88, with `m_logger` as argument: the
calls made to `m_logger.log`, in order. -/
def CanLog.log (m_logger : Logger) (message : LogMessageBase) :
    Except Fault (List (loglevel × Str)) :=
  if !m_logger.isEnabled message.getLevel then .ok []
  else do
    let text ← message.formatMessage
    .ok [(message.getLevel, text)]

namespace logmessage

/-- Modelled from the spec: `::sqf::type` is an enumeration declared outside the sources at
hand; a value is kept as its number. -/
abbrev type := Nat

namespace runtime

/-- `logmessage::runtime::to_string`, lines 918 to 923. -/
def to_string (num : Nat) : Str :=
  decimal num

/-- `logmessage::runtime::to_cardinal_string`, lines 924 to 960. -/
def to_cardinal_string (num : Nat) : Str :=
  match num with
  | 0 => "zero".toList
  | 1 => "one".toList
  | 2 => "two".toList
  | 3 => "three".toList
  | 4 => "four".toList
  | 5 => "five".toList
  | 6 => "six".toList
  | 7 => "seven".toList
  | 8 => "eight".toList
  | 9 => "nine".toList
  | 10 => "ten".toList
  | 11 => "eleven".toList
  | 12 => "twelve".toList
  | _ => decimal num

/-- `logmessage::runtime::to_ordinal_string`, lines 961 to 997. -/
def to_ordinal_string (num : Nat) : Str :=
  match num with
  | 0 => "none".toList
  | 1 => "first".toList
  | 2 => "second".toList
  | 3 => "third".toList
  | 4 => "fourth".toList
  | 5 => "fifth".toList
  | 6 => "sixth".toList
  | 7 => "seventh".toList
  | 8 => "eighth".toList
  | 9 => "ninth".toList
  | 10 => "tenth".toList
  | 11 => "eleventh".toList
  | 12 => "twelfth".toList
  | _ => decimal num ++ ['.']

end runtime

open runtime

/-- Modelled from the spec: the message classes of `logging.cpp` are declared in `logging.h`,
which is not part of the sources at hand. They are kept as one tagged sum over the message
kinds, named `<namespace>_<class>`; every kind carries the `location` of `LogMessageBase` and
the members its `formatMessage` reads: strings, `size_t` values (natural numbers), `sqf::type`
values, and for `IncludeFailed` the text of `exception.what()`. -/
inductive Message where
  | preprocessor_ArgCountMissmatch (location : LogLocationInfo)
  | preprocessor_UnexpectedDataAfterInclude (location : LogLocationInfo)
  | preprocessor_RecursiveInclude (location : LogLocationInfo) (includeTree : Str)
  | preprocessor_IncludeFailed (location : LogLocationInfo) (exception_what : Str) (line : Str)
  | preprocessor_MacroDefinedTwice (location : LogLocationInfo) (macroname : Str)
  | preprocessor_MacroNotFound (location : LogLocationInfo) (macroname : Str)
  | preprocessor_UnexpectedIfdef (location : LogLocationInfo)
  | preprocessor_UnexpectedIfndef (location : LogLocationInfo)
  | preprocessor_UnexpectedElse (location : LogLocationInfo)
  | preprocessor_UnexpectedEndif (location : LogLocationInfo)
  | preprocessor_MissingEndif (location : LogLocationInfo)
  | preprocessor_UnknownInstruction (location : LogLocationInfo) (instruction : Str)
  | assembly_ExpectedSemicolon (location : LogLocationInfo)
  | assembly_NoViableAlternativeInstructions (location : LogLocationInfo)
  | assembly_NoViableAlternativeArg (location : LogLocationInfo)
  | assembly_ExpectedEndStatement (location : LogLocationInfo)
  | assembly_ExpectedCallNular (location : LogLocationInfo)
  | assembly_ExpectedNularOperator (location : LogLocationInfo)
  | assembly_UnknownNularOperator (location : LogLocationInfo) (operator_name : Str)
  | assembly_ExpectedCallUnary (location : LogLocationInfo)
  | assembly_ExpectedUnaryOperator (location : LogLocationInfo)
  | assembly_UnknownUnaryOperator (location : LogLocationInfo) (operator_name : Str)
  | assembly_ExpectedCallBinary (location : LogLocationInfo)
  | assembly_ExpectedBinaryOperator (location : LogLocationInfo)
  | assembly_UnknownBinaryOperator (location : LogLocationInfo) (operator_name : Str)
  | assembly_ExpectedAssignTo (location : LogLocationInfo)
  | assembly_ExpectedVariableName (location : LogLocationInfo)
  | assembly_ExpectedAssignToLocal (location : LogLocationInfo)
  | assembly_ExpectedGetVariable (location : LogLocationInfo)
  | assembly_ExpectedMakeArray (location : LogLocationInfo)
  | assembly_ExpectedInteger (location : LogLocationInfo)
  | assembly_ExpectedPush (location : LogLocationInfo)
  | assembly_ExpectedTypeName (location : LogLocationInfo)
  | assembly_NumberOutOfRange (location : LogLocationInfo)
  | sqf_ExpectedStatementTerminator (location : LogLocationInfo)
  | sqf_NoViableAlternativeStatement (location : LogLocationInfo)
  | sqf_MissingUnderscoreOnPrivateVariable (location : LogLocationInfo) (m_variable_name : Str)
  | sqf_ExpectedBinaryExpression (location : LogLocationInfo)
  | sqf_MissingRightArgument (location : LogLocationInfo) (m_operator_name : Str)
  | sqf_MissingRoundClosingBracket (location : LogLocationInfo)
  | sqf_MissingCurlyClosingBracket (location : LogLocationInfo)
  | sqf_MissingSquareClosingBracket (location : LogLocationInfo)
  | sqf_NoViableAlternativePrimaryExpression (location : LogLocationInfo)
  | sqf_EmptyNumber (location : LogLocationInfo)
  | sqf_ExpectedSQF (location : LogLocationInfo)
  | sqf_EndOfFile (location : LogLocationInfo)
  | config_ExpectedStatementTerminator (location : LogLocationInfo)
  | config_NoViableAlternativeNode (location : LogLocationInfo)
  | config_ExpectedIdentifier (location : LogLocationInfo)
  | config_MissingRoundClosingBracket (location : LogLocationInfo)
  | config_MissingCurlyOpeningBracket (location : LogLocationInfo)
  | config_MissingCurlyClosingBracket (location : LogLocationInfo)
  | config_MissingSquareClosingBracket (location : LogLocationInfo)
  | config_MissingEqualSign (location : LogLocationInfo)
  | config_ExpectedArray (location : LogLocationInfo)
  | config_ExpectedValue (location : LogLocationInfo)
  | config_NoViableAlternativeValue (location : LogLocationInfo)
  | config_EndOfFileNotReached (location : LogLocationInfo)
  | linting_UnassignedVariable (location : LogLocationInfo) (m_variable_name : Str)
  | runtime_Stacktrace (location : LogLocationInfo) (m_stacktrace : Str)
  | runtime_MaximumInstructionCountReached (location : LogLocationInfo) (m_maximum_instruction_count : Nat)
  | runtime_ExpectedArraySizeMissmatch (location : LogLocationInfo) (m_expected_min : Nat) (m_expected_max : Nat) (m_got : Nat)
  | runtime_ExpectedArraySizeMissmatchWeak (location : LogLocationInfo) (m_expected_min : Nat) (m_expected_max : Nat) (m_got : Nat)
  | runtime_ExpectedMinimumArraySizeMissmatch (location : LogLocationInfo) (m_expected : Nat) (m_got : Nat)
  | runtime_ExpectedMinimumArraySizeMissmatchWeak (location : LogLocationInfo) (m_expected : Nat) (m_got : Nat)
  | runtime_ExpectedArrayTypeMissmatch (location : LogLocationInfo) (m_position : Nat) (m_expected : List type) (m_got : type)
  | runtime_ExpectedArrayTypeMissmatchWeak (location : LogLocationInfo) (m_position : Nat) (m_expected : List type) (m_got : type)
  | runtime_IndexOutOfRange (location : LogLocationInfo) (m_range : Nat) (m_index : Nat)
  | runtime_IndexOutOfRangeWeak (location : LogLocationInfo) (m_range : Nat) (m_index : Nat)
  | runtime_NegativeIndex (location : LogLocationInfo)
  | runtime_NegativeIndexWeak (location : LogLocationInfo)
  | runtime_IndexEqualsRange (location : LogLocationInfo) (m_range : Nat) (m_index : Nat)
  | runtime_ReturningNil (location : LogLocationInfo)
  | runtime_ReturningEmptyArray (location : LogLocationInfo)
  | runtime_NegativeSize (location : LogLocationInfo)
  | runtime_NegativeSizeWeak (location : LogLocationInfo)
  | runtime_ArrayRecursion (location : LogLocationInfo)
  | runtime_InfoMessage (location : LogLocationInfo) (m_source : Str) (m_message : Str)
  | runtime_SuspensionDisabled (location : LogLocationInfo)
  | runtime_SuspensionInUnscheduledEnvironment (location : LogLocationInfo)
  | runtime_ReturningConfigNull (location : LogLocationInfo)
  | runtime_AssertFailed (location : LogLocationInfo)
  | runtime_StartIndexExceedsToIndex (location : LogLocationInfo) (m_from : Nat) (m_to : Nat)
  | runtime_StartIndexExceedsToIndexWeak (location : LogLocationInfo) (m_from : Nat) (m_to : Nat)
  | runtime_MagicVariableTypeMissmatch (location : LogLocationInfo) (m_variable_name : Str) (m_expected : type) (m_got : type)
  | runtime_ScriptHandleAlreadyTerminated (location : LogLocationInfo)
  | runtime_ScriptHandleAlreadyFinished (location : LogLocationInfo)
  | runtime_ExtensionLoaded (location : LogLocationInfo) (m_extension_name : Str) (m_version : Str)
  | runtime_ExtensionNotTerminatingVersionString (location : LogLocationInfo) (m_extension_name : Str)
  | runtime_ExtensionNotTerminatingCallExtensionBufferString (location : LogLocationInfo) (m_extension_name : Str)
  | runtime_ExtensionNotTerminatingCallExtensionArgBufferString (location : LogLocationInfo) (m_extension_name : Str)
  | runtime_LibraryNameContainsPath (location : LogLocationInfo) (m_extension_name : Str)
  | runtime_ReturningEmptyString (location : LogLocationInfo)
  | runtime_ExtensionRuntimeError (location : LogLocationInfo) (m_extension_name : Str) (m_what : Str)
  | runtime_FileNotFound (location : LogLocationInfo) (m_filename : Str)
  | runtime_ScopeNameAlreadySet (location : LogLocationInfo)
  | runtime_ScriptNameAlreadySet (location : LogLocationInfo)
  | runtime_ReturningEmptyScriptHandle (location : LogLocationInfo)

/-- The `formatMessage()` of every message kind, each arm from the definition at the lines
given; `output.reserve` has no effect on the result. `type_str` is `::sqf::type_str`, which is
declared outside the sources at hand. The two kinds whose definition ends without a `return`
statement have no return value. -/
def Message.formatMessage (type_str : type → Str) : Message → Except Fault Str
  -- preprocessor::ArgCountMissmatch, lines 101 to 108
  | .preprocessor_ArgCountMissmatch location =>
    .ok (location.format ++ "Arg Count Missmatch.".toList)
  -- preprocessor::UnexpectedDataAfterInclude, lines 110 to 118
  | .preprocessor_UnexpectedDataAfterInclude location =>
    .ok (location.format ++ "Unexpected data after include path.".toList)
  -- preprocessor::RecursiveInclude, lines 120 to 128
  | .preprocessor_RecursiveInclude location includeTree =>
    .ok (location.format ++ "Recursive include detected. Include Tree:".toList ++ includeTree)
  -- preprocessor::IncludeFailed, lines 130 to 152
  | .preprocessor_IncludeFailed location exception_what line =>
    .ok (location.format ++ "Failed to include '".toList ++ line ++ "' into file '".toList ++ location.path ++ "']\t':".toList ++ exception_what)
  -- preprocessor::MacroDefinedTwice, lines 154 to 168
  | .preprocessor_MacroDefinedTwice location macroname =>
    .ok (location.format ++ "Macro '".toList ++ macroname ++ "' defined twice.".toList)
  -- preprocessor::MacroNotFound, lines 170 to 184
  | .preprocessor_MacroNotFound location macroname =>
    .ok (location.format ++ "Macro '".toList ++ macroname ++ "' not found.".toList)
  -- preprocessor::UnexpectedIfdef, lines 186 to 197
  | .preprocessor_UnexpectedIfdef location =>
    .ok (location.format ++ "Unexpected IFDEF. Already inside of a IFDEF or IFNDEF enclosure.".toList)
  -- preprocessor::UnexpectedIfndef, lines 199 to 210
  | .preprocessor_UnexpectedIfndef location =>
    .ok (location.format ++ "Unexpected IFNDEF. Already inside of a IFDEF or IFNDEF enclosure.".toList)
  -- preprocessor::UnexpectedElse, lines 212 to 223
  | .preprocessor_UnexpectedElse location =>
    .ok (location.format ++ "Unexpected ELSE. Not inside of a IFDEF or IFNDEF enclosure.".toList)
  -- preprocessor::UnexpectedEndif, lines 225 to 236
  | .preprocessor_UnexpectedEndif location =>
    .ok (location.format ++ "Unexpected ENDIF. Not inside of a IFDEF or IFNDEF enclosure.".toList)
  -- preprocessor::MissingEndif, lines 237 to 248
  | .preprocessor_MissingEndif location =>
    .ok (location.format ++ "Missing ENDIF. Still inside of a IFDEF or IFNDEF enclosure at end of file.".toList)
  -- preprocessor::UnknownInstruction, lines 250 to 264
  | .preprocessor_UnknownInstruction location instruction =>
    .ok (location.format ++ "Unknown PreProcessor instruction '".toList ++ instruction ++ "'.".toList)
  -- assembly::ExpectedSemicolon, lines 269 to 281
  | .assembly_ExpectedSemicolon location =>
    .ok (location.format ++ "Expected Semicolon.".toList)
  -- assembly::NoViableAlternativeInstructions, lines 282 to 296
  | .assembly_NoViableAlternativeInstructions location =>
    .ok (location.format ++ "No viable alternative at Instruction Path.Expected: ENDSTATEMENT or CALLUNARY or CALLBINARY or ASSIGNTOor ASSIGNTOLOCAL or CALLNULAR or GETVARIABLE or MAKEARRAY or PUSH".toList)
  -- assembly::NoViableAlternativeArg, lines 297 to 311
  | .assembly_NoViableAlternativeArg location =>
    .ok (location.format ++ "No viable alternative at Instruction Path.Expected: CALLUNARY or CALLBINARY or ASSIGNTOor ASSIGNTOLOCAL or CALLNULAR or GETVARIABLE or MAKEARRAY".toList)
  -- assembly::ExpectedEndStatement, lines 312 to 324
  | .assembly_ExpectedEndStatement location =>
    .ok (location.format ++ "Expected literal 'endStatement'.".toList)
  -- assembly::ExpectedCallNular, lines 325 to 337
  | .assembly_ExpectedCallNular location =>
    .ok (location.format ++ "Expected literal 'callNular'.".toList)
  -- assembly::ExpectedNularOperator, lines 338 to 350
  | .assembly_ExpectedNularOperator location =>
    .ok (location.format ++ "Expected name of nular operator.".toList)
  -- assembly::UnknownNularOperator, lines 351 to 366
  | .assembly_UnknownNularOperator location operator_name =>
    .ok (location.format ++ "Unknown nular operator '".toList ++ operator_name ++ "'.".toList)
  -- assembly::ExpectedCallUnary, lines 367 to 379
  | .assembly_ExpectedCallUnary location =>
    .ok (location.format ++ "Expected literal 'callUnary'.".toList)
  -- assembly::ExpectedUnaryOperator, lines 380 to 392
  | .assembly_ExpectedUnaryOperator location =>
    .ok (location.format ++ "Expected name of unary operator.".toList)
  -- assembly::UnknownUnaryOperator, lines 393 to 408
  | .assembly_UnknownUnaryOperator location operator_name =>
    .ok (location.format ++ "Unknown unary operator '".toList ++ operator_name ++ "'.".toList)
  -- assembly::ExpectedCallBinary, lines 409 to 421
  | .assembly_ExpectedCallBinary location =>
    .ok (location.format ++ "Expected literal 'callBinary'.".toList)
  -- assembly::ExpectedBinaryOperator, lines 422 to 434
  | .assembly_ExpectedBinaryOperator location =>
    .ok (location.format ++ "Expected name of binary operator.".toList)
  -- assembly::UnknownBinaryOperator, lines 435 to 450
  | .assembly_UnknownBinaryOperator location operator_name =>
    .ok (location.format ++ "Unknown binary operator '".toList ++ operator_name ++ "'.".toList)
  -- assembly::ExpectedAssignTo, lines 451 to 463
  | .assembly_ExpectedAssignTo location =>
    .ok (location.format ++ "Expected literal 'assignTo'.".toList)
  -- assembly::ExpectedVariableName, lines 464 to 476
  | .assembly_ExpectedVariableName location =>
    .ok (location.format ++ "Expected variable name.".toList)
  -- assembly::ExpectedAssignToLocal, lines 477 to 489
  | .assembly_ExpectedAssignToLocal location =>
    .ok (location.format ++ "Expected literal 'assignToLocal'.".toList)
  -- assembly::ExpectedGetVariable, lines 490 to 502
  | .assembly_ExpectedGetVariable location =>
    .ok (location.format ++ "Expected literal 'getVariable'.".toList)
  -- assembly::ExpectedMakeArray, lines 503 to 515
  | .assembly_ExpectedMakeArray location =>
    .ok (location.format ++ "Expected literal 'makeArray'.".toList)
  -- assembly::ExpectedInteger, lines 516 to 528
  | .assembly_ExpectedInteger location =>
    .ok (location.format ++ "Expected integer.".toList)
  -- assembly::ExpectedPush, lines 529 to 541
  | .assembly_ExpectedPush location =>
    .ok (location.format ++ "Expected literal 'push'.".toList)
  -- assembly::ExpectedTypeName, lines 542 to 554
  | .assembly_ExpectedTypeName location =>
    .ok (location.format ++ "Expected type name.".toList)
  -- assembly::NumberOutOfRange, lines 555 to 567
  | .assembly_NumberOutOfRange location =>
    .ok (location.format ++ "Number out of range. Creating NaN value.".toList)
  -- sqf::ExpectedStatementTerminator, lines 572 to 584
  | .sqf_ExpectedStatementTerminator location =>
    .ok (location.format ++ "Expected Statement termination using `;` or `,`.".toList)
  -- sqf::NoViableAlternativeStatement, lines 585 to 597
  | .sqf_NoViableAlternativeStatement location =>
    .ok (location.format ++ "No viable alternative for Statement. Expected Assignment or Expression.".toList)
  -- sqf::MissingUnderscoreOnPrivateVariable, lines 598 to 613
  | .sqf_MissingUnderscoreOnPrivateVariable location m_variable_name =>
    .ok (location.format ++ "Missing underscore (`_`) for private variable with '".toList ++ m_variable_name ++ "'.".toList)
  -- sqf::ExpectedBinaryExpression, lines 614 to 626
  | .sqf_ExpectedBinaryExpression location =>
    .ok (location.format ++ "Expected Expression.".toList)
  -- sqf::MissingRightArgument, lines 627 to 643
  | .sqf_MissingRightArgument location m_operator_name =>
    .ok (location.format ++ "Missing right argument on operator '".toList ++ m_operator_name ++ "'.".toList)
  -- sqf::MissingRoundClosingBracket, lines 644 to 656
  | .sqf_MissingRoundClosingBracket location =>
    .ok (location.format ++ "Missing round closing bracket (`)`).".toList)
  -- sqf::MissingCurlyClosingBracket, lines 657 to 669
  | .sqf_MissingCurlyClosingBracket location =>
    .ok (location.format ++ "Missing curly closing bracket (`\x7d`).".toList)
  -- sqf::MissingSquareClosingBracket, lines 670 to 682
  | .sqf_MissingSquareClosingBracket location =>
    .ok (location.format ++ "Missing square closing bracket (`]`).".toList)
  -- sqf::NoViableAlternativePrimaryExpression, lines 683 to 695
  | .sqf_NoViableAlternativePrimaryExpression location =>
    .ok (location.format ++ "No viable alternative for Primary Expression. Expected NUMBER or UNARYEXPRESSION or NULAREXPRESSION or VARIABLE or STRING or CODE or BRACKETS or ARRAY.".toList)
  -- sqf::EmptyNumber, lines 696 to 708
  | .sqf_EmptyNumber location =>
    .ok (location.format ++ "The materialized numeric value is empty.".toList)
  -- sqf::ExpectedSQF, lines 709 to 721
  | .sqf_ExpectedSQF location =>
    .ok (location.format ++ "Expected SQF.".toList)
  -- sqf::EndOfFile, lines 722 to 734
  | .sqf_EndOfFile location =>
    .ok (location.format ++ "Unexpected end-of-file reached.".toList)
  -- config::ExpectedStatementTerminator, lines 739 to 751
  | .config_ExpectedStatementTerminator location =>
    .ok (location.format ++ "Expected Statement termination using `;`.".toList)
  -- config::NoViableAlternativeNode, lines 752 to 764
  | .config_NoViableAlternativeNode location =>
    .ok (location.format ++ "No viable alternative for Statement. Expected Confignode or Valuenode.".toList)
  -- config::ExpectedIdentifier, lines 765 to 777
  | .config_ExpectedIdentifier location =>
    .ok (location.format ++ "Expected Identifier.".toList)
  -- config::MissingRoundClosingBracket, lines 778 to 790
  | .config_MissingRoundClosingBracket location =>
    .ok (location.format ++ "Missing round closing bracket (`)`).".toList)
  -- config::MissingCurlyOpeningBracket, lines 791 to 803
  | .config_MissingCurlyOpeningBracket location =>
    .ok (location.format ++ "Missing curly opening bracket (`\x7b`).".toList)
  -- config::MissingCurlyClosingBracket, lines 804 to 816
  | .config_MissingCurlyClosingBracket location =>
    .ok (location.format ++ "Missing curly closing bracket (`\x7d`).".toList)
  -- config::MissingSquareClosingBracket, lines 817 to 829
  | .config_MissingSquareClosingBracket location =>
    .ok (location.format ++ "Missing square closing bracket (`]`).".toList)
  -- config::MissingEqualSign, lines 830 to 842
  | .config_MissingEqualSign location =>
    .ok (location.format ++ "Missing equal sign (`=`).".toList)
  -- config::ExpectedArray, lines 843 to 855
  | .config_ExpectedArray location =>
    .ok (location.format ++ "Expected Array.".toList)
  -- config::ExpectedValue, lines 856 to 868
  | .config_ExpectedValue location =>
    .ok (location.format ++ "Expected Value.".toList)
  -- config::NoViableAlternativeValue, lines 869 to 881
  | .config_NoViableAlternativeValue location =>
    .ok (location.format ++ "No viable alternative for Value. Expected String or Number or Localization or Array.".toList)
  -- config::EndOfFileNotReached, lines 882 to 895
  | .config_EndOfFileNotReached location =>
    .ok (location.format ++ "Parsing terminated before end of file was reached. This usually means that your provided config contains errors that the parser could not catch.".toList)
  -- linting::UnassignedVariable, lines 899 to 914
  | .linting_UnassignedVariable location m_variable_name =>
    .ok (location.format ++ "Unassigned variable '".toList ++ m_variable_name ++ "'.".toList)
  -- runtime::Stacktrace, lines 998 to 1004
  | .runtime_Stacktrace location m_stacktrace =>
    .ok (location.format ++ m_stacktrace)
  -- runtime::MaximumInstructionCountReached, lines 1005 to 1021
  | .runtime_MaximumInstructionCountReached location m_maximum_instruction_count =>
    .ok (location.format ++ "Maxium instruction count of ".toList ++ to_cardinal_string m_maximum_instruction_count ++ " reached.".toList)
  -- runtime::ExpectedArraySizeMissmatch, lines 1022 to 1073
  | .runtime_ExpectedArraySizeMissmatch location m_expected_min m_expected_max m_got =>
    if m_expected_min = m_expected_max then
      .ok (location.format ++ "Array was expected to have ".toList ++ to_cardinal_string m_expected_min ++ " elements but has ".toList ++ to_cardinal_string m_got ++ ".".toList)
    else
      .ok (location.format ++ "Array was expected to have ".toList ++ to_cardinal_string m_expected_min ++ " to ".toList ++ to_cardinal_string m_expected_max ++ " elements but has ".toList ++ to_cardinal_string m_got ++ ".".toList)
  -- runtime::ExpectedArraySizeMissmatchWeak, lines 1074 to 1125 and 1126 to 1177
  | .runtime_ExpectedArraySizeMissmatchWeak location m_expected_min m_expected_max m_got =>
    if m_expected_min = m_expected_max then
      .ok (location.format ++ "Array was expected to have ".toList ++ to_cardinal_string m_expected_min ++ " elements but has ".toList ++ to_cardinal_string m_got ++ ".".toList)
    else
      .ok (location.format ++ "Array was expected to have ".toList ++ to_cardinal_string m_expected_min ++ " to ".toList ++ to_cardinal_string m_expected_max ++ " elements but has ".toList ++ to_cardinal_string m_got ++ ".".toList)
  -- runtime::ExpectedMinimumArraySizeMissmatch, lines 1178 to 1199
  | .runtime_ExpectedMinimumArraySizeMissmatch location m_expected m_got =>
    .ok (location.format ++ "Array was expected to have at least ".toList ++ to_cardinal_string m_expected ++ " elements but has ".toList ++ to_cardinal_string m_got ++ ".".toList)
  -- runtime::ExpectedMinimumArraySizeMissmatchWeak, lines 1200 to 1221
  | .runtime_ExpectedMinimumArraySizeMissmatchWeak location m_expected m_got =>
    .ok (location.format ++ "Array was expected to have at least ".toList ++ to_cardinal_string m_expected ++ " elements but has ".toList ++ to_cardinal_string m_got ++ ".".toList)
  -- runtime::ExpectedArrayTypeMissmatch, lines 1222 to 1244
  | .runtime_ExpectedArrayTypeMissmatch _ _ _ _ =>
    .error .no_return_value
  -- runtime::ExpectedArrayTypeMissmatchWeak, lines 1245 to 1267
  | .runtime_ExpectedArrayTypeMissmatchWeak _ _ _ _ =>
    .error .no_return_value
  -- runtime::IndexOutOfRange, lines 1268 to 1289
  | .runtime_IndexOutOfRange location m_range m_index =>
    .ok (location.format ++ "The requested index ".toList ++ to_cardinal_string m_index ++ " exceeds the available range of ".toList ++ to_cardinal_string m_range ++ ".".toList)
  -- runtime::IndexOutOfRangeWeak, lines 1290 to 1311
  | .runtime_IndexOutOfRangeWeak location m_range m_index =>
    .ok (location.format ++ "The requested index ".toList ++ to_cardinal_string m_index ++ " exceeds the available range of ".toList ++ to_cardinal_string m_range ++ ".".toList)
  -- runtime::NegativeIndex, lines 1312 to 1324
  | .runtime_NegativeIndex location =>
    .ok (location.format ++ "The requested index is negative.".toList)
  -- runtime::NegativeIndexWeak, lines 1325 to 1337
  | .runtime_NegativeIndexWeak location =>
    .ok (location.format ++ "The requested index is negative.".toList)
  -- runtime::IndexEqualsRange, lines 1338 to 1359
  | .runtime_IndexEqualsRange location m_range m_index =>
    .ok (location.format ++ "The requested index ".toList ++ to_cardinal_string m_index ++ " is equal to the available range of ".toList ++ to_cardinal_string m_range ++ ".".toList)
  -- runtime::ReturningNil, lines 1360 to 1372
  | .runtime_ReturningNil location =>
    .ok (location.format ++ "Returning nil.".toList)
  -- runtime::ReturningEmptyArray, lines 1373 to 1385
  | .runtime_ReturningEmptyArray location =>
    .ok (location.format ++ "Returning empty array.".toList)
  -- runtime::NegativeSize, lines 1386 to 1398
  | .runtime_NegativeSize location =>
    .ok (location.format ++ "The requested size is negative.".toList)
  -- runtime::NegativeSizeWeak, lines 1399 to 1411
  | .runtime_NegativeSizeWeak location =>
    .ok (location.format ++ "The requested size is negative.".toList)
  -- runtime::ArrayRecursion, lines 1412 to 1424
  | .runtime_ArrayRecursion location =>
    .ok (location.format ++ "Array recursion.".toList)
  -- runtime::InfoMessage, lines 1425 to 1442
  | .runtime_InfoMessage location m_source m_message =>
    .ok (location.format ++ "[".toList ++ m_source ++ "] ".toList ++ m_message)
  -- runtime::SuspensionDisabled, lines 1443 to 1455
  | .runtime_SuspensionDisabled location =>
    .ok (location.format ++ "Suspension disabled.".toList)
  -- runtime::SuspensionInUnscheduledEnvironment, lines 1456 to 1468
  | .runtime_SuspensionInUnscheduledEnvironment location =>
    .ok (location.format ++ "Cannot suspend in non-scheduled environment.".toList)
  -- runtime::ReturningConfigNull, lines 1469 to 1481
  | .runtime_ReturningConfigNull location =>
    .ok (location.format ++ "Returning config null.".toList)
  -- runtime::AssertFailed, lines 1482 to 1494
  | .runtime_AssertFailed location =>
    .ok (location.format ++ "Assertion Failed.".toList)
  -- runtime::StartIndexExceedsToIndex, lines 1495 to 1516
  | .runtime_StartIndexExceedsToIndex location m_from m_to =>
    .ok (location.format ++ "Start index ".toList ++ to_cardinal_string m_from ++ " exceeds end index ".toList ++ to_cardinal_string m_to ++ ".".toList)
  -- runtime::StartIndexExceedsToIndexWeak, lines 1517 to 1538
  | .runtime_StartIndexExceedsToIndexWeak location m_from m_to =>
    .ok (location.format ++ "Start index ".toList ++ to_cardinal_string m_from ++ " exceeds end index ".toList ++ to_cardinal_string m_to ++ ".".toList)
  -- runtime::MagicVariableTypeMissmatch, lines 1539 to 1565
  | .runtime_MagicVariableTypeMissmatch location m_variable_name m_expected m_got =>
    .ok (location.format ++ "The Magic variable '".toList ++ m_variable_name ++ "' was expected to be of the type ".toList ++ type_str m_expected ++ " but is ".toList ++ type_str m_got ++ ".".toList)
  -- runtime::ScriptHandleAlreadyTerminated, lines 1566 to 1578
  | .runtime_ScriptHandleAlreadyTerminated location =>
    .ok (location.format ++ "Scripthandle already terminated.".toList)
  -- runtime::ScriptHandleAlreadyFinished, lines 1579 to 1591
  | .runtime_ScriptHandleAlreadyFinished location =>
    .ok (location.format ++ "Scripthandle already finished.".toList)
  -- runtime::ExtensionLoaded, lines 1592 to 1613
  | .runtime_ExtensionLoaded location m_extension_name m_version =>
    .ok (location.format ++ "Loaded extension '".toList ++ m_extension_name ++ "' with version ".toList ++ m_version ++ ".".toList)
  -- runtime::ExtensionNotTerminatingVersionString, lines 1614 to 1630
  | .runtime_ExtensionNotTerminatingVersionString location m_extension_name =>
    .ok (location.format ++ "Extension '".toList ++ m_extension_name ++ "' is not terminating the RVExtensionVersion buffer with a '\x00'.".toList)
  -- runtime::ExtensionNotTerminatingCallExtensionBufferString, lines 1631 to 1647
  | .runtime_ExtensionNotTerminatingCallExtensionBufferString location m_extension_name =>
    .ok (location.format ++ "Extension '".toList ++ m_extension_name ++ "' is not terminating the RVExtension buffer with a '\x00'.".toList)
  -- runtime::ExtensionNotTerminatingCallExtensionArgBufferString, lines 1648 to 1664
  | .runtime_ExtensionNotTerminatingCallExtensionArgBufferString location m_extension_name =>
    .ok (location.format ++ "Extension '".toList ++ m_extension_name ++ "' is not terminating the RVExtensionArgs buffer with a '\x00'.".toList)
  -- runtime::LibraryNameContainsPath, lines 1665 to 1681
  | .runtime_LibraryNameContainsPath location m_extension_name =>
    .ok (location.format ++ "The extension name '".toList ++ m_extension_name ++ "' is not valid as it contains path characters.".toList)
  -- runtime::ReturningEmptyString, lines 1682 to 1694
  | .runtime_ReturningEmptyString location =>
    .ok (location.format ++ "Returning empty string.".toList)
  -- runtime::ExtensionRuntimeError, lines 1695 to 1716
  | .runtime_ExtensionRuntimeError location m_extension_name m_what =>
    .ok (location.format ++ "Extension '".toList ++ m_extension_name ++ "' caused a runtime exception with the contents '".toList ++ m_what ++ "'.".toList)
  -- runtime::FileNotFound, lines 1717 to 1733
  | .runtime_FileNotFound location m_filename =>
    .ok (location.format ++ "File '".toList ++ m_filename ++ "' could not be located.".toList)
  -- runtime::ScopeNameAlreadySet, lines 1734 to 1746
  | .runtime_ScopeNameAlreadySet location =>
    .ok (location.format ++ "Scropename already set.".toList)
  -- runtime::ScriptNameAlreadySet, lines 1747 to 1759
  | .runtime_ScriptNameAlreadySet location =>
    .ok (location.format ++ "Scriptname already set.".toList)
  -- runtime::ReturningEmptyScriptHandle, lines 1760 to 1772
  | .runtime_ReturningEmptyScriptHandle location =>
    .ok (location.format ++ "Returning empty script handle.".toList)

/-- The `location` member of a message. -/
def Message.location : Message → LogLocationInfo
  | .preprocessor_ArgCountMissmatch location => location
  | .preprocessor_UnexpectedDataAfterInclude location => location
  | .preprocessor_RecursiveInclude location _ => location
  | .preprocessor_IncludeFailed location _ _ => location
  | .preprocessor_MacroDefinedTwice location _ => location
  | .preprocessor_MacroNotFound location _ => location
  | .preprocessor_UnexpectedIfdef location => location
  | .preprocessor_UnexpectedIfndef location => location
  | .preprocessor_UnexpectedElse location => location
  | .preprocessor_UnexpectedEndif location => location
  | .preprocessor_MissingEndif location => location
  | .preprocessor_UnknownInstruction location _ => location
  | .assembly_ExpectedSemicolon location => location
  | .assembly_NoViableAlternativeInstructions location => location
  | .assembly_NoViableAlternativeArg location => location
  | .assembly_ExpectedEndStatement location => location
  | .assembly_ExpectedCallNular location => location
  | .assembly_ExpectedNularOperator location => location
  | .assembly_UnknownNularOperator location _ => location
  | .assembly_ExpectedCallUnary location => location
  | .assembly_ExpectedUnaryOperator location => location
  | .assembly_UnknownUnaryOperator location _ => location
  | .assembly_ExpectedCallBinary location => location
  | .assembly_ExpectedBinaryOperator location => location
  | .assembly_UnknownBinaryOperator location _ => location
  | .assembly_ExpectedAssignTo location => location
  | .assembly_ExpectedVariableName location => location
  | .assembly_ExpectedAssignToLocal location => location
  | .assembly_ExpectedGetVariable location => location
  | .assembly_ExpectedMakeArray location => location
  | .assembly_ExpectedInteger location => location
  | .assembly_ExpectedPush location => location
  | .assembly_ExpectedTypeName location => location
  | .assembly_NumberOutOfRange location => location
  | .sqf_ExpectedStatementTerminator location => location
  | .sqf_NoViableAlternativeStatement location => location
  | .sqf_MissingUnderscoreOnPrivateVariable location _ => location
  | .sqf_ExpectedBinaryExpression location => location
  | .sqf_MissingRightArgument location _ => location
  | .sqf_MissingRoundClosingBracket location => location
  | .sqf_MissingCurlyClosingBracket location => location
  | .sqf_MissingSquareClosingBracket location => location
  | .sqf_NoViableAlternativePrimaryExpression location => location
  | .sqf_EmptyNumber location => location
  | .sqf_ExpectedSQF location => location
  | .sqf_EndOfFile location => location
  | .config_ExpectedStatementTerminator location => location
  | .config_NoViableAlternativeNode location => location
  | .config_ExpectedIdentifier location => location
  | .config_MissingRoundClosingBracket location => location
  | .config_MissingCurlyOpeningBracket location => location
  | .config_MissingCurlyClosingBracket location => location
  | .config_MissingSquareClosingBracket location => location
  | .config_MissingEqualSign location => location
  | .config_ExpectedArray location => location
  | .config_ExpectedValue location => location
  | .config_NoViableAlternativeValue location => location
  | .config_EndOfFileNotReached location => location
  | .linting_UnassignedVariable location _ => location
  | .runtime_Stacktrace location _ => location
  | .runtime_MaximumInstructionCountReached location _ => location
  | .runtime_ExpectedArraySizeMissmatch location _ _ _ => location
  | .runtime_ExpectedArraySizeMissmatchWeak location _ _ _ => location
  | .runtime_ExpectedMinimumArraySizeMissmatch location _ _ => location
  | .runtime_ExpectedMinimumArraySizeMissmatchWeak location _ _ => location
  | .runtime_ExpectedArrayTypeMissmatch location _ _ _ => location
  | .runtime_ExpectedArrayTypeMissmatchWeak location _ _ _ => location
  | .runtime_IndexOutOfRange location _ _ => location
  | .runtime_IndexOutOfRangeWeak location _ _ => location
  | .runtime_NegativeIndex location => location
  | .runtime_NegativeIndexWeak location => location
  | .runtime_IndexEqualsRange location _ _ => location
  | .runtime_ReturningNil location => location
  | .runtime_ReturningEmptyArray location => location
  | .runtime_NegativeSize location => location
  | .runtime_NegativeSizeWeak location => location
  | .runtime_ArrayRecursion location => location
  | .runtime_InfoMessage location _ _ => location
  | .runtime_SuspensionDisabled location => location
  | .runtime_SuspensionInUnscheduledEnvironment location => location
  | .runtime_ReturningConfigNull location => location
  | .runtime_AssertFailed location => location
  | .runtime_StartIndexExceedsToIndex location _ _ => location
  | .runtime_StartIndexExceedsToIndexWeak location _ _ => location
  | .runtime_MagicVariableTypeMissmatch location _ _ _ => location
  | .runtime_ScriptHandleAlreadyTerminated location => location
  | .runtime_ScriptHandleAlreadyFinished location => location
  | .runtime_ExtensionLoaded location _ _ => location
  | .runtime_ExtensionNotTerminatingVersionString location _ => location
  | .runtime_ExtensionNotTerminatingCallExtensionBufferString location _ => location
  | .runtime_ExtensionNotTerminatingCallExtensionArgBufferString location _ => location
  | .runtime_LibraryNameContainsPath location _ => location
  | .runtime_ReturningEmptyString location => location
  | .runtime_ExtensionRuntimeError location _ _ => location
  | .runtime_FileNotFound location _ => location
  | .runtime_ScopeNameAlreadySet location => location
  | .runtime_ScriptNameAlreadySet location => location
  | .runtime_ReturningEmptyScriptHandle location => location

/-- The texts a message carries: the path of its location, its string members and the names
of its `sqf::type` members. -/
def Message.texts (type_str : type → Str) : Message → List Str
  | .preprocessor_ArgCountMissmatch location => [location.path]
  | .preprocessor_UnexpectedDataAfterInclude location => [location.path]
  | .preprocessor_RecursiveInclude location includeTree => [location.path, includeTree]
  | .preprocessor_IncludeFailed location exception_what line => [location.path, exception_what, line]
  | .preprocessor_MacroDefinedTwice location macroname => [location.path, macroname]
  | .preprocessor_MacroNotFound location macroname => [location.path, macroname]
  | .preprocessor_UnexpectedIfdef location => [location.path]
  | .preprocessor_UnexpectedIfndef location => [location.path]
  | .preprocessor_UnexpectedElse location => [location.path]
  | .preprocessor_UnexpectedEndif location => [location.path]
  | .preprocessor_MissingEndif location => [location.path]
  | .preprocessor_UnknownInstruction location instruction => [location.path, instruction]
  | .assembly_ExpectedSemicolon location => [location.path]
  | .assembly_NoViableAlternativeInstructions location => [location.path]
  | .assembly_NoViableAlternativeArg location => [location.path]
  | .assembly_ExpectedEndStatement location => [location.path]
  | .assembly_ExpectedCallNular location => [location.path]
  | .assembly_ExpectedNularOperator location => [location.path]
  | .assembly_UnknownNularOperator location operator_name => [location.path, operator_name]
  | .assembly_ExpectedCallUnary location => [location.path]
  | .assembly_ExpectedUnaryOperator location => [location.path]
  | .assembly_UnknownUnaryOperator location operator_name => [location.path, operator_name]
  | .assembly_ExpectedCallBinary location => [location.path]
  | .assembly_ExpectedBinaryOperator location => [location.path]
  | .assembly_UnknownBinaryOperator location operator_name => [location.path, operator_name]
  | .assembly_ExpectedAssignTo location => [location.path]
  | .assembly_ExpectedVariableName location => [location.path]
  | .assembly_ExpectedAssignToLocal location => [location.path]
  | .assembly_ExpectedGetVariable location => [location.path]
  | .assembly_ExpectedMakeArray location => [location.path]
  | .assembly_ExpectedInteger location => [location.path]
  | .assembly_ExpectedPush location => [location.path]
  | .assembly_ExpectedTypeName location => [location.path]
  | .assembly_NumberOutOfRange location => [location.path]
  | .sqf_ExpectedStatementTerminator location => [location.path]
  | .sqf_NoViableAlternativeStatement location => [location.path]
  | .sqf_MissingUnderscoreOnPrivateVariable location m_variable_name => [location.path, m_variable_name]
  | .sqf_ExpectedBinaryExpression location => [location.path]
  | .sqf_MissingRightArgument location m_operator_name => [location.path, m_operator_name]
  | .sqf_MissingRoundClosingBracket location => [location.path]
  | .sqf_MissingCurlyClosingBracket location => [location.path]
  | .sqf_MissingSquareClosingBracket location => [location.path]
  | .sqf_NoViableAlternativePrimaryExpression location => [location.path]
  | .sqf_EmptyNumber location => [location.path]
  | .sqf_ExpectedSQF location => [location.path]
  | .sqf_EndOfFile location => [location.path]
  | .config_ExpectedStatementTerminator location => [location.path]
  | .config_NoViableAlternativeNode location => [location.path]
  | .config_ExpectedIdentifier location => [location.path]
  | .config_MissingRoundClosingBracket location => [location.path]
  | .config_MissingCurlyOpeningBracket location => [location.path]
  | .config_MissingCurlyClosingBracket location => [location.path]
  | .config_MissingSquareClosingBracket location => [location.path]
  | .config_MissingEqualSign location => [location.path]
  | .config_ExpectedArray location => [location.path]
  | .config_ExpectedValue location => [location.path]
  | .config_NoViableAlternativeValue location => [location.path]
  | .config_EndOfFileNotReached location => [location.path]
  | .linting_UnassignedVariable location m_variable_name => [location.path, m_variable_name]
  | .runtime_Stacktrace location m_stacktrace => [location.path, m_stacktrace]
  | .runtime_MaximumInstructionCountReached location _ => [location.path]
  | .runtime_ExpectedArraySizeMissmatch location _ _ _ => [location.path]
  | .runtime_ExpectedArraySizeMissmatchWeak location _ _ _ => [location.path]
  | .runtime_ExpectedMinimumArraySizeMissmatch location _ _ => [location.path]
  | .runtime_ExpectedMinimumArraySizeMissmatchWeak location _ _ => [location.path]
  | .runtime_ExpectedArrayTypeMissmatch location _ m_expected m_got => location.path :: type_str m_got :: m_expected.map type_str
  | .runtime_ExpectedArrayTypeMissmatchWeak location _ m_expected m_got => location.path :: type_str m_got :: m_expected.map type_str
  | .runtime_IndexOutOfRange location _ _ => [location.path]
  | .runtime_IndexOutOfRangeWeak location _ _ => [location.path]
  | .runtime_NegativeIndex location => [location.path]
  | .runtime_NegativeIndexWeak location => [location.path]
  | .runtime_IndexEqualsRange location _ _ => [location.path]
  | .runtime_ReturningNil location => [location.path]
  | .runtime_ReturningEmptyArray location => [location.path]
  | .runtime_NegativeSize location => [location.path]
  | .runtime_NegativeSizeWeak location => [location.path]
  | .runtime_ArrayRecursion location => [location.path]
  | .runtime_InfoMessage location m_source m_message => [location.path, m_source, m_message]
  | .runtime_SuspensionDisabled location => [location.path]
  | .runtime_SuspensionInUnscheduledEnvironment location => [location.path]
  | .runtime_ReturningConfigNull location => [location.path]
  | .runtime_AssertFailed location => [location.path]
  | .runtime_StartIndexExceedsToIndex location _ _ => [location.path]
  | .runtime_StartIndexExceedsToIndexWeak location _ _ => [location.path]
  | .runtime_MagicVariableTypeMissmatch location m_variable_name m_expected m_got => [location.path, m_variable_name, type_str m_expected, type_str m_got]
  | .runtime_ScriptHandleAlreadyTerminated location => [location.path]
  | .runtime_ScriptHandleAlreadyFinished location => [location.path]
  | .runtime_ExtensionLoaded location m_extension_name m_version => [location.path, m_extension_name, m_version]
  | .runtime_ExtensionNotTerminatingVersionString location m_extension_name => [location.path, m_extension_name]
  | .runtime_ExtensionNotTerminatingCallExtensionBufferString location m_extension_name => [location.path, m_extension_name]
  | .runtime_ExtensionNotTerminatingCallExtensionArgBufferString location m_extension_name => [location.path, m_extension_name]
  | .runtime_LibraryNameContainsPath location m_extension_name => [location.path, m_extension_name]
  | .runtime_ReturningEmptyString location => [location.path]
  | .runtime_ExtensionRuntimeError location m_extension_name m_what => [location.path, m_extension_name, m_what]
  | .runtime_FileNotFound location m_filename => [location.path, m_filename]
  | .runtime_ScopeNameAlreadySet location => [location.path]
  | .runtime_ScriptNameAlreadySet location => [location.path]
  | .runtime_ReturningEmptyScriptHandle location => [location.path]


/-! ### The three definitions compared in the diagnostics of array sizes

`ExpectedArraySizeMissmatchWeak::formatMessage` is defined twice in `logging.cpp`; the
definitions are kept apart here, each as a function of the members it reads. -/

/-- `runtime::ExpectedArraySizeMissmatch::formatMessage`, lines 1022 to 1073. -/
def ExpectedArraySizeMissmatch_formatMessage (location : LogLocationInfo)
    (m_expected_min m_expected_max m_got : Nat) : Str :=
  if m_expected_min = m_expected_max then
    let output := location.format
    let expected_min := to_cardinal_string m_expected_min
    let got := to_cardinal_string m_got
    let output := output ++ "Array was expected to have ".toList
    let output := output ++ expected_min
    let output := output ++ " elements but has ".toList
    let output := output ++ got
    let output := output ++ ".".toList
    output
  else
    let output := location.format
    let expected_min := to_cardinal_string m_expected_min
    let expected_max := to_cardinal_string m_expected_max
    let got := to_cardinal_string m_got
    let output := output ++ "Array was expected to have ".toList
    let output := output ++ expected_min
    let output := output ++ " to ".toList
    let output := output ++ expected_max
    let output := output ++ " elements but has ".toList
    let output := output ++ got
    let output := output ++ ".".toList
    output

/-- The first definition of `runtime::ExpectedArraySizeMissmatchWeak::formatMessage`, lines
1074 to 1125. -/
def ExpectedArraySizeMissmatchWeak_formatMessage_first (location : LogLocationInfo)
    (m_expected_min m_expected_max m_got : Nat) : Str :=
  if m_expected_min = m_expected_max then
    let output := location.format
    let expected_min := to_cardinal_string m_expected_min
    let got := to_cardinal_string m_got
    let output := output ++ "Array was expected to have ".toList
    let output := output ++ expected_min
    let output := output ++ " elements but has ".toList
    let output := output ++ got
    let output := output ++ ".".toList
    output
  else
    let output := location.format
    let expected_min := to_cardinal_string m_expected_min
    let expected_max := to_cardinal_string m_expected_max
    let got := to_cardinal_string m_got
    let output := output ++ "Array was expected to have ".toList
    let output := output ++ expected_min
    let output := output ++ " to ".toList
    let output := output ++ expected_max
    let output := output ++ " elements but has ".toList
    let output := output ++ got
    let output := output ++ ".".toList
    output

/-- The second definition of `runtime::ExpectedArraySizeMissmatchWeak::formatMessage`, lines
1126 to 1177. -/
def ExpectedArraySizeMissmatchWeak_formatMessage_second (location : LogLocationInfo)
    (m_expected_min m_expected_max m_got : Nat) : Str :=
  if m_expected_min = m_expected_max then
    let output := location.format
    let expected_min := to_cardinal_string m_expected_min
    let got := to_cardinal_string m_got
    let output := output ++ "Array was expected to have ".toList
    let output := output ++ expected_min
    let output := output ++ " elements but has ".toList
    let output := output ++ got
    let output := output ++ ".".toList
    output
  else
    let output := location.format
    let expected_min := to_cardinal_string m_expected_min
    let expected_max := to_cardinal_string m_expected_max
    let got := to_cardinal_string m_got
    let output := output ++ "Array was expected to have ".toList
    let output := output ++ expected_min
    let output := output ++ " to ".toList
    let output := output ++ expected_max
    let output := output ++ " elements but has ".toList
    let output := output ++ got
    let output := output ++ ".".toList
    output

end logmessage

/-! ## The logger sinks (`src/logging.cpp`, lines 11 to 23)

A `std::ostream` is kept as what the formatted output functions read and change: the
characters written so far, whether the stream is good, the pending field width, the fill
character and the adjustment. The sink behind the stream takes every character; the lock of
`StreamLogger::log` orders concurrent calls and has no effect on one call. -/

/-- The state of a `std::ostream`. -/
structure ostream where
  content : Str
  good : Bool
  width : Nat
  fill : Char
  left : Bool

/-- The padding of formatted output: fill characters up to the field width, after the text
when the adjustment is to the left, before it otherwise. -/
def ostream.pad (os : ostream) (s : Str) : Str :=
  if os.left then s ++ List.replicate (os.width - s.length) os.fill
  else List.replicate (os.width - s.length) os.fill ++ s

/-- `os << s` for a `std::string_view`, and `os << c` for a character as the string of that
character: nothing happens on a stream that is not good; otherwise the padded text is written
and the field width is reset. -/
def ostream.insert (os : ostream) (s : Str) : ostream :=
  if os.good then ⟨os.content ++ os.pad s, os.good, 0, os.fill, os.left⟩ else os

/-- `os << std::endl`: `put('\n')`, which is unformatted, then `flush()`. -/
def ostream.endl (os : ostream) : ostream :=
  if os.good then ⟨os.content ++ ['\n'], os.good, os.width, os.fill, os.left⟩ else os

/-- `StreamLogger::log(level, message)`, lines 14 to 17, as the change of `logTarget`.
`Logger::loglevelstring` is declared in `logging.h`, which is not part of the sources at hand,
and is a parameter. -/
def StreamLogger.log (loglevelstring : loglevel → Str) (logTarget : ostream)
    (level : loglevel) (message : Str) : ostream :=
  (((logTarget.insert (loglevelstring level)).insert [' ']).insert message).endl

/-- `StdOutLogger::log(level, message)`, lines 20 to 23, as the change of `std::cout`. -/
def StdOutLogger.log (loglevelstring : loglevel → Str) (cout : ostream)
    (level : loglevel) (message : Str) : ostream :=
  let logTarget := cout
  (((logTarget.insert (loglevelstring level)).insert [' ']).insert message).endl

/-! # The generated parser of SQC (`src/sqc/parser.tab.cc`)

The class is `sqf::sqc::bison::parser`; its members are embedded in the namespace `sqc`. A C
string is the list of its characters before the terminator. -/

namespace sqc

/-- The loop of `yytnamerr_`, lines 170 to 187, from the character after `yyp` on: `some yyr`
is `return yyr`, `none` is the jump to `do_not_strip_quotes`. At the end of the string the
terminator is read and appended by the `default` case, and the next read is past the end. -/
def yytnamerr_scan : Str → Str → Except Fault (Option Str)
  | [], _ => .error .read_past_end
  | c :: rest, yyr =>
    if c = '\'' ∨ c = ',' then .ok none
    else if c = '\\' then
      match rest with
      | d :: rest2 => if d ≠ '\\' then .ok none else yytnamerr_scan rest2 (yyr ++ [d])
      | [] => .ok none
    else if c = '"' then .ok (some yyr)
    else yytnamerr_scan rest (yyr ++ [c])

/-- `parser::yytnamerr_`, lines 161 to 191. -/
def yytnamerr_ (yystr : Str) : Except Fault Str :=
  if yystr.head? = some '"' then
    match yytnamerr_scan yystr.tail [] with
    | .ok (some yyr) => .ok yyr
    | .ok none => .ok yystr
    | .error e => .error e
  else .ok yystr

/-- The reading of "every backslash-backslash pair replaced by one backslash": the string with
its pairs of backslashes, taken from the left, replaced; `none` when a backslash is left that
is not in such a pair. -/
def unpair_backslashes : Str → Option Str
  | [] => some []
  | c :: rest =>
    if c = '\\' then
      match rest with
      | d :: rest2 =>
        if d = '\\' then (unpair_backslashes rest2).map (fun r => '\\' :: r) else none
      | [] => none
    else (unpair_backslashes rest).map (fun r => c :: r)

end sqc

namespace sqc

/-! ### The tables of the parser -/

/-- `parser::yypact_ninf_`, line 1730. -/
def yypact_ninf_ : Int := -92

/-- `parser::yytable_ninf_`, line 1732. -/
def yytable_ninf_ : Int := -67

/-- `parser::yypact_`, lines 1735 to 1762; a negative entry `-n` is written `Int.negOfNat n`. -/
def yypact_ : List Int :=
  [261, Int.negOfNat 92, 657, 720, Int.negOfNat 44, Int.negOfNat 22, 19, Int.negOfNat 92,
    Int.negOfNat 16, 4, 522, 522, 13, Int.negOfNat 92, Int.negOfNat 92, 16, Int.negOfNat 14, 22,
    720, 675, Int.negOfNat 92, Int.negOfNat 8, 2, 720, Int.negOfNat 92, 5, Int.negOfNat 92, 52,
    68, 652, Int.negOfNat 92, 327, 37, 39, Int.negOfNat 92, Int.negOfNat 92, Int.negOfNat 92,
    Int.negOfNat 92, Int.negOfNat 92, Int.negOfNat 92, Int.negOfNat 92, 45, Int.negOfNat 20, 41,
    49, 81, Int.negOfNat 12, 18, Int.negOfNat 92, Int.negOfNat 11, 100, Int.negOfNat 92,
    Int.negOfNat 92, Int.negOfNat 92, Int.negOfNat 92, 16, Int.negOfNat 92, 15, 51,
    Int.negOfNat 92, 58, Int.negOfNat 10, Int.negOfNat 27, 16, 522, 23, 30, 69, 720, 587,
    Int.negOfNat 92, 73, 87, 720, Int.negOfNat 92, 64, 720, 82, Int.negOfNat 92, 86, 96,
    Int.negOfNat 92, Int.negOfNat 92, Int.negOfNat 92, 702, 720, 720, 720, Int.negOfNat 92, 720,
    Int.negOfNat 92, 720, 52, Int.negOfNat 92, Int.negOfNat 49, Int.negOfNat 92, Int.negOfNat 92,
    Int.negOfNat 92, Int.negOfNat 92, Int.negOfNat 92, Int.negOfNat 92, Int.negOfNat 92, 720,
    720, 720, 720, 720, 720, 720, 720, 720, 720, 720, 720, 720, 720, 720, 720, 720, 66, 720, 720,
    720, 720, 720, Int.negOfNat 92, Int.negOfNat 92, 720, 720, Int.negOfNat 92, Int.negOfNat 23,
    109, 108, 522, Int.negOfNat 92, 16, 104, 720, 116, Int.negOfNat 92, 125, 130, 131, 136, 720,
    720, 137, Int.negOfNat 92, 720, Int.negOfNat 92, Int.negOfNat 92, 138, Int.negOfNat 92,
    Int.negOfNat 92, Int.negOfNat 92, Int.negOfNat 92, Int.negOfNat 92, Int.negOfNat 92, 52,
    Int.negOfNat 92, 123, 41, 49, 81, 81, 81, 81, Int.negOfNat 12, Int.negOfNat 12,
    Int.negOfNat 12, Int.negOfNat 12, 18, 18, Int.negOfNat 92, Int.negOfNat 92, Int.negOfNat 92,
    139, 141, Int.negOfNat 92, Int.negOfNat 92, Int.negOfNat 92, Int.negOfNat 92,
    Int.negOfNat 92, Int.negOfNat 92, Int.negOfNat 92, 720, 110, 134, Int.negOfNat 92, 112,
    Int.negOfNat 92, 522, 720, 159, 522, Int.negOfNat 92, 720, 113, 150, Int.negOfNat 92,
    Int.negOfNat 92, 522, Int.negOfNat 92, Int.negOfNat 92, Int.negOfNat 92, 720,
    Int.negOfNat 92, 720, Int.negOfNat 92, Int.negOfNat 92, 720, Int.negOfNat 92,
    Int.negOfNat 92, 148, 720, 167, 151, 152, 90, Int.negOfNat 92, Int.negOfNat 92, 153,
    Int.negOfNat 92, 522, 457, 522, Int.negOfNat 92, 522, 720, 140, 156, 90, Int.negOfNat 92,
    Int.negOfNat 92, 720, Int.negOfNat 92, Int.negOfNat 92, Int.negOfNat 92, 143, 522,
    Int.negOfNat 92, Int.negOfNat 92, 522, 392, Int.negOfNat 92, Int.negOfNat 92, Int.negOfNat 92]

/-- `parser::yytable_`, lines 1813 to 1894; a negative entry `-n` is written `Int.negOfNat n`. -/
def yytable_ : List Int :=
  [50, 157, 74, 129, 83, 58, 60, 62, 31, 151, 50, 50, 97, 66, 98, 185, 102, 158, 159, 61, 118,
    77, 79, 186, 119, 103, 65, 127, 128, 50, 94, 50, 72, 68, 84, 113, 130, 31, 114, 31, 187, 63,
    73, 85, 84, 62, 86, 67, 87, 75, 133, 76, 140, 88, 89, 81, 90, 91, 115, 55, 116, 7, 117, 88,
    50, 82, 90, 204, 96, 50, 99, 138, 100, 202, 13, 14, 143, 31, 101, 146, 104, 18, 137, 19, 125,
    134, 135, 79, 152, 153, 154, 126, 155, 136, 156, 94, 173, 174, 175, 141, 21, 144, 145, 22,
    142, 160, 105, 106, 107, 108, 228, 229, 147, 23, 24, 57, 26, 27, 92, 93, 148, 176, 191, 178,
    179, 180, 181, 182, 149, 177, 183, 184, 221, 50, 109, 110, 111, 112, 120, 188, 193, 121, 189,
    122, 171, 172, 194, 199, 200, 123, 192, 79, 124, 195, 190, 163, 164, 165, 166, 196, 197, 94,
    167, 168, 169, 170, 198, 201, 203, 205, 207, 206, 210, 214, 209, 130, 217, 218, 223, 225,
    211, 226, 227, 232, 240, 241, 239, 161, 208, 243, 0, 50, 162, 0, 50, 213, 0, 0, 0, 216, 0,
    50, 0, 0, 0, 0, 0, 0, 220, 0, 79, 0, 212, 222, 0, 215, 0, 224, 0, 0, 0, 0, 219, 50, 50, 50,
    0, 50, 0, 0, 0, 238, 0, 0, 0, 0, 0, 242, 0, 50, 0, 0, 50, 50, 233, 235, 236, 0, 237, 0, 0, 0,
    0, 0, 0, 0, 0, 0, 0, 0, 244, Int.negOfNat 2, 1, 245, 246, 2, 3, 4, 5, 6, 7, 8, 9, 0, 0, 0,
    10, 11, 0, 0, 12, 0, 0, 13, 14, 15, 16, 17, 0, 0, 18, 0, 19, 0, 20, 0, 0, 0, 0, 0, 0, 0, 0,
    0, 0, 0, 0, 0, 0, 21, 0, 0, 22, 0, 0, 0, 0, 0, 0, 0, 0, 0, 23, 24, 25, 26, 27,
    Int.negOfNat 6, 1, 0, 0, 2, 3, 4, 5, 6, 7, 8, 9, 0, 0, 0, 10, 11, 0, 0, 12, 0, 0, 13, 14, 0,
    16, 17, 0, Int.negOfNat 6, 18, 0, 19, 0, 20, 0, 0, 0, 0, 0, 0, 0, 0, 0, 0, 0, 0, 0, 0, 21, 0,
    0, 22, 0, 0, 0, 0, 0, 0, 0, 0, 0, 23, 24, 25, 26, 27, 1, 0, 0, 2, 3, 4, 5, 6, 7, 8, 9, 0, 0,
    0, 10, 11, 0, 0, 12, Int.negOfNat 66, Int.negOfNat 66, 13, 14, 0, 16, 17, 69,
    Int.negOfNat 66, 18, 0, 19, 0, 20, 0, 0, 0, 0, 0, 0, 0, 0, 0, 0, 0, 0, 0, 0, 21, 0, 0, 22, 0,
    0, 0, 0, 0, 0, 0, 0, 0, 23, 24, 25, 26, 27, 1, 0, 0, 2, 3, 4, 5, 6, 7, 8, 9, 0, 0, 0, 10, 11,
    0, 234, 12, 0, 0, 13, 14, 0, 16, 17, 69, 0, 18, 0, 19, 0, 20, 0, 0, 0, 0, 0, 0, 0, 0, 0, 0,
    0, 0, 0, 0, 21, 0, 0, 22, 0, 0, 0, 0, 0, 0, 0, 0, 0, 23, 24, 25, 26, 27, 1, 0, 0, 2, 3, 4, 5,
    6, 7, 8, 9, 0, 0, 0, 10, 11, 0, 0, 12, 0, 0, 13, 14, 0, 16, 17, 69, 0, 18, 0, 19, 0, 20, 0,
    0, 0, 0, 0, 0, 0, 0, 0, 0, 0, 0, 0, 0, 21, 0, 0, 22, 0, 0, 0, 0, 0, 0, 0, 0, 0, 23, 24, 25,
    26, 27, 1, 0, 0, 2, 3, 4, 5, 6, 7, 8, 9, 0, 0, 0, 10, 11, 0, 0, 12, 0, 0, 13, 14, 0, 16, 17,
    0, 139, 18, 0, 19, 0, 20, 0, 0, 0, 0, 0, 0, 0, 0, 0, 0, 0, 0, 0, 0, 21, 0, 0, 22, 0, 0, 0, 0,
    0, 0, 0, 0, 0, 23, 24, 25, 26, 27, 1, 0, 0, 2, 3, 4, 5, 6, 7, 8, 9, 55, 0, 7, 10, 11, 0, 0,
    12, 0, 0, 13, 14, 0, 16, 17, 13, 14, 18, 55, 19, 7, 20, 18, 0, 19, 0, 56, 0, 0, 0, 0, 0, 0,
    13, 14, 0, 21, 0, 0, 22, 18, 21, 19, 78, 22, 55, 0, 7, 0, 23, 24, 25, 26, 27, 23, 24, 57, 26,
    27, 21, 13, 14, 22, 55, 0, 7, 0, 18, 150, 19, 0, 0, 23, 24, 57, 26, 27, 0, 13, 14, 0, 0, 0,
    0, 0, 18, 21, 19, 0, 22, 0, 0, 0, 0, 0, 0, 0, 0, 0, 23, 24, 57, 26, 27, 21, 0, 0, 22, 0, 0,
    0, 0, 0, 0, 0, 0, 0, 23, 24, 57, 26, 27]

/-- `parser::yycheck_`, lines 1897 to 1978; a negative entry `-n` is written `Int.negOfNat n`. -/
def yycheck_ : List Int :=
  [0, 92, 15, 30, 23, 2, 3, 29, 0, 84, 10, 11, 29, 29, 31, 38, 36, 66, 67, 63, 31, 18, 19, 46,
    35, 45, 7, 37, 38, 29, 27, 31, 11, 29, 29, 47, 63, 29, 50, 31, 63, 63, 29, 38, 29, 29, 41,
    63, 43, 63, 63, 29, 69, 48, 49, 63, 51, 52, 40, 7, 42, 9, 44, 48, 64, 63, 51, 158, 0, 69, 33,
    68, 33, 148, 22, 23, 73, 69, 33, 76, 39, 29, 13, 31, 33, 64, 63, 84, 85, 86, 87, 33, 89, 63,
    91, 92, 115, 116, 117, 26, 48, 37, 38, 51, 17, 102, 57, 58, 59, 60, 20, 21, 30, 61, 62, 63,
    64, 65, 66, 67, 34, 118, 135, 120, 121, 122, 123, 124, 32, 63, 127, 128, 207, 133, 53, 54,
    55, 56, 38, 30, 137, 41, 34, 43, 113, 114, 30, 144, 145, 49, 46, 148, 52, 28, 133, 105, 106,
    107, 108, 29, 29, 158, 109, 110, 111, 112, 30, 30, 30, 46, 29, 32, 38, 14, 64, 63, 63, 27,
    30, 12, 189, 30, 30, 30, 28, 231, 46, 103, 185, 46, Int.negOfNat 1, 191, 104, Int.negOfNat 1,
    194, 192, Int.negOfNat 1, Int.negOfNat 1, Int.negOfNat 1, 196, Int.negOfNat 1, 201,
    Int.negOfNat 1, Int.negOfNat 1, Int.negOfNat 1, Int.negOfNat 1, Int.negOfNat 1,
    Int.negOfNat 1, 205, Int.negOfNat 1, 207, Int.negOfNat 1, 191, 210, Int.negOfNat 1, 194,
    Int.negOfNat 1, 214, Int.negOfNat 1, Int.negOfNat 1, Int.negOfNat 1, Int.negOfNat 1, 201,
    223, 224, 225, Int.negOfNat 1, 227, Int.negOfNat 1, Int.negOfNat 1, Int.negOfNat 1, 228,
    Int.negOfNat 1, Int.negOfNat 1, Int.negOfNat 1, Int.negOfNat 1, Int.negOfNat 1, 234,
    Int.negOfNat 1, 239, Int.negOfNat 1, Int.negOfNat 1, 242, 243, 223, 224, 225, Int.negOfNat 1,
    227, Int.negOfNat 1, Int.negOfNat 1, Int.negOfNat 1, Int.negOfNat 1, Int.negOfNat 1,
    Int.negOfNat 1, Int.negOfNat 1, Int.negOfNat 1, Int.negOfNat 1, Int.negOfNat 1,
    Int.negOfNat 1, 239, 0, 1, 242, 243, 4, 5, 6, 7, 8, 9, 10, 11, Int.negOfNat 1,
    Int.negOfNat 1, Int.negOfNat 1, 15, 16, Int.negOfNat 1, Int.negOfNat 1, 19, Int.negOfNat 1,
    Int.negOfNat 1, 22, 23, 24, 25, 26, Int.negOfNat 1, Int.negOfNat 1, 29, Int.negOfNat 1, 31,
    Int.negOfNat 1, 33, Int.negOfNat 1, Int.negOfNat 1, Int.negOfNat 1, Int.negOfNat 1,
    Int.negOfNat 1, Int.negOfNat 1, Int.negOfNat 1, Int.negOfNat 1, Int.negOfNat 1,
    Int.negOfNat 1, Int.negOfNat 1, Int.negOfNat 1, Int.negOfNat 1, Int.negOfNat 1, 48,
    Int.negOfNat 1, Int.negOfNat 1, 51, Int.negOfNat 1, Int.negOfNat 1, Int.negOfNat 1,
    Int.negOfNat 1, Int.negOfNat 1, Int.negOfNat 1, Int.negOfNat 1, Int.negOfNat 1,
    Int.negOfNat 1, 61, 62, 63, 64, 65, 0, 1, Int.negOfNat 1, Int.negOfNat 1, 4, 5, 6, 7, 8, 9,
    10, 11, Int.negOfNat 1, Int.negOfNat 1, Int.negOfNat 1, 15, 16, Int.negOfNat 1,
    Int.negOfNat 1, 19, Int.negOfNat 1, Int.negOfNat 1, 22, 23, Int.negOfNat 1, 25, 26,
    Int.negOfNat 1, 28, 29, Int.negOfNat 1, 31, Int.negOfNat 1, 33, Int.negOfNat 1,
    Int.negOfNat 1, Int.negOfNat 1, Int.negOfNat 1, Int.negOfNat 1, Int.negOfNat 1,
    Int.negOfNat 1, Int.negOfNat 1, Int.negOfNat 1, Int.negOfNat 1, Int.negOfNat 1,
    Int.negOfNat 1, Int.negOfNat 1, Int.negOfNat 1, 48, Int.negOfNat 1, Int.negOfNat 1, 51,
    Int.negOfNat 1, Int.negOfNat 1, Int.negOfNat 1, Int.negOfNat 1, Int.negOfNat 1,
    Int.negOfNat 1, Int.negOfNat 1, Int.negOfNat 1, Int.negOfNat 1, 61, 62, 63, 64, 65, 1,
    Int.negOfNat 1, Int.negOfNat 1, 4, 5, 6, 7, 8, 9, 10, 11, Int.negOfNat 1, Int.negOfNat 1,
    Int.negOfNat 1, 15, 16, Int.negOfNat 1, Int.negOfNat 1, 19, 20, 21, 22, 23, Int.negOfNat 1,
    25, 26, 27, 28, 29, Int.negOfNat 1, 31, Int.negOfNat 1, 33, Int.negOfNat 1, Int.negOfNat 1,
    Int.negOfNat 1, Int.negOfNat 1, Int.negOfNat 1, Int.negOfNat 1, Int.negOfNat 1,
    Int.negOfNat 1, Int.negOfNat 1, Int.negOfNat 1, Int.negOfNat 1, Int.negOfNat 1,
    Int.negOfNat 1, Int.negOfNat 1, 48, Int.negOfNat 1, Int.negOfNat 1, 51, Int.negOfNat 1,
    Int.negOfNat 1, Int.negOfNat 1, Int.negOfNat 1, Int.negOfNat 1, Int.negOfNat 1,
    Int.negOfNat 1, Int.negOfNat 1, Int.negOfNat 1, 61, 62, 63, 64, 65, 1, Int.negOfNat 1,
    Int.negOfNat 1, 4, 5, 6, 7, 8, 9, 10, 11, Int.negOfNat 1, Int.negOfNat 1, Int.negOfNat 1, 15,
    16, Int.negOfNat 1, 18, 19, Int.negOfNat 1, Int.negOfNat 1, 22, 23, Int.negOfNat 1, 25, 26,
    27, Int.negOfNat 1, 29, Int.negOfNat 1, 31, Int.negOfNat 1, 33, Int.negOfNat 1,
    Int.negOfNat 1, Int.negOfNat 1, Int.negOfNat 1, Int.negOfNat 1, Int.negOfNat 1,
    Int.negOfNat 1, Int.negOfNat 1, Int.negOfNat 1, Int.negOfNat 1, Int.negOfNat 1,
    Int.negOfNat 1, Int.negOfNat 1, Int.negOfNat 1, 48, Int.negOfNat 1, Int.negOfNat 1, 51,
    Int.negOfNat 1, Int.negOfNat 1, Int.negOfNat 1, Int.negOfNat 1, Int.negOfNat 1,
    Int.negOfNat 1, Int.negOfNat 1, Int.negOfNat 1, Int.negOfNat 1, 61, 62, 63, 64, 65, 1,
    Int.negOfNat 1, Int.negOfNat 1, 4, 5, 6, 7, 8, 9, 10, 11, Int.negOfNat 1, Int.negOfNat 1,
    Int.negOfNat 1, 15, 16, Int.negOfNat 1, Int.negOfNat 1, 19, Int.negOfNat 1, Int.negOfNat 1,
    22, 23, Int.negOfNat 1, 25, 26, 27, Int.negOfNat 1, 29, Int.negOfNat 1, 31, Int.negOfNat 1,
    33, Int.negOfNat 1, Int.negOfNat 1, Int.negOfNat 1, Int.negOfNat 1, Int.negOfNat 1,
    Int.negOfNat 1, Int.negOfNat 1, Int.negOfNat 1, Int.negOfNat 1, Int.negOfNat 1,
    Int.negOfNat 1, Int.negOfNat 1, Int.negOfNat 1, Int.negOfNat 1, 48, Int.negOfNat 1,
    Int.negOfNat 1, 51, Int.negOfNat 1, Int.negOfNat 1, Int.negOfNat 1, Int.negOfNat 1,
    Int.negOfNat 1, Int.negOfNat 1, Int.negOfNat 1, Int.negOfNat 1, Int.negOfNat 1, 61, 62, 63,
    64, 65, 1, Int.negOfNat 1, Int.negOfNat 1, 4, 5, 6, 7, 8, 9, 10, 11, Int.negOfNat 1,
    Int.negOfNat 1, Int.negOfNat 1, 15, 16, Int.negOfNat 1, Int.negOfNat 1, 19, Int.negOfNat 1,
    Int.negOfNat 1, 22, 23, Int.negOfNat 1, 25, 26, Int.negOfNat 1, 28, 29, Int.negOfNat 1, 31,
    Int.negOfNat 1, 33, Int.negOfNat 1, Int.negOfNat 1, Int.negOfNat 1, Int.negOfNat 1,
    Int.negOfNat 1, Int.negOfNat 1, Int.negOfNat 1, Int.negOfNat 1, Int.negOfNat 1,
    Int.negOfNat 1, Int.negOfNat 1, Int.negOfNat 1, Int.negOfNat 1, Int.negOfNat 1, 48,
    Int.negOfNat 1, Int.negOfNat 1, 51, Int.negOfNat 1, Int.negOfNat 1, Int.negOfNat 1,
    Int.negOfNat 1, Int.negOfNat 1, Int.negOfNat 1, Int.negOfNat 1, Int.negOfNat 1,
    Int.negOfNat 1, 61, 62, 63, 64, 65, 1, Int.negOfNat 1, Int.negOfNat 1, 4, 5, 6, 7, 8, 9, 10,
    11, 7, Int.negOfNat 1, 9, 15, 16, Int.negOfNat 1, Int.negOfNat 1, 19, Int.negOfNat 1,
    Int.negOfNat 1, 22, 23, Int.negOfNat 1, 25, 26, 22, 23, 29, 7, 31, 9, 33, 29, Int.negOfNat 1,
    31, Int.negOfNat 1, 33, Int.negOfNat 1, Int.negOfNat 1, Int.negOfNat 1, Int.negOfNat 1,
    Int.negOfNat 1, Int.negOfNat 1, 22, 23, Int.negOfNat 1, 48, Int.negOfNat 1, Int.negOfNat 1,
    51, 29, 48, 31, 32, 51, 7, Int.negOfNat 1, 9, Int.negOfNat 1, 61, 62, 63, 64, 65, 61, 62, 63,
    64, 65, 48, 22, 23, 51, 7, Int.negOfNat 1, 9, Int.negOfNat 1, 29, 30, 31, Int.negOfNat 1,
    Int.negOfNat 1, 61, 62, 63, 64, 65, Int.negOfNat 1, 22, 23, Int.negOfNat 1, Int.negOfNat 1,
    Int.negOfNat 1, Int.negOfNat 1, Int.negOfNat 1, 29, 48, 31, Int.negOfNat 1, 51,
    Int.negOfNat 1, Int.negOfNat 1, Int.negOfNat 1, Int.negOfNat 1, Int.negOfNat 1,
    Int.negOfNat 1, Int.negOfNat 1, Int.negOfNat 1, Int.negOfNat 1, 61, 62, 63, 64, 65, 48,
    Int.negOfNat 1, Int.negOfNat 1, 51, Int.negOfNat 1, Int.negOfNat 1, Int.negOfNat 1,
    Int.negOfNat 1, Int.negOfNat 1, Int.negOfNat 1, Int.negOfNat 1, Int.negOfNat 1,
    Int.negOfNat 1, 61, 62, 63, 64, 65]

/-- `parser::yyr1_`, lines 2011 to 2026: the symbol on the left of each rule. -/
def yyr1_ : List Nat :=
  [0, 68, 69, 69, 69, 70, 71, 71, 72, 72, 72, 72, 72, 72, 72, 72, 72, 72, 72, 72, 72, 72, 73, 73,
    73, 73, 73, 73, 73, 73, 73, 73, 74, 74, 74, 74, 74, 74, 75, 75, 76, 77, 77, 78, 78, 78, 79,
    79, 79, 79, 79, 80, 80, 80, 81, 81, 82, 82, 82, 83, 83, 84, 85, 86, 86, 87, 87, 87, 88, 88,
    89, 89, 90, 90, 91, 91, 91, 91, 91, 92, 92, 92, 92, 92, 93, 93, 93, 94, 94, 94, 94, 95, 95,
    96, 96, 96, 97, 98, 98, 98, 98, 98, 98, 98, 98, 98, 99, 99, 99, 99, 99, 99, 99, 99, 100, 100,
    101, 101, 101, 102, 102, 103, 103, 103, 103]

/-- `parser::yyr2_`, lines 2029 to 2044: the number of symbols on the right of each rule. -/
def yyr2_ : List Nat :=
  [0, 2, 0, 2, 1, 2, 1, 2, 3, 2, 3, 2, 1, 1, 1, 1, 1, 1, 2, 2, 1, 1, 3, 3, 3, 3, 3, 3, 3, 3, 3,
    3, 4, 4, 2, 4, 4, 2, 4, 5, 3, 2, 3, 1, 2, 3, 1, 3, 2, 4, 3, 1, 2, 3, 5, 7, 7, 9, 7, 5, 6, 7,
    7, 1, 2, 4, 3, 3, 1, 5, 1, 3, 1, 3, 1, 3, 3, 3, 3, 1, 3, 3, 3, 3, 1, 3, 3, 1, 3, 3, 3, 1, 2,
    1, 6, 1, 4, 3, 3, 4, 1, 2, 2, 2, 2, 1, 1, 1, 1, 1, 1, 1, 1, 1, 2, 3, 1, 2, 3, 1, 2, 2, 3, 1,
    2]

/-- `parser::yytname_`, lines 2051 to 2070: the names of the symbols, the terminals first. The
null pointer that ends the array is not an element of the list. -/
def yytname_ : List Str :=
  ["NA".toList, "error".toList, "$undefined".toList, "\"break\"".toList, "\"return\"".toList,
    "\"throw\"".toList, "\"let\"".toList, "\"function\"".toList, "\"final\"".toList,
    "\"false\"".toList, "\"for\"".toList, "\"if\"".toList, "\"else\"".toList, "\"from\"".toList,
    "\"to\"".toList, "\"do\"".toList, "\"try\"".toList, "\"catch\"".toList, "\"step\"".toList,
    "\"switch\"".toList, "\"case\"".toList, "\"default\"".toList, "\"nil\"".toList,
    "\"true\"".toList, "\"params\"".toList, "\"private\"".toList, "\"while\"".toList,
    "\"\x7b\"".toList, "\"\x7d\"".toList, "\"(\"".toList, "\")\"".toList, "\"[\"".toList,
    "\"]\"".toList, "\";\"".toList, "\",\"".toList, "\".\"".toList, "\"?\"".toList,
    "\"be\"".toList, "\"=\"".toList, "\"&&\"".toList, "\"/\"".toList, "\"/=\"".toList,
    "\"*\"".toList, "\"*=\"".toList, "\"%\"".toList, "\"||\"".toList, "\":\"".toList,
    "\"+\"".toList, "\"++\"".toList, "\"+=\"".toList, "\"-\"".toList, "\"--\"".toList,
    "\"-=\"".toList, "\"<=\"".toList, "\"<\"".toList, "\">=\"".toList, "\">\"".toList,
    "\"===\"".toList, "\"==\"".toList, "\"!==\"".toList, "\"!=\"".toList, "\"!\"".toList,
    "NUMBER".toList, "IDENT".toList, "STRING".toList, "FORMAT_STRING_START".toList,
    "FORMAT_STRING_CONTINUE".toList, "FORMAT_STRING_FINAL".toList, "$accept".toList,
    "start".toList, "filehead".toList, "statements".toList, "statement".toList,
    "assignment".toList, "vardecl".toList, "funcdecl".toList, "function".toList,
    "funchead".toList, "arglist".toList, "argitem".toList, "codeblock".toList, "if".toList,
    "for".toList, "while".toList, "trycatch".toList, "switch".toList, "caselist".toList,
    "case".toList, "exp01".toList, "exp02".toList, "exp03".toList, "exp04".toList,
    "exp05".toList, "exp06".toList, "exp07".toList, "exp08".toList, "exp09".toList,
    "arrget".toList, "expp".toList, "value".toList, "array".toList, "explist".toList,
    "format_string".toList, "format_string_match".toList]

/-- Modelled from the spec: `yylast_` is declared in `parser.tab.hh`, which is not part of the
sources at hand; it is the last index of `yytable_`. -/
def yylast_ : Int := 785

/-- Modelled from the spec: `yyntokens_` is declared in `parser.tab.hh`; it is the number of
terminals, the index of `$accept` in `yytname_`. -/
def yyntokens_ : Nat := 68

/-- Modelled from the spec: `yyterror_` is declared in `parser.tab.hh`; it is the number of the
token `error`. -/
def yyterror_ : Nat := 1

end sqc

namespace sqc

/-! ### `yysyntax_error_` -/

/-- The element `a[i]` of an array for an `int` index; a read outside the array has no defined
result. -/
def array_at {α : Type} (a : List α) (i : Int) : Except Fault α :=
  if i < 0 then .error .read_past_end
  else
    match a[i.toNat]? with
    | some v => .ok v
    | none => .error .read_past_end

/-- `parser::yy_pact_value_is_default_`, lines 526 to 530. -/
def yy_pact_value_is_default_ (yyvalue : Int) : Bool :=
  yyvalue == yypact_ninf_

/-- `parser::yy_table_value_is_error_`, lines 532 to 536. -/
def yy_table_value_is_error_ (yyvalue : Int) : Bool :=
  yyvalue == yytable_ninf_

/-- The loop of lines 1684 to 1695 over the values of `yyx` still to come. The array `yyarg`
is kept as the list of its first `yycount` elements; at the `break` `yycount` becomes 1. -/
def yysyntax_error_expected (yyn : Int) : List Nat → List Str → Except Fault (List Str)
  | [], yyarg => .ok yyarg
  | yyx :: rest, yyarg => do
    let check ← array_at yycheck_ (yyx + yyn)
    if check = yyx ∧ yyx ≠ yyterror_ then do
      let entry ← array_at yytable_ (yyx + yyn)
      if yy_table_value_is_error_ entry then yysyntax_error_expected yyn rest yyarg
      else if yyarg.length = 5 then .ok (yyarg.take 1)
      else do
        let name ← array_at yytname_ yyx
        yysyntax_error_expected yyn rest (yyarg ++ [name])
    else yysyntax_error_expected yyn rest yyarg

/-- Lines 1670 to 1697: the arguments of the format. The lookahead `yyla` is `none` when it is
empty and the number of its symbol otherwise. -/
def yysyntax_error_args (yystate : Nat) (yyla : Option Nat) : Except Fault (List Str) :=
  match yyla with
  | none => .ok []
  | some yytoken => do
    let name ← array_at yytname_ yytoken
    let yyn ← array_at yypact_ yystate
    if !yy_pact_value_is_default_ yyn then
      let yyxbegin : Int := if yyn < 0 then -yyn else 0
      let yychecklim : Int := yylast_ - yyn + 1
      let yyxend : Int := if yychecklim < yyntokens_ then yychecklim else yyntokens_
      yysyntax_error_expected yyn (List.range' yyxbegin.toNat (yyxend - yyxbegin).toNat) [name]
    else .ok [name]

/-- The `switch (yycount)` of lines 1700 to 1714; `none` is the null pointer `yyformat` keeps
when no case applies. -/
def yysyntax_error_format (yycount : Nat) : Option Str :=
  match yycount with
  | 0 => some "syntax error".toList
  | 1 => some "syntax error, unexpected %s".toList
  | 2 => some "syntax error, unexpected %s, expecting %s".toList
  | 3 => some "syntax error, unexpected %s, expecting %s or %s".toList
  | 4 => some "syntax error, unexpected %s, expecting %s or %s or %s".toList
  | 5 => some "syntax error, unexpected %s, expecting %s or %s or %s or %s".toList
  | _ => none

/-- The loop of lines 1719 to 1726 from `yyp` on, with the argument number `yyi` and the
result `yyres` so far. -/
def yysyntax_error_fill (yycount : Nat) (yyarg : List Str) : Str → Nat → Str → Except Fault Str
  | [], _, yyres => .ok yyres
  | [c], _, yyres => .ok (yyres ++ [c])
  | c :: d :: rest, yyi, yyres =>
    if c = '%' ∧ d = 's' ∧ yyi < yycount then do
      let arg ← array_at yyarg yyi
      let name ← yytnamerr_ arg
      yysyntax_error_fill yycount yyarg rest (yyi + 1) (yyres ++ name)
    else yysyntax_error_fill yycount yyarg (d :: rest) yyi (yyres ++ [c])

/-- `parser::yysyntax_error_`, lines 1634 to 1727. -/
def yysyntax_error_ (yystate : Nat) (yyla : Option Nat) : Except Fault Str := do
  let yyarg ← yysyntax_error_args yystate yyla
  match yysyntax_error_format yyarg.length with
  | some yyformat => yysyntax_error_fill yyarg.length yyarg yyformat 0 []
  | none => .error .null_pointer_read

/-- The test of lines 1685 and 1686 on the token `x`, for an index `yyn + x` inside the
tables: `yycheck_` has `x` there, `x` is not the error token and `yytable_` has no error entry
there. -/
def token_acceptable (yyn : Int) (x : Nat) : Bool :=
  decide (yycheck_.getD (yyn + x).toNat (-1) = x ∧ x ≠ yyterror_ ∧
    yytable_.getD (yyn + x).toNat 0 ≠ yytable_ninf_)

/-- The acceptable tokens of a state, in the words of the property: the tokens `x` other than
the error token for which `yypact_[state] + x` is an index of the tables, `yycheck_` has `x`
there and `yytable_` has no error entry there; in increasing order. -/
def acceptable_tokens (yystate : Nat) : List Nat :=
  (List.range yyntokens_).filter (fun x =>
    decide (0 ≤ yypact_.getD yystate 0 + x ∧ yypact_.getD yystate 0 + x ≤ yylast_) &&
      token_acceptable (yypact_.getD yystate 0) x)

/-- The name of the symbol `x` as `yytnamerr_` returns it (the empty string where it returns
nothing). -/
def token_name (x : Nat) : Str :=
  match yytnamerr_ (yytname_.getD x []) with
  | .ok name => name
  | .error _ => []

/-- The shape of the message in the words of the property: "syntax error, unexpected U", then
", expecting E1 or ... or Ek" when tokens are listed. -/
def syntax_error_shape (unexpected : Str) (expected : List Str) : Str :=
  "syntax error, unexpected ".toList ++ unexpected ++
    match expected with
    | [] => []
    | e :: es => ", expecting ".toList ++ e ++ (es.map (fun x => " or ".toList ++ x)).flatten

end sqc

namespace sqc

/-! ### The statement lists (rules 6 and 7 of `parser::parse`)

The classes `astnode` and `tokenizer` and the enumeration `astkind` are declared outside the
sources at hand. The enumerators are the ones `parser.tab.cc` names; the class `astnode` is a
parameter: what the semantic actions call, and the kind and the children of a node, by which
the properties are stated. -/

/-- The enumerators of `astkind` named in `parser.tab.cc`, in the order of their first use. -/
inductive astkind where
  | STATEMENTS
  | RETURN
  | THROW
  | ASSIGNMENT
  | ASSIGNMENT_PLUS
  | ASSIGNMENT_MINUS
  | ASSIGNMENT_STAR
  | ASSIGNMENT_SLASH
  | OP_ARRAY_SET
  | OP_ARRAY_SET_PLUS
  | OP_ARRAY_SET_MINUS
  | OP_ARRAY_SET_STAR
  | OP_ARRAY_SET_SLASH
  | DECLARATION
  | FORWARD_DECLARATION
  | FUNCTION_DECLARATION
  | FINAL_FUNCTION_DECLARATION
  | FUNCTION
  | ARGLIST
  | ARGITEM
  | ARGITEM_DEFAULT
  | ARGITEM_TYPE
  | ARGITEM_TYPE_DEFAULT
  | ARGITEM_EMPLACE
  | CODEBLOCK
  | IF
  | IFELSE
  | FOR
  | FORSTEP
  | FOREACH
  | WHILE
  | DOWHILE
  | TRYCATCH
  | SWITCH
  | CASE
  | CASE_DEFAULT
  | OP_TERNARY
  | OP_OR
  | OP_AND
  | OP_EQUALEXACT
  | OP_NOTEQUALEXACT
  | OP_EQUAL
  | OP_NOTEQUAL
  | OP_LESSTHAN
  | OP_LESSTHANEQUAL
  | OP_GREATERTHAN
  | OP_GREATERTHANEQUAL
  | OP_PLUS
  | OP_MINUS
  | OP_MULTIPLY
  | OP_DIVIDE
  | OP_REMAINDER
  | OP_NOT
  | OP_BINARY
  | OP_ARRAY_GET
  | OP_UNARY
  | GET_VARIABLE
  | INC_PRE
  | DEC_PRE
  | INC_POST
  | DEC_POST
  | VAL_STRING
  | VAL_NUMBER
  | VAL_TRUE
  | VAL_FALSE
  | VAL_NIL
  | VAL_ARRAY
  | SVAL_FORMAT_STRING
  deriving DecidableEq, Repr

/-- What the semantic actions of rules 6 and 7 use of the class `astnode`: the constructor
`astnode{kind, token}` and the methods `append(node)` and `append_children(node)`, with the
object they are called on as first argument and the object after the call as result; `kind`
and `children` observe a node. -/
structure astnode_class (astnode token : Type) where
  make : astkind → token → astnode
  append : astnode → astnode → astnode
  append_children : astnode → astnode → astnode
  kind : astnode → astkind
  children : astnode → List astnode

/-- The contract the names of the methods state: a new node has its kind and no children,
`append` adds the node as last child, `append_children` adds the children of the node after
the children already there, and neither changes the kind. -/
def astnode_class.appends {astnode token : Type} (cls : astnode_class astnode token) : Prop :=
  (∀ k t, cls.kind (cls.make k t) = k ∧ cls.children (cls.make k t) = []) ∧
  (∀ n c, cls.kind (cls.append n c) = cls.kind n ∧
    cls.children (cls.append n c) = cls.children n ++ [c]) ∧
  (∀ n m, cls.kind (cls.append_children n m) = cls.kind n ∧
    cls.children (cls.append_children n m) = cls.children n ++ cls.children m)

/-- The semantic actions of rule 6 (line 762) and rule 7 (line 768), the value of `yylhs`
after them: `yystack` is the stack of semantic values with its top first, so `yystack_[0]`
is its head and `yystack_[1]` the element below; `token` is what `tokenizer.create_token()`
returns. Other rules are not embedded. -/
def semantic_action {astnode token : Type} (cls : astnode_class astnode token) (token_ : token)
    (yyn : Nat) (yystack : List astnode) : Option astnode :=
  match yyn, yystack with
  | 6, s0 :: _ => some (cls.append (cls.make astkind.STATEMENTS token_) s0)
  | 7, s0 :: s1 :: _ =>
    some (cls.append_children (cls.append (cls.make astkind.STATEMENTS token_) s1) s0)
  | _, _ => none

/-- The step `yyreduce` of `parser::parse` on the stack of semantic values, lines 643 to 1491:
`yylen = yyr2_[yyn]`, the semantic action, `yypop_(yylen)`, then the push of `yylhs`. -/
def yyreduce {astnode token : Type} (cls : astnode_class astnode token) (token_ : token)
    (yyn : Nat) (yystack : List astnode) : Option (List astnode) :=
  match yyr2_[yyn]?, semantic_action cls token_ yyn yystack with
  | some yylen, some yylhs => some (yylhs :: yystack.drop yylen)
  | _, _ => none

/-- Reductions by rule 7, one for every token of the list. -/
def reduce_rule_7 {astnode token : Type} (cls : astnode_class astnode token) :
    List token → List astnode → Option (List astnode)
  | [], yystack => some yystack
  | t :: ts, yystack => (yyreduce cls t 7 yystack).bind (reduce_rule_7 cls ts)

/-- The reductions that turn the statements on top of the stack into one statement list: rule
6 on the last statement, then rule 7 once for every statement before it. The tokens are the
results of `tokenizer.create_token()` in these reductions, in order. -/
def reduce_statements {astnode token : Type} (cls : astnode_class astnode token) :
    List token → List astnode → Option (List astnode)
  | [], _ => none
  | t :: ts, yystack => (yyreduce cls t 6 yystack).bind (reduce_rule_7 cls ts)

/-- A sample of the class: a node is its kind, its token and the list of its children. -/
inductive sample_node where
  | mk (kind : astkind) (token_ : Nat) (children : List sample_node)

/-- The kind of a sample node. -/
def sample_node.kind : sample_node → astkind
  | .mk k _ _ => k

/-- The children of a sample node. -/
def sample_node.children : sample_node → List sample_node
  | .mk _ _ cs => cs

/-- The token of a sample node. -/
def sample_node.token_of : sample_node → Nat
  | .mk _ t _ => t

/-- The sample class. -/
def sample_class : astnode_class sample_node Nat :=
  ⟨fun k t => .mk k t [], fun n c => .mk n.kind n.token_of (n.children ++ [c]),
    fun n m => .mk n.kind n.token_of (n.children ++ m.children), sample_node.kind,
    sample_node.children⟩

end sqc

/-! ## Theorems -/

namespace sqf

theorem navigate_current_nil (nodes : List path_element) :
    navigate_current nodes [] = .ok (some nodes) := by
  simp [navigate_current]

theorem navigate_current_cons (b : path_element) (ns : List path_element) (seg : Str)
    (it : List Str) :
    navigate_current (b :: ns) (seg :: it) =
      if seg = [] then navigate_current (b :: ns) it
      else match map_find b.next seg with
        | some n => navigate_current (n :: b :: ns) it
        | none => .ok none := by
  rw [navigate_current]
  by_cases h : seg = []
  · simp [h]
  · simp only [h, if_false, vector_back, map_at, bind, Except.bind, pure, Except.pure]
    cases hf : map_find b.next seg <;> simp

theorem explore_nil (nodes : List path_element) : explore nodes [] = .ok (nodes, []) := by
  simp [explore]

theorem explore_empty_nodes (seg : Str) (it : List Str) :
    explore [] (seg :: it) = if seg = [] then explore [] it else .ok ([], seg :: it) := by
  rw [explore]
  by_cases h : seg = []
  · simp [h]
  · simp [h]

theorem explore_cons (b : path_element) (ns : List path_element) (seg : Str) (it : List Str) :
    explore (b :: ns) (seg :: it) =
      if seg = [] then explore (b :: ns) it
      else if seg = dotdot then explore ns it
      else match map_find b.next seg with
        | none => .ok (b :: ns, seg :: it)
        | some n => explore (n :: b :: ns) it := by
  rw [explore]
  by_cases h : seg = []
  · simp [h]
  · by_cases hd : seg = dotdot
    · simp [h, hd]
    · simp only [h, hd, if_false, false_and, vector_back, map_at, bind, Except.bind, pure,
        Except.pure, List.isEmpty_cons]
      cases hf : map_find b.next seg <;> simp
theorem explore_ok (segs : List Str) :
    ∀ nodes : List path_element, ∃ r, explore nodes segs = .ok r := by
  induction segs with
  | nil => intro nodes; exact ⟨_, explore_nil nodes⟩
  | cons seg it ih =>
    intro nodes
    cases nodes with
    | nil =>
      rw [explore_empty_nodes]
      split
      · exact ih []
      · exact ⟨_, rfl⟩
    | cons b ns =>
      rw [explore_cons]
      split
      · exact ih _
      · split
        · exact ih _
        · split
          · exact ⟨_, rfl⟩
          · exact ih _

theorem navigate_current_ok (segs : List Str) :
    ∀ (b : path_element) (ns : List path_element),
      ∃ r, navigate_current (b :: ns) segs = .ok r := by
  induction segs with
  | nil => intro b ns; exact ⟨_, navigate_current_nil _⟩
  | cons seg it ih =>
    intro b ns
    rw [navigate_current_cons]
    split
    · exact ih _ _
    · split
      · exact ih _ _
      · exact ⟨_, rfl⟩

theorem start_nodes_ok (root : path_element) (virt : Str) (current : pathinfo) :
    ∃ r, start_nodes root virt current = .ok r := by
  unfold start_nodes
  split
  · split
    · exact navigate_current_ok _ _ _
    · exact ⟨_, rfl⟩
  · exact ⟨_, rfl⟩

theorem get_info_virtual_eq (file_exists : Str → Bool) (root : path_element)
    (viewVirtual : Str) (current : pathinfo) :
    get_info_virtual file_exists root viewVirtual current =
      .ok (match walk_result root viewVirtual current with
        | some (n, r) =>
          test_physical file_exists r (virt_full (cleanse viewVirtual) current) n.physical
        | none => none) := by
  unfold get_info_virtual walk_result
  by_cases hne : cleanse viewVirtual = []
  · simp [hne]
  simp only [hne, if_false]
  obtain ⟨r0, h0⟩ := start_nodes_ok root (cleanse viewVirtual) current
  rw [h0]
  cases r0 with
  | none => rfl
  | some nodes0 =>
    obtain ⟨⟨nodes, it⟩, h1⟩ := explore_ok (istream_split (cleanse viewVirtual)) nodes0
    simp only [h1, bind, Except.bind, pure, Except.pure]
    cases nodes with
    | nil => rfl
    | cons n ns => rfl

theorem test_physical_some (fe : Str → Bool) (r vf : Str) (ps : List Str) (info : pathinfo)
    (h : test_physical fe r vf ps = some info) :
    fe info.physical = true ∧ info.virtual_ = vf ∧ ∃ p ∈ ps, info.physical = p ++ r := by
  induction ps with
  | nil => simp [test_physical] at h
  | cons p rest ih =>
    rw [test_physical] at h
    by_cases hp : fe (p ++ r) = true
    · simp only [hp, if_true, Option.some.injEq] at h
      subst h
      exact ⟨hp, rfl, p, List.mem_cons_self _ _, rfl⟩
    · simp only [hp] at h
      obtain ⟨h1, h2, q, hq, h3⟩ := ih h
      exact ⟨h1, h2, q, List.mem_cons_of_mem _ hq, h3⟩

theorem test_physical_none_iff (fe : Str → Bool) (r vf : Str) (ps : List Str) :
    test_physical fe r vf ps = none ↔ ∀ p ∈ ps, fe (p ++ r) = false := by
  induction ps with
  | nil => simp [test_physical]
  | cons p rest ih =>
    rw [test_physical]
    by_cases hp : fe (p ++ r) = true
    · simp [hp]
    · simp only [hp, List.mem_cons, forall_eq_or_imp]
      simp only [Bool.not_eq_true] at hp
      simp [hp, ih]

theorem test_physical_first (fe : Str → Bool) (r vf : Str) (ps : List Str) (j : Nat)
    (hj : j < ps.length) (hex : fe (ps.get ⟨j, hj⟩ ++ r) = true)
    (hmin : ∀ i (hi : i < ps.length), i < j → fe (ps.get ⟨i, hi⟩ ++ r) = false) :
    test_physical fe r vf ps = some ⟨ps.get ⟨j, hj⟩ ++ r, vf⟩ := by
  induction ps generalizing j with
  | nil => simp at hj
  | cons p rest ih =>
    rw [test_physical]
    cases j with
    | zero =>
      simp only [List.get_eq_getElem, List.getElem_cons_zero] at hex ⊢
      simp [hex]
    | succ k =>
      have h0 : fe (p ++ r) = false := by
        have := hmin 0 (by simp) (by omega)
        simpa using this
      simp only [h0]
      have hk : k < rest.length := by simpa using hj
      have := ih k hk (by simpa using hex) (by
        intro i hi hik
        have := hmin (i + 1) (by simpa using hi) (by omega)
        simpa using this)
      simpa using this

/-- C1. Overlay precedence: when the walk of `get_info_virtual` ends at the cursor node `n` with
remainder `r`, and `j` is the least index of an overlay of `n` (in `add_mapping` call order)
whose file `p_j + r` exists, the result is the `pathinfo` with physical `p_j + r`. -/
theorem overlay_precedence (file_exists : Str → Bool) (root : path_element)
    (viewVirtual : Str) (current : pathinfo) (n : path_element) (r : Str)
    (hw : walk_result root viewVirtual current = some (n, r))
    (j : Nat) (hj : j < n.physical.length)
    (hex : file_exists (n.physical.get ⟨j, hj⟩ ++ r) = true)
    (hmin : ∀ i (hi : i < n.physical.length), i < j →
      file_exists (n.physical.get ⟨i, hi⟩ ++ r) = false) :
    get_info_virtual file_exists root viewVirtual current =
      .ok (some ⟨n.physical.get ⟨j, hj⟩ ++ r, virt_full (cleanse viewVirtual) current⟩) := by
  rw [get_info_virtual_eq, hw]
  simp only
  rw [test_physical_first file_exists r _ n.physical j hj hex hmin]

/-- C1, the instance of the specification: after `add_mapping("/a", "/m")` and
`add_mapping("/b", "/m")`, with `/a/f.txt` and `/b/f.txt` existing, the query `/m/f.txt`
resolves to `/a/f.txt`. -/
theorem overlay_precedence_witness :
    get_info_virtual overlay_files overlay_state.m_virtual_file_root "/m/f.txt".toList root_info =
      .ok (some ⟨"/a/f.txt".toList, "/m/f.txt".toList⟩) :=
  overlay_precedence overlay_files overlay_state.m_virtual_file_root "/m/f.txt".toList root_info
    (path_element.mk "/m".toList ["/a".toList, "/b".toList] []) "/f.txt".toList rfl
    0 (by decide) (by decide) (by intro i _ h; omega)

theorem walk_result_eq_none_of_empty (root : path_element) (viewVirtual : Str)
    (current : pathinfo) (h : cleanse viewVirtual = []) :
    walk_result root viewVirtual current = none := by
  simp [walk_result, h]

theorem walk_result_some_nonempty (root : path_element) (viewVirtual : Str)
    (current : pathinfo) (n : path_element) (r : Str)
    (h : walk_result root viewVirtual current = some (n, r)) : cleanse viewVirtual ≠ [] := by
  intro he
  rw [walk_result_eq_none_of_empty root viewVirtual current he] at h
  cases h

theorem explore_invariant (P : path_element → Prop)
    (hP : ∀ n, P n → ∀ k c, map_find n.next k = some c → P c) (segs : List Str) :
    ∀ (nodes nodes2 : List path_element) (it : List Str), (∀ n ∈ nodes, P n) →
      explore nodes segs = .ok (nodes2, it) → ∀ n ∈ nodes2, P n := by
  induction segs with
  | nil =>
    intro nodes nodes2 it hall h
    rw [explore_nil] at h
    simp only [Except.ok.injEq, Prod.mk.injEq] at h
    rw [← h.1]; exact hall
  | cons seg rest ih =>
    intro nodes nodes2 it hall h
    cases nodes with
    | nil =>
      rw [explore_empty_nodes] at h
      split at h
      · exact ih _ _ _ hall h
      · simp only [Except.ok.injEq, Prod.mk.injEq] at h
        rw [← h.1]; exact hall
    | cons b ns =>
      rw [explore_cons] at h
      split at h
      · exact ih _ _ _ hall h
      · split at h
        · exact ih _ _ _ (fun n hn => hall n (List.mem_cons_of_mem _ hn)) h
        · split at h
          · simp only [Except.ok.injEq, Prod.mk.injEq] at h
            rw [← h.1]; exact hall
          · rename_i c hc
            refine ih _ _ _ ?_ h
            intro n hn
            rcases List.mem_cons.1 hn with rfl | hn
            · exact hP b (hall b (List.mem_cons_self _ _)) _ _ hc
            · exact hall n hn

theorem navigate_current_invariant (P : path_element → Prop)
    (hP : ∀ n, P n → ∀ k c, map_find n.next k = some c → P c) (segs : List Str) :
    ∀ (b : path_element) (ns nodes2 : List path_element), (∀ n ∈ b :: ns, P n) →
      navigate_current (b :: ns) segs = .ok (some nodes2) → ∀ n ∈ nodes2, P n := by
  induction segs with
  | nil =>
    intro b ns nodes2 hall h
    rw [navigate_current_nil] at h
    simp only [Except.ok.injEq, Option.some.injEq] at h
    rw [← h]; exact hall
  | cons seg rest ih =>
    intro b ns nodes2 hall h
    rw [navigate_current_cons] at h
    split at h
    · exact ih _ _ _ hall h
    · split at h
      · rename_i c hc
        refine ih _ _ _ ?_ h
        intro n hn
        rcases List.mem_cons.1 hn with rfl | hn
        · exact hP b (hall b (List.mem_cons_self _ _)) _ _ hc
        · exact hall n hn
      · cases h

theorem start_nodes_invariant (P : path_element → Prop)
    (hP : ∀ n, P n → ∀ k c, map_find n.next k = some c → P c) (root : path_element)
    (hroot : P root) (virt : Str) (current : pathinfo) (nodes0 : List path_element)
    (h : start_nodes root virt current = .ok (some nodes0)) : ∀ n ∈ nodes0, P n := by
  have hall : ∀ n ∈ [root], P n := by
    intro n hn
    rw [List.mem_singleton.1 hn]; exact hroot
  unfold start_nodes at h
  split at h
  · split at h
    · exact navigate_current_invariant P hP _ _ _ _ hall h
    · simp only [Except.ok.injEq, Option.some.injEq] at h
      rw [← h]; exact hall
  · simp only [Except.ok.injEq, Option.some.injEq] at h
    rw [← h]; exact hall

theorem walk_result_cases (root : path_element) (viewVirtual : Str) (current : pathinfo)
    (n : path_element) (r : Str) (h : walk_result root viewVirtual current = some (n, r)) :
    ∃ nodes0 ns it, start_nodes root (cleanse viewVirtual) current = .ok (some nodes0) ∧
      explore nodes0 (istream_split (cleanse viewVirtual)) = .ok (n :: ns, it) ∧
      r = build_remainder it := by
  unfold walk_result at h
  split at h
  · cases h
  · split at h
    · rename_i nodes0 h0
      split at h
      · rename_i n2 ns it h1
        simp only [Option.some.injEq, Prod.mk.injEq] at h
        exact ⟨nodes0, ns, it, h0, h.1 ▸ h1, h.2.symm⟩
      · cases h
    · cases h

theorem walk_result_invariant (P : path_element → Prop)
    (hP : ∀ n, P n → ∀ k c, map_find n.next k = some c → P c) (root : path_element)
    (hroot : P root) (viewVirtual : Str) (current : pathinfo) (n : path_element) (r : Str)
    (h : walk_result root viewVirtual current = some (n, r)) : P n := by
  obtain ⟨nodes0, ns, it, h0, h1, -⟩ := walk_result_cases _ _ _ _ _ h
  exact explore_invariant P hP _ _ _ _ (start_nodes_invariant P hP root hroot _ _ _ h0) h1 n
    (List.mem_cons_self _ _)

theorem walk_result_empty_tree (viewVirtual : Str) (current : pathinfo) (n : path_element)
    (r : Str)
    (h : walk_result impl_default.empty.m_virtual_file_root viewVirtual current = some (n, r)) :
    n.physical = [] := by
  have := walk_result_invariant (fun m => m.physical = [] ∧ m.next = [])
    (by
      intro m hm k c hc
      rw [hm.2] at hc
      simp [map_find] at hc)
    impl_default.empty.m_virtual_file_root ⟨rfl, rfl⟩ viewVirtual current n r h
  exact this.1

/-- C3. Hit iff a file exists, for an arbitrary file-existence predicate: `get_info_virtual`
returns a `pathinfo` exactly when the cleansed query is non-empty, the walk ends at a cursor
node and some overlay `p` of that node has an existing file at `p + remainder`; the physical
path of a returned `pathinfo` exists; when no overlay of the cursor node matches the result is
the empty optional, in particular for the state in which nothing is mounted. -/
theorem get_info_virtual_hit_iff (file_exists : Str → Bool) (root : path_element)
    (viewVirtual : Str) (current : pathinfo) :
    ((∃ info, get_info_virtual file_exists root viewVirtual current = .ok (some info)) ↔
      (cleanse viewVirtual ≠ [] ∧ ∃ n r, walk_result root viewVirtual current = some (n, r) ∧
        ∃ p ∈ n.physical, file_exists (p ++ r) = true)) ∧
    (∀ info, get_info_virtual file_exists root viewVirtual current = .ok (some info) →
      file_exists info.physical = true) ∧
    ((∀ n r, walk_result root viewVirtual current = some (n, r) →
        ∀ p ∈ n.physical, file_exists (p ++ r) = false) →
      get_info_virtual file_exists root viewVirtual current = .ok none) ∧
    get_info_virtual file_exists impl_default.empty.m_virtual_file_root viewVirtual current =
      .ok none := by
  refine ⟨⟨?_, ?_⟩, ?_, ?_, ?_⟩
  · rintro ⟨info, h⟩
    rw [get_info_virtual_eq] at h
    cases hw : walk_result root viewVirtual current with
    | none => rw [hw] at h; cases h
    | some nr =>
      obtain ⟨n, r⟩ := nr
      rw [hw] at h
      simp only [Except.ok.injEq] at h
      obtain ⟨-, -, p, hp, hphys⟩ := test_physical_some _ _ _ _ _ h
      have hex := (test_physical_some _ _ _ _ _ h).1
      exact ⟨walk_result_some_nonempty _ _ _ _ _ hw, n, r, rfl, p, hp, hphys ▸ hex⟩
  · rintro ⟨-, n, r, hw, p, hp, hex⟩
    rw [get_info_virtual_eq, hw]
    simp only
    cases ht : test_physical file_exists r (virt_full (cleanse viewVirtual) current) n.physical with
    | none =>
      have := (test_physical_none_iff _ _ _ _).1 ht p hp
      rw [hex] at this
      cases this
    | some info => exact ⟨info, rfl⟩
  · intro info h
    rw [get_info_virtual_eq] at h
    cases hw : walk_result root viewVirtual current with
    | none => rw [hw] at h; cases h
    | some nr =>
      obtain ⟨n, r⟩ := nr
      rw [hw] at h
      simp only [Except.ok.injEq] at h
      exact (test_physical_some _ _ _ _ _ h).1
  · intro hno
    rw [get_info_virtual_eq]
    cases hw : walk_result root viewVirtual current with
    | none => rfl
    | some nr =>
      obtain ⟨n, r⟩ := nr
      simp only
      rw [(test_physical_none_iff _ _ _ _).2 (hno n r hw)]
  · rw [get_info_virtual_eq]
    cases hw : walk_result impl_default.empty.m_virtual_file_root viewVirtual current with
    | none => rfl
    | some nr =>
      obtain ⟨n, r⟩ := nr
      simp only
      rw [walk_result_empty_tree viewVirtual current n r hw]
      rfl

/-- C4. Empty query is NotFound: when the query is empty after backslash replacement and
trimming, `get_info_virtual` returns the empty optional for every tree, every current
`pathinfo` and every file system. -/
theorem get_info_virtual_empty_query (file_exists : Str → Bool) (root : path_element)
    (viewVirtual : Str) (current : pathinfo) (h : cleanse viewVirtual = []) :
    get_info_virtual file_exists root viewVirtual current = .ok none := by
  rw [get_info_virtual_eq, walk_result_eq_none_of_empty root viewVirtual current h]

/-- C4 at a query made of blanks, a tab and a line feed, on the tree with two overlays. -/
theorem get_info_virtual_empty_query_witness :
    cleanse [' ', '\t', ' ', '\n'] = [] ∧
    get_info_virtual overlay_files overlay_state.m_virtual_file_root [' ', '\t', ' ', '\n']
      root_info = .ok none :=
  ⟨by decide, get_info_virtual_empty_query _ _ _ _ (by decide)⟩

/-- C9. Forward resolution never fails: for every query, current `pathinfo`, tree and file
system, `get_info_virtual` returns an optional; no `back()` of an empty vector and no `at` of
a missing key is reached. -/
theorem get_info_virtual_never_fails (file_exists : Str → Bool) (root : path_element)
    (viewVirtual : Str) (current : pathinfo) :
    ∃ res, get_info_virtual file_exists root viewVirtual current = .ok res :=
  ⟨_, get_info_virtual_eq file_exists root viewVirtual current⟩

theorem explore_empty (segs : List Str) : ∃ it, explore [] segs = .ok ([], it) := by
  induction segs with
  | nil => exact ⟨[], explore_nil []⟩
  | cons seg rest ih =>
    rw [explore_empty_nodes]
    split
    · exact ih
    · exact ⟨_, rfl⟩

theorem explore_append (pre post : List Str) :
    ∀ nodes nodes2 : List path_element, explore nodes pre = .ok (nodes2, []) →
      explore nodes (pre ++ post) = explore nodes2 post := by
  induction pre with
  | nil =>
    intro nodes nodes2 h
    rw [explore_nil] at h
    simp only [Except.ok.injEq, Prod.mk.injEq, and_true] at h
    rw [List.nil_append, h]
  | cons seg rest ih =>
    intro nodes nodes2 h
    rw [List.cons_append]
    cases nodes with
    | nil =>
      rw [explore_empty_nodes] at h ⊢
      split at h
      · rename_i hs
        rw [if_pos hs]
        exact ih _ _ h
      · simp at h
    | cons b ns =>
      rw [explore_cons] at h ⊢
      split at h
      · rename_i hs
        rw [if_pos hs]
        exact ih _ _ h
      · rename_i hs
        rw [if_neg hs]
        split at h
        · rename_i hd
          rw [if_pos hd]
          exact ih _ _ h
        · rename_i hd
          rw [if_neg hd]
          split at h
          · simp at h
          · rename_i c hc
            exact ih _ _ h

theorem walk_result_of_explore (root : path_element) (viewVirtual : Str) (current : pathinfo)
    (nodes0 nodes : List path_element) (it : List Str) (hne : cleanse viewVirtual ≠ [])
    (h0 : start_nodes root (cleanse viewVirtual) current = .ok (some nodes0))
    (h1 : explore nodes0 (istream_split (cleanse viewVirtual)) = .ok (nodes, it)) :
    walk_result root viewVirtual current =
      match nodes with
      | n :: _ => some (n, build_remainder it)
      | [] => none := by
  unfold walk_result
  rw [if_neg hne, h0]
  simp only [h1]
  cases nodes <;> rfl

theorem walk_result_of_start_none (root : path_element) (viewVirtual : Str)
    (current : pathinfo) (h0 : start_nodes root (cleanse viewVirtual) current = .ok none) :
    walk_result root viewVirtual current = none := by
  unfold walk_result
  split
  · rfl
  · rw [h0]

theorem istream_split_ne_nil (s : Str) (h : s ≠ []) : istream_split s ≠ [] := by
  cases s with
  | nil => exact absurd rfl h
  | cons c cs =>
    rw [istream_split]
    split
    · simp
    · split <;> simp

theorem istream_split_eq_nil (s : Str) (h : istream_split s = []) : s = [] := by
  by_contra hne
  exact istream_split_ne_nil s hne h

theorem istream_split_head (s : Str) (a : Str) (l : List Str) (h : istream_split s = a :: l) :
    s.head? = some '/' ↔ a = [] := by
  cases s with
  | nil => simp [istream_split] at h
  | cons c cs =>
    rw [istream_split] at h
    by_cases hc : c = '/'
    · simp only [hc, if_true, List.cons.injEq] at h
      simp [hc, h.1.symm]
    · simp only [hc, if_false] at h
      split at h
      · simp only [List.cons.injEq] at h
        simp [hc, ← h.1]
      · simp only [List.cons.injEq] at h
        simp [hc, ← h.1]

theorem start_nodes_congr (root : path_element) (v1 v2 : Str) (current : pathinfo)
    (h : v1.head? = some '/' ↔ v2.head? = some '/') :
    start_nodes root v1 current = start_nodes root v2 current := by
  unfold start_nodes
  by_cases h1 : v1.head? = some '/'
  · have h2 := h.1 h1
    simp [h1, h2]
  · have h2 : ¬ v2.head? = some '/' := fun h2 => h1 (h.2 h2)
    simp [h1, h2]

/-- C5. Dot-dot clamping. First part: when the walk of the query executes a `..` while the
vector `nodes` holds the root only, that is the segments of the cleansed query are
`pre ++ ".." :: post` and walking `pre` ends, without `break`, with `nodes = [root]`, then
`get_info_virtual` returns the empty optional whatever files exist, so no overlay is tested.
Second part: for the query `/a/../..` and every tree, the result is the empty optional
whenever no overlay file of the root matches the remainder `/a`. -/
theorem dotdot_clamping :
    (∀ (file_exists : Str → Bool) (root : path_element) (viewVirtual : Str)
        (current : pathinfo) (nodes0 : List path_element) (pre post : List Str),
        start_nodes root (cleanse viewVirtual) current = .ok (some nodes0) →
        istream_split (cleanse viewVirtual) = pre ++ dotdot :: post →
        explore nodes0 pre = .ok ([root], []) →
        get_info_virtual file_exists root viewVirtual current = .ok none) ∧
    (∀ (file_exists : Str → Bool) (root : path_element) (current : pathinfo),
        (∀ p ∈ root.physical, file_exists (p ++ "/a".toList) = false) →
        get_info_virtual file_exists root "/a/../..".toList current = .ok none) := by
  constructor
  · intro file_exists root viewVirtual current nodes0 pre post h0 hs hpre
    have hne : cleanse viewVirtual ≠ [] := by
      intro he
      rw [he] at hs
      simp [istream_split] at hs
    obtain ⟨it, hit⟩ := explore_empty post
    have h1 : explore nodes0 (istream_split (cleanse viewVirtual)) = .ok ([], it) := by
      rw [hs, explore_append pre _ nodes0 [root] hpre, explore_cons]
      simp only [show dotdot ≠ [] by decide, if_false, if_true]
      exact hit
    rw [get_info_virtual_eq, walk_result_of_explore root viewVirtual current nodes0 [] it hne h0 h1]
  · intro file_exists root current hno
    have hc : cleanse "/a/../..".toList = "/a/../..".toList := by decide
    have hsp : istream_split "/a/../..".toList = [[], ['a'], dotdot, dotdot] := by decide
    have h0 : start_nodes root (cleanse "/a/../..".toList) current = .ok (some [root]) := by
      rw [hc]; rfl
    rw [get_info_virtual_eq]
    cases hf : map_find root.next ['a'] with
    | none =>
      have h1 : explore [root] (istream_split (cleanse "/a/../..".toList)) =
          .ok ([root], [['a'], dotdot, dotdot]) := by
        rw [hc, hsp, explore_cons, if_pos rfl, explore_cons]
        simp only [show (['a'] : Str) ≠ [] by decide, show (['a'] : Str) ≠ dotdot by decide,
          if_false, hf]
      rw [walk_result_of_explore root _ current [root] [root] _ (by rw [hc]; decide) h0 h1]
      simp only
      have hr : build_remainder [['a'], dotdot, dotdot] = "/a".toList := by decide
      rw [hr, (test_physical_none_iff _ _ _ _).2 hno]
    | some c =>
      have h1 : explore [root] (istream_split (cleanse "/a/../..".toList)) = .ok ([], []) := by
        rw [hc, hsp, explore_cons, if_pos rfl, explore_cons]
        simp only [show (['a'] : Str) ≠ [] by decide, show (['a'] : Str) ≠ dotdot by decide,
          if_false, hf]
        rw [explore_cons]
        simp only [show dotdot ≠ [] by decide, if_false, if_true]
        rw [explore_cons]
        simp only [show dotdot ≠ [] by decide, if_false, if_true]
        rw [explore_nil]
      rw [walk_result_of_explore root _ current [root] [] _ (by rw [hc]; decide) h0 h1]

/-- C5 on the tree with the node `/m`: the query `/m/../..` pops the root, and the query
`/a/../..` finds no file `/a` under an overlay of the root. -/
theorem dotdot_clamping_witness :
    get_info_virtual (fun _ => true) overlay_state.m_virtual_file_root "/m/../..".toList
        root_info = .ok none ∧
    get_info_virtual overlay_files overlay_state.m_virtual_file_root "/a/../..".toList
        root_info = .ok none :=
  ⟨dotdot_clamping.1 (fun _ => true) overlay_state.m_virtual_file_root "/m/../..".toList root_info
      [overlay_state.m_virtual_file_root] [[], ['m'], dotdot] [] rfl (by decide) rfl,
    dotdot_clamping.2 overlay_files overlay_state.m_virtual_file_root root_info
      (fun p hp => absurd (show p ∈ ([] : List Str) from hp) (List.not_mem_nil p))⟩

theorem get_info_virtual_virtual (file_exists : Str → Bool) (root : path_element)
    (viewVirtual : Str) (current : pathinfo) (info : pathinfo)
    (h : get_info_virtual file_exists root viewVirtual current = .ok (some info)) :
    info.virtual_ = virt_full (cleanse viewVirtual) current := by
  rw [get_info_virtual_eq] at h
  cases hw : walk_result root viewVirtual current with
  | none => rw [hw] at h; cases h
  | some nr =>
    obtain ⟨n, r⟩ := nr
    rw [hw] at h
    simp only [Except.ok.injEq] at h
    exact (test_physical_some _ _ _ _ _ h).2.1

/-- C6, as stated, fails: on the tree with the node `/m`, the relative query `m/f.txt` with a
current `pathinfo` whose virtual path is empty resolves to the virtual path `m/f.txt`, not to
`current.virtual + "/" + q = /m/f.txt`. -/
theorem relative_virtual_counterexample :
    (cleanse "m/f.txt".toList).head? ≠ some '/' ∧
    get_info_virtual overlay_files overlay_state.m_virtual_file_root "m/f.txt".toList root_info =
      .ok (some ⟨"/a/f.txt".toList, "m/f.txt".toList⟩) ∧
    "m/f.txt".toList ≠ root_info.virtual_ ++ "/".toList ++ cleanse "m/f.txt".toList := by
  refine ⟨by decide, rfl, by decide⟩

/-- C6, amended. For every query whose cleansed form `q` has no leading `/` and that
`get_info_virtual` resolves: when `current.virtual` is not empty the returned virtual path is
`current.virtual + "/" + q`, and when it is empty the returned virtual path is `q`. -/
theorem relative_virtual (file_exists : Str → Bool) (root : path_element)
    (viewVirtual : Str) (current : pathinfo) (info : pathinfo)
    (hrel : (cleanse viewVirtual).head? ≠ some '/')
    (h : get_info_virtual file_exists root viewVirtual current = .ok (some info)) :
    (current.virtual_ ≠ [] →
      info.virtual_ = current.virtual_ ++ "/".toList ++ cleanse viewVirtual) ∧
    (current.virtual_ = [] → info.virtual_ = cleanse viewVirtual) := by
  rw [get_info_virtual_virtual file_exists root viewVirtual current info h]
  unfold virt_full
  constructor
  · intro hne
    rw [if_pos ⟨hrel, hne⟩]
    simp
  · intro he
    rw [if_neg (fun hc => hc.2 he)]

/-- C6, amended, on the tree with the node `/m`: the query `f.txt` relative to the current
virtual path `/m` resolves to the virtual path `/m/f.txt`. -/
theorem relative_virtual_witness :
    get_info_virtual overlay_files overlay_state.m_virtual_file_root "f.txt".toList
        ⟨"/a/g.txt".toList, "/m".toList⟩ =
      .ok (some ⟨"/a/f.txt".toList, "/m/f.txt".toList⟩) ∧
    "/m/f.txt".toList = "/m".toList ++ "/".toList ++ cleanse "f.txt".toList :=
  ⟨rfl, (relative_virtual overlay_files overlay_state.m_virtual_file_root "f.txt".toList
    ⟨"/a/g.txt".toList, "/m".toList⟩ ⟨"/a/f.txt".toList, "/m/f.txt".toList⟩ (by decide) rfl).1
    (by decide)⟩

theorem navigate_current_spec (segs : List Str) :
    ∀ (b : path_element) (ns : List path_element),
      (node_at b (segs.filter (fun s => !s.isEmpty)) = none ∧
        navigate_current (b :: ns) segs = .ok none) ∨
      (∃ n rest, node_at b (segs.filter (fun s => !s.isEmpty)) = some n ∧
        navigate_current (b :: ns) segs = .ok (some (n :: rest))) := by
  induction segs with
  | nil =>
    intro b ns
    exact Or.inr ⟨b, ns, rfl, navigate_current_nil _⟩
  | cons seg rest ih =>
    intro b ns
    rw [navigate_current_cons]
    by_cases hs : seg = []
    · simp only [hs, if_true, List.filter_cons, List.isEmpty_nil, Bool.not_true]
      exact ih b ns
    · have hne : (!seg.isEmpty) = true := by
        cases seg with
        | nil => exact absurd rfl hs
        | cons _ _ => rfl
      simp only [hs, if_false, List.filter_cons, hne, if_true, node_at]
      cases hf : map_find b.next seg with
      | none => exact Or.inl ⟨rfl, rfl⟩
      | some c => exact ih c (b :: ns)

/-- C7, as stated, fails: the test for the leading `/` is made on the cleansed query. The
query `\m\f.txt` has no leading `/` and the current virtual path `/nope` names no node of the
tree with the node `/m`, yet the query is cleansed to `/m/f.txt`, resolved from the root and
found as `/a/f.txt`. -/
theorem relative_unknown_current_counterexample :
    "\\m\\f.txt".toList.head? ≠ some '/' ∧
    node_at overlay_state.m_virtual_file_root (segments "/nope".toList) = none ∧
    get_info_virtual overlay_files overlay_state.m_virtual_file_root "\\m\\f.txt".toList
        ⟨[], "/nope".toList⟩ = .ok (some ⟨"/a/f.txt".toList, "/m/f.txt".toList⟩) ∧
    get_info_virtual overlay_files overlay_state.m_virtual_file_root "\\m\\f.txt".toList
        ⟨[], "/nope".toList⟩ ≠ .ok none :=
  ⟨by decide, rfl, rfl, fun h => by cases h⟩

/-- C7, amended. Relative query with an unknown current path: when the cleansed query
(backslashes replaced, trimmed) has no leading `/` and the non-empty segments of
`current.virtual` are not a path of child nodes from the root, `get_info_virtual` returns the
empty optional, whatever files exist. -/
theorem relative_unknown_current (file_exists : Str → Bool) (root : path_element)
    (viewVirtual : Str) (current : pathinfo)
    (hrel : (cleanse viewVirtual).head? ≠ some '/')
    (hcur : node_at root (segments current.virtual_) = none) :
    get_info_virtual file_exists root viewVirtual current = .ok none := by
  have hne : current.virtual_ ≠ [] := by
    intro he
    rw [he] at hcur
    simp [segments, istream_split, node_at] at hcur
  have h0 : start_nodes root (cleanse viewVirtual) current = .ok none := by
    unfold start_nodes
    rw [if_pos hrel, if_pos hne]
    rcases navigate_current_spec (istream_split current.virtual_) root [] with h | ⟨n, rest, h, -⟩
    · exact h.2
    · unfold segments at hcur
      rw [hcur] at h
      cases h
  rw [get_info_virtual_eq, walk_result_of_start_none root viewVirtual current h0]

/-- C7, amended, on the tree with the node `/m`: relative to the current virtual path `/nope`,
which names no node, the query `f.txt` is not found although every file exists. -/
theorem relative_unknown_current_witness :
    get_info_virtual (fun _ => true) overlay_state.m_virtual_file_root "f.txt".toList
      ⟨[], "/nope".toList⟩ = .ok none :=
  relative_unknown_current (fun _ => true) overlay_state.m_virtual_file_root "f.txt".toList
    ⟨[], "/nope".toList⟩ (by decide) rfl

theorem build_remainder_eq (it : List Str) :
    build_remainder it = virtual_of (it.filter (fun s => s ≠ dotdot)) := by
  induction it with
  | nil => rfl
  | cons seg rest ih =>
    rw [build_remainder]
    by_cases hd : seg = dotdot
    · simp [hd, ih]
    · simp [hd, ih, virtual_of]

theorem build_remainder_filter (it : List Str) :
    build_remainder (it.filter (fun s => s ≠ dotdot)) = build_remainder it := by
  rw [build_remainder_eq, build_remainder_eq, List.filter_filter]
  simp

theorem explore_break (b : path_element) (ns : List path_element) (x : Str) (rest : List Str)
    (hx : x ≠ []) (hd : x ≠ dotdot) (hf : map_find b.next x = none) :
    explore (b :: ns) (x :: rest) = .ok (b :: ns, x :: rest) := by
  rw [explore_cons, if_neg hx, if_neg hd, hf]

theorem test_physical_physical (fe : Str → Bool) (r vf vf2 : Str) (ps : List Str) :
    (test_physical fe r vf ps).map pathinfo.physical =
      (test_physical fe r vf2 ps).map pathinfo.physical := by
  induction ps with
  | nil => rfl
  | cons p rest ih =>
    rw [test_physical, test_physical]
    by_cases hp : fe (p ++ r) = true
    · simp [hp]
    · simp only [hp]
      exact ih

/-- C8. Remainder mode elides `..`: let the segments of the cleansed queries `q1` and `q2` be
`pre ++ x :: rest` and `pre ++ x :: rest'`, where walking `pre` ends in the tree at the cursor
node `n`, `x` is the first unmatched segment (no child of `n`) and `rest'` is `rest` without
its `..` segments. Then both walks end at `n` with the same remainder, which is `"/" + s` for
every segment `s` of `x :: rest` other than `..` in order, so the same candidates are tested:
both queries are not found, or both resolve to the same physical path. -/
theorem remainder_elides_dotdot (file_exists : Str → Bool) (root : path_element)
    (q1 q2 : Str) (current : pathinfo) (nodes0 : List path_element) (pre : List Str) (x : Str)
    (rest : List Str) (n : path_element) (ns : List path_element)
    (h1 : istream_split (cleanse q1) = pre ++ x :: rest)
    (h2 : istream_split (cleanse q2) = pre ++ x :: rest.filter (fun s => s ≠ dotdot))
    (h0 : start_nodes root (cleanse q1) current = .ok (some nodes0))
    (hpre : explore nodes0 pre = .ok (n :: ns, []))
    (hx : x ≠ []) (hd : x ≠ dotdot) (hf : map_find n.next x = none) :
    walk_result root q1 current = some (n, build_remainder (x :: rest)) ∧
    walk_result root q2 current = some (n, build_remainder (x :: rest)) ∧
    build_remainder (x :: rest) = virtual_of ((x :: rest).filter (fun s => s ≠ dotdot)) ∧
    ((get_info_virtual file_exists root q1 current = .ok none ∧
        get_info_virtual file_exists root q2 current = .ok none) ∨
      ∃ phys v1 v2,
        get_info_virtual file_exists root q1 current = .ok (some ⟨phys, v1⟩) ∧
        get_info_virtual file_exists root q2 current = .ok (some ⟨phys, v2⟩)) := by
  have hne1 : cleanse q1 ≠ [] := by
    intro he
    rw [he] at h1
    simp [istream_split] at h1
  have hne2 : cleanse q2 ≠ [] := by
    intro he
    rw [he] at h2
    simp [istream_split] at h2
  have hhead : (cleanse q1).head? = some '/' ↔ (cleanse q2).head? = some '/' := by
    cases pre with
    | nil =>
      rw [List.nil_append] at h1 h2
      rw [istream_split_head _ _ _ h1, istream_split_head _ _ _ h2]
    | cons p ps =>
      rw [List.cons_append] at h1 h2
      rw [istream_split_head _ _ _ h1, istream_split_head _ _ _ h2]
  have h0b : start_nodes root (cleanse q2) current = .ok (some nodes0) := by
    rw [← start_nodes_congr root _ _ current hhead]; exact h0
  have e1 : explore nodes0 (istream_split (cleanse q1)) = .ok (n :: ns, x :: rest) := by
    rw [h1, explore_append pre _ nodes0 _ hpre, explore_break n ns x rest hx hd hf]
  have e2 : explore nodes0 (istream_split (cleanse q2)) =
      .ok (n :: ns, x :: rest.filter (fun s => s ≠ dotdot)) := by
    rw [h2, explore_append pre _ nodes0 _ hpre, explore_break n ns x _ hx hd hf]
  have hr : build_remainder (x :: rest.filter (fun s => s ≠ dotdot)) =
      build_remainder (x :: rest) := by
    rw [build_remainder, build_remainder, if_neg hd, if_neg hd, build_remainder_filter]
  have w1 := walk_result_of_explore root q1 current nodes0 _ _ hne1 h0 e1
  have w2 := walk_result_of_explore root q2 current nodes0 _ _ hne2 h0b e2
  simp only [hr] at w1 w2
  refine ⟨w1, w2, build_remainder_eq _, ?_⟩
  rw [get_info_virtual_eq, get_info_virtual_eq, w1, w2]
  simp only
  cases ht : test_physical file_exists (build_remainder (x :: rest))
      (virt_full (cleanse q1) current) n.physical with
  | none =>
    left
    refine ⟨rfl, ?_⟩
    rw [(test_physical_none_iff _ _ _ _).2 ((test_physical_none_iff _ _ _ _).1 ht)]
  | some info =>
    right
    have hm := test_physical_physical file_exists (build_remainder (x :: rest))
      (virt_full (cleanse q1) current) (virt_full (cleanse q2) current) n.physical
    rw [ht] at hm
    cases ht2 : test_physical file_exists (build_remainder (x :: rest))
        (virt_full (cleanse q2) current) n.physical with
    | none =>
      rw [ht2] at hm
      cases hm
    | some info2 =>
      rw [ht2] at hm
      simp only [Option.map_some', Option.some.injEq] at hm
      refine ⟨info.physical, info.virtual_, info2.virtual_, rfl, ?_⟩
      rw [hm]

/-- C8 on the tree with the node `/m`, where `x` is no child of `/m`: the queries `/m/x/../y`
and `/m/x/y` both end at `/m` with the remainder `/x/y`. -/
theorem remainder_elides_dotdot_witness :
    walk_result overlay_state.m_virtual_file_root "/m/x/../y".toList root_info =
        some (path_element.mk "/m".toList ["/a".toList, "/b".toList] [], "/x/y".toList) ∧
    get_info_virtual remainder_files overlay_state.m_virtual_file_root "/m/x/../y".toList
        root_info = .ok (some ⟨"/a/x/y".toList, "/m/x/../y".toList⟩) ∧
    get_info_virtual remainder_files overlay_state.m_virtual_file_root "/m/x/y".toList
        root_info = .ok (some ⟨"/a/x/y".toList, "/m/x/y".toList⟩) :=
  ⟨(remainder_elides_dotdot remainder_files overlay_state.m_virtual_file_root
      "/m/x/../y".toList "/m/x/y".toList root_info [overlay_state.m_virtual_file_root]
      [[], ['m']] ['x'] [dotdot, ['y']]
      (path_element.mk "/m".toList ["/a".toList, "/b".toList] [])
      [overlay_state.m_virtual_file_root] (by decide) (by decide) rfl rfl (by decide)
      (by decide) rfl).1, rfl, rfl⟩

/-- C10 fails on the code. With the directory `/a/b` mounted on `/m`, the query `/a` has the
elements `/`, `a` and the overlay has the elements `/`, `a`, `b`: the three-iterator
`std::mismatch` compares the third overlay element with an element the query does not have,
so `get_info_physical` reads past the end of the query instead of returning an optional,
whatever the file system answers. -/
theorem get_info_physical_reads_past_end (file_exists is_regular_file : Str → Bool) :
    path_elements "/a".toList = [['/'], ['a']] ∧
    path_elements "/a/b".toList = [['/'], ['a'], ['b']] ∧
    get_info_physical file_exists is_regular_file deep_state "/a".toList root_info =
      .error .read_past_end :=
  ⟨by decide, by decide, rfl⟩

theorem dropWhile_eq_self {α : Type} (p : α → Bool) (l : List α)
    (h : ∀ c, l.head? = some c → p c = false) : l.dropWhile p = l := by
  cases l with
  | nil => rfl
  | cons a t =>
    have := h a rfl
    simp [List.dropWhile, this]

theorem trim_eq_self (s : Str) (hh : ∀ c, s.head? = some c → is_space c = false)
    (hl : ∀ c, s.getLast? = some c → is_space c = false) : trim s = s := by
  unfold trim
  rw [dropWhile_eq_self is_space s hh, dropWhile_eq_self is_space s.reverse, List.reverse_reverse]
  intro c hc
  rw [List.head?_reverse] at hc
  exact hl c hc

theorem replace_backslash_append (a b : Str) :
    replace_backslash (a ++ b) = replace_backslash a ++ replace_backslash b := by
  simp [replace_backslash]

theorem replace_backslash_eq_self (s : Str) (h : '\\' ∉ s) : replace_backslash s = s := by
  induction s with
  | nil => rfl
  | cons c cs ih =>
    have hc : c ≠ '\\' := fun he => h (he ▸ List.mem_cons_self _ _)
    have hcs : '\\' ∉ cs := fun hm => h (List.mem_cons_of_mem _ hm)
    simp only [replace_backslash, List.map_cons, hc, if_false, List.cons.injEq, true_and]
    exact ih hcs

theorem is_space_replace (c : Char) (h : is_space c = false) :
    is_space (if c = '\\' then '/' else c) = false := by
  split
  · decide
  · exact h

theorem cleanse_mount_query (V F : Str) (hF : F ≠ []) (hb : '\\' ∉ F)
    (hV : ∀ c, V.head? = some c → is_space c = false)
    (hl : ∀ c, F.getLast? = some c → is_space c = false) :
    cleanse (V ++ '/' :: F) = replace_backslash V ++ '/' :: F := by
  unfold cleanse
  have hr : replace_backslash (V ++ '/' :: F) = replace_backslash V ++ '/' :: F := by
    rw [replace_backslash_append]
    congr 1
    have : replace_backslash ('/' :: F) = '/' :: replace_backslash F := by
      simp [replace_backslash]
    rw [this, replace_backslash_eq_self F hb]
  rw [hr]
  apply trim_eq_self
  · intro c hc
    cases V with
    | nil =>
      simp [replace_backslash] at hc
      rw [← hc]; decide
    | cons v vs =>
      simp only [replace_backslash, List.map_cons, List.cons_append, List.head?_cons,
        Option.some.injEq] at hc
      rw [← hc]
      exact is_space_replace v (hV v rfl)
  · intro c hc
    rw [List.getLast?_append_of_ne_nil _ (by simp)] at hc
    cases F with
    | nil => exact absurd rfl hF
    | cons f fs =>
      rw [List.getLast?_cons_cons] at hc
      exact hl c hc

theorem split_all_ne_nil (s : Str) : split_all s ≠ [] := by
  cases s with
  | nil => simp [split_all]
  | cons c cs =>
    rw [split_all]
    split
    · simp
    · split <;> simp

theorem istream_split_append_slash (a b : Str) :
    istream_split (a ++ '/' :: b) = split_all a ++ istream_split b := by
  induction a with
  | nil => simp [istream_split, split_all]
  | cons c cs ih =>
    rw [List.cons_append, istream_split, split_all, ih]
    by_cases hc : c = '/'
    · simp [hc]
    · simp only [hc, if_false]
      cases hs : split_all cs with
      | nil => exact absurd hs (split_all_ne_nil cs)
      | cons s ss => simp

theorem split_all_eq (s : Str) :
    split_all s = istream_split s ++ [[]] ∨ split_all s = istream_split s := by
  induction s with
  | nil => left; rfl
  | cons c cs ih =>
    rw [split_all, istream_split]
    by_cases hc : c = '/'
    · simp only [hc, if_true]
      rcases ih with h | h
      · left; rw [h]; rfl
      · right; rw [h]
    · simp only [hc, if_false]
      rcases ih with h | h
      · cases hi : istream_split cs with
        | nil =>
          rw [hi] at h
          rw [h]
          right; rfl
        | cons s ss =>
          rw [hi] at h
          rw [h]
          left; rfl
      · rw [h]
        right; rfl

theorem split_all_segments (s : Str) :
    (split_all s).filter (fun t => !t.isEmpty) = segments s := by
  unfold segments
  rcases split_all_eq s with h | h
  · rw [h]; simp
  · rw [h]

theorem virtual_of_istream_split (s : Str) (hne : s ≠ []) (hl : s.getLast? ≠ some '/') :
    virtual_of (istream_split s) = '/' :: s := by
  induction s with
  | nil => exact absurd rfl hne
  | cons c cs ih =>
    rw [istream_split]
    by_cases hc : c = '/'
    · simp only [hc, if_true, virtual_of, List.nil_append]
      have hcs : cs ≠ [] := by
        intro he
        rw [he, hc] at hl
        exact hl rfl
      have hl2 : cs.getLast? ≠ some '/' := by
        cases cs with
        | nil => exact absurd rfl hcs
        | cons d ds =>
          rw [List.getLast?_cons_cons] at hl
          exact hl
      rw [ih hcs hl2]
    · simp only [hc, if_false]
      cases cs with
      | nil => simp [istream_split, virtual_of]
      | cons d ds =>
        have hl2 : (d :: ds).getLast? ≠ some '/' := by
          rw [List.getLast?_cons_cons] at hl
          exact hl
        have := ih (by simp) hl2
        cases hi : istream_split (d :: ds) with
        | nil => exact absurd hi (istream_split_ne_nil _ (by simp))
        | cons t ts =>
          rw [hi] at this
          simp only [virtual_of, List.cons.injEq, true_and] at this
          simp only [virtual_of, List.cons_append, List.cons.injEq, true_and]
          exact this

theorem explore_descend (pieces : List Str) :
    ∀ (b : path_element) (ns : List path_element) (n : path_element),
      dotdot ∉ pieces → node_at b (pieces.filter (fun t => !t.isEmpty)) = some n →
      ∃ ns2, explore (b :: ns) pieces = .ok (n :: ns2, []) := by
  induction pieces with
  | nil =>
    intro b ns n _ h
    simp only [List.filter_nil, node_at, Option.some.injEq] at h
    exact ⟨ns, by rw [explore_nil, h]⟩
  | cons seg rest ih =>
    intro b ns n hd h
    have hd1 : seg ≠ dotdot := fun he => hd (he ▸ List.mem_cons_self _ _)
    have hd2 : dotdot ∉ rest := fun hm => hd (List.mem_cons_of_mem _ hm)
    rw [explore_cons]
    by_cases hs : seg = []
    · rw [if_pos hs]
      simp only [hs, List.filter_cons, List.isEmpty_nil, Bool.not_true] at h
      exact ih b ns n hd2 h
    · have hne : (!seg.isEmpty) = true := by
        cases seg with
        | nil => exact absurd rfl hs
        | cons _ _ => rfl
      rw [if_neg hs, if_neg hd1]
      simp only [List.filter_cons, hne, if_true, node_at] at h
      cases hf : map_find b.next seg with
      | none => rw [hf] at h; cases h
      | some c =>
        rw [hf] at h
        exact ih c (b :: ns) n hd2 h

theorem next_mk (v : Str) (p : List Str) (m : List (Str × path_element)) :
    (path_element.mk v p m).next = m := rfl

theorem physical_mk (v : Str) (p : List Str) (m : List (Str × path_element)) :
    (path_element.mk v p m).physical = p := rfl

theorem virtual_full_mk (v : Str) (p : List Str) (m : List (Str × path_element)) :
    (path_element.mk v p m).virtual_full = v := rfl

theorem map_find_map_set_self (m : List (Str × path_element)) (k : Str) (v : path_element) :
    map_find (map_set m k v) k = some v := by
  induction m with
  | nil => simp [map_set, map_find]
  | cons e rest ih =>
    obtain ⟨k2, w⟩ := e
    rw [map_set]
    by_cases h : k2 = k
    · simp [h, map_find]
    · simp [h, map_find, ih]

theorem map_find_map_set_ne (m : List (Str × path_element)) (k k2 : Str) (v : path_element)
    (h : k2 ≠ k) : map_find (map_set m k v) k2 = map_find m k2 := by
  induction m with
  | nil =>
    simp only [map_set, map_find]
    rw [if_neg (fun he => h he.symm)]
  | cons e rest ih =>
    obtain ⟨k3, w⟩ := e
    rw [map_set]
    by_cases h3 : k3 = k
    · have hk : ¬ k = k2 := fun he => h he.symm
      simp [h3, map_find, hk]
    · simp only [h3, if_false, map_find, ih]

theorem add_mapping_walk_cons (phys : Str) (pe : List Str) (seg : Str) (it : List Str)
    (tree : path_element) (hs : seg ≠ []) :
    (add_mapping_walk phys pe (seg :: it) tree).1 =
      path_element.mk tree.virtual_full tree.physical
        (map_set tree.next seg
          (add_mapping_walk phys (pe ++ [seg]) it
            (match map_find tree.next seg with
              | none => path_element.mk (virtual_of (pe ++ [seg])) [] []
              | some child => child)).1) := by
  rw [add_mapping_walk, if_neg hs]
  cases map_find tree.next seg <;> rfl

/-- After the walk of `add_mapping` the non-empty segments lead to a node whose overlay list
is the one it had before (empty for a node that did not exist) followed by `phys`. -/
theorem add_mapping_walk_reaches (phys : Str) (it : List Str) :
    ∀ (pe : List Str) (tree : path_element),
      ∃ n, node_at (add_mapping_walk phys pe it tree).1 (it.filter (fun t => !t.isEmpty)) =
          some n ∧
        n.physical = (match node_at tree (it.filter (fun t => !t.isEmpty)) with
          | some old => old.physical
          | none => []) ++ [phys] := by
  induction it with
  | nil =>
    intro pe tree
    exact ⟨_, rfl, rfl⟩
  | cons seg rest ih =>
    intro pe tree
    by_cases hs : seg = []
    · rw [add_mapping_walk, if_pos hs]
      simp only [hs, List.filter_cons, List.isEmpty_nil, Bool.not_true]
      exact ih pe tree
    · have hne : (!seg.isEmpty) = true := by
        cases seg with
        | nil => exact absurd rfl hs
        | cons _ _ => rfl
      rw [add_mapping_walk_cons phys pe seg rest tree hs]
      simp only [List.filter_cons, hne, if_true, node_at, next_mk, map_find_map_set_self]
      cases hf : map_find tree.next seg with
      | none =>
        obtain ⟨n, hn, hp⟩ := ih (pe ++ [seg]) (path_element.mk (virtual_of (pe ++ [seg])) [] [])
        refine ⟨n, hn, ?_⟩
        rw [hp]
        cases hrest : rest.filter (fun t => !t.isEmpty) with
        | nil => rfl
        | cons k ks => simp [node_at, next_mk, map_find]
      | some child =>
        exact ih (pe ++ [seg]) child

/-- The walk of `add_mapping` keeps every node: a key path that led to a node still leads to
a node with the same `virtual_full` whose overlay list starts with the former one. -/
theorem add_mapping_walk_keeps (phys : Str) (it : List Str) :
    ∀ (pe : List Str) (tree : path_element) (ks : List Str) (n : path_element),
      node_at tree ks = some n →
      ∃ n2, node_at (add_mapping_walk phys pe it tree).1 ks = some n2 ∧
        n2.virtual_full = n.virtual_full ∧ ∃ extra, n2.physical = n.physical ++ extra := by
  induction it with
  | nil =>
    intro pe tree ks n h
    cases ks with
    | nil =>
      simp only [node_at, Option.some.injEq] at h
      subst h
      exact ⟨_, rfl, rfl, [phys], rfl⟩
    | cons k ks2 =>
      refine ⟨n, ?_, rfl, [], by simp⟩
      rw [← h]
      rfl
  | cons seg rest ih =>
    intro pe tree ks n h
    by_cases hs : seg = []
    · rw [add_mapping_walk, if_pos hs]
      exact ih pe tree ks n h
    · rw [add_mapping_walk_cons phys pe seg rest tree hs]
      cases ks with
      | nil =>
        simp only [node_at, Option.some.injEq] at h
        subst h
        exact ⟨_, rfl, rfl, [], by simp [physical_mk]⟩
      | cons k ks2 =>
        simp only [node_at] at h ⊢
        simp only [next_mk]
        by_cases hk : k = seg
        · subst hk
          rw [map_find_map_set_self]
          cases hf : map_find tree.next k with
          | none => rw [hf] at h; cases h
          | some child =>
            rw [hf] at h
            exact ih (pe ++ [k]) child ks2 n h
        · rw [map_find_map_set_ne _ _ _ _ hk]
          exact ⟨n, h, rfl, [], by simp⟩

theorem add_mapping_reaches (s : impl_default) (P V : Str) :
    ∃ n, node_at (add_mapping s P V).m_virtual_file_root (segments (replace_backslash V)) =
        some n ∧
      n.physical = (match node_at s.m_virtual_file_root (segments (replace_backslash V)) with
        | some old => old.physical
        | none => []) ++ [lexically_normal (replace_backslash P)] :=
  add_mapping_walk_reaches _ _ _ _

theorem add_mapping_keeps (s : impl_default) (P V : Str) (ks : List Str) (n : path_element)
    (h : node_at s.m_virtual_file_root ks = some n) :
    ∃ n2, node_at (add_mapping s P V).m_virtual_file_root ks = some n2 ∧
      n2.virtual_full = n.virtual_full ∧ ∃ extra, n2.physical = n.physical ++ extra :=
  add_mapping_walk_keeps _ _ _ _ ks n h

theorem add_mappings_keeps (ms : List (Str × Str)) :
    ∀ (s : impl_default) (ks : List Str) (n : path_element),
      node_at s.m_virtual_file_root ks = some n →
      ∃ n2, node_at (add_mappings s ms).m_virtual_file_root ks = some n2 ∧
        n2.virtual_full = n.virtual_full ∧ ∃ extra, n2.physical = n.physical ++ extra := by
  induction ms with
  | nil =>
    intro s ks n h
    exact ⟨n, h, rfl, [], by simp⟩
  | cons m rest ih =>
    intro s ks n h
    obtain ⟨p, v⟩ := m
    obtain ⟨n1, h1, hv1, e1, hp1⟩ := add_mapping_keeps s p v ks n h
    obtain ⟨n2, h2, hv2, e2, hp2⟩ := ih (add_mapping s p v) ks n1 h1
    refine ⟨n2, h2, hv2.trans hv1, e1 ++ e2, ?_⟩
    rw [hp2, hp1, List.append_assoc]

theorem add_mappings_mounted (ms : List (Str × Str)) :
    ∀ (s : impl_default) (P V : Str), (P, V) ∈ ms →
      ∃ n, node_at (add_mappings s ms).m_virtual_file_root (segments (replace_backslash V)) =
          some n ∧ lexically_normal (replace_backslash P) ∈ n.physical := by
  induction ms with
  | nil => intro s P V h; cases h
  | cons m rest ih =>
    intro s P V h
    rcases List.mem_cons.1 h with hm | hm
    · subst hm
      obtain ⟨n1, h1, hp1⟩ := add_mapping_reaches s P V
      obtain ⟨n2, h2, -, e2, hp2⟩ := add_mappings_keeps rest (add_mapping s P V) _ n1 h1
      refine ⟨n2, h2, ?_⟩
      rw [hp2, hp1]
      simp
    · obtain ⟨p, v⟩ := m
      exact ih (add_mapping s p v) P V hm

/-- C2, as stated, fails: with `/p1` mounted on `/m` and `/p2` on `/m/sub`, the file
`sub/x.txt` exists under `/p1`, but the query `/m/sub/x.txt` walks into the node `/m/sub`,
whose only overlay is `/p2`, and is not found. -/
theorem round_trip_counterexample :
    ("/p1".toList, "/m".toList) ∈ shadow_mounts ∧
    shadow_files ("/p1".toList ++ "/".toList ++ "sub/x.txt".toList) = true ∧
    get_info_virtual shadow_files shadow_state.m_virtual_file_root
      ("/m".toList ++ "/".toList ++ "sub/x.txt".toList) root_info = .ok none := by
  refine ⟨by decide, by decide, rfl⟩

/-- C2, amended. Let `(P, V)` be one of a sequence of `add_mapping` calls made on any state,
where `V` has no `..` segment and does not start with whitespace. Let `F` be a relative file
path without backslash and without `..` segment that is not empty, does not start or end
with `/`, does not end with whitespace, and whose first segment is not the name of a child of
the node of `V`. If the file `F` exists under the stored overlay of `P`, then
`get_info_virtual(V + "/" + F, current)` with an empty `current.virtual` returns a `pathinfo`
whose physical path exists and whose virtual path is the cleansed query. -/
theorem round_trip (file_exists : Str → Bool) (s : impl_default) (ms : List (Str × Str))
    (P V F physical : Str)
    (hmem : (P, V) ∈ ms)
    (hVdd : dotdot ∉ segments (replace_backslash V))
    (hVsp : ∀ c, V.head? = some c → is_space c = false)
    (hFne : F ≠ [])
    (hFbs : '\\' ∉ F)
    (hFdd : dotdot ∉ istream_split F)
    (hFhead : F.head? ≠ some '/')
    (hFlast : ∀ c, F.getLast? = some c → c ≠ '/' ∧ is_space c = false)
    (hchild : ∀ n f,
      node_at (add_mappings s ms).m_virtual_file_root (segments (replace_backslash V)) = some n →
      (istream_split F).head? = some f → map_find n.next f = none)
    (hex : file_exists (lexically_normal (replace_backslash P) ++ '/' :: F) = true) :
    ∃ info, get_info_virtual file_exists (add_mappings s ms).m_virtual_file_root
        (V ++ '/' :: F) ⟨physical, []⟩ = .ok (some info) ∧
      file_exists info.physical = true ∧ info.virtual_ = cleanse (V ++ '/' :: F) := by
  obtain ⟨n, hn, hp⟩ := add_mappings_mounted ms s P V hmem
  have hc : cleanse (V ++ '/' :: F) = replace_backslash V ++ '/' :: F :=
    cleanse_mount_query V F hFne hFbs hVsp (fun c hc => (hFlast c hc).2)
  have hne : cleanse (V ++ '/' :: F) ≠ [] := by rw [hc]; simp
  have h0 : start_nodes (add_mappings s ms).m_virtual_file_root (cleanse (V ++ '/' :: F))
      ⟨physical, []⟩ = .ok (some [(add_mappings s ms).m_virtual_file_root]) := by
    unfold start_nodes
    split
    · rw [if_neg (by simp)]
    · rfl
  have hdd : dotdot ∉ split_all (replace_backslash V) := by
    intro hm
    apply hVdd
    rw [← split_all_segments]
    exact List.mem_filter.2 ⟨hm, by decide⟩
  obtain ⟨ns2, he⟩ := explore_descend (split_all (replace_backslash V))
    (add_mappings s ms).m_virtual_file_root [] n hdd (by rw [split_all_segments]; exact hn)
  cases hsp : istream_split F with
  | nil => exact absurd (istream_split_eq_nil F hsp) hFne
  | cons f fs =>
    have hf1 : f ≠ [] := fun hf => hFhead ((istream_split_head F f fs hsp).2 hf)
    have hf2 : f ≠ dotdot := by
      intro hf
      apply hFdd
      rw [hsp, hf]
      exact List.mem_cons_self _ _
    have hf3 : map_find n.next f = none := hchild n f hn (by rw [hsp]; rfl)
    have h1 : explore [(add_mappings s ms).m_virtual_file_root]
        (istream_split (cleanse (V ++ '/' :: F))) = .ok (n :: ns2, f :: fs) := by
      rw [hc, istream_split_append_slash, explore_append _ _ _ _ he, hsp,
        explore_break n ns2 f fs hf1 hf2 hf3]
    have hr : build_remainder (f :: fs) = '/' :: F := by
      rw [build_remainder_eq, ← hsp, List.filter_eq_self.2, virtual_of_istream_split F hFne]
      · intro hl
        exact (hFlast _ hl).1 rfl
      · intro a ha
        have : a ≠ dotdot := fun h => hFdd (h ▸ ha)
        simpa using this
    have hw := walk_result_of_explore (add_mappings s ms).m_virtual_file_root (V ++ '/' :: F)
      ⟨physical, []⟩ _ _ _ hne h0 h1
    simp only [hr] at hw
    have hvf : virt_full (cleanse (V ++ '/' :: F)) ⟨physical, []⟩ = cleanse (V ++ '/' :: F) := by
      unfold virt_full
      rw [if_neg (by simp)]
    rw [get_info_virtual_eq, hw]
    simp only [hvf]
    cases ht : test_physical file_exists ('/' :: F) (cleanse (V ++ '/' :: F)) n.physical with
    | none =>
      have := (test_physical_none_iff _ _ _ _).1 ht _ hp
      rw [hex] at this
      cases this
    | some info =>
      obtain ⟨h1, h2, -⟩ := test_physical_some _ _ _ _ _ ht
      exact ⟨info, rfl, h1, h2⟩
/-- C2, amended, for the mount `(/b, /m)` of the state with two overlays on `/m` and the file
`f.txt`: the query `/m/f.txt` returns a `pathinfo` whose physical path exists. -/
theorem round_trip_witness :
    ∃ info, get_info_virtual overlay_files
        (add_mappings impl_default.empty
          [("/a".toList, "/m".toList), ("/b".toList, "/m".toList)]).m_virtual_file_root
        ("/m".toList ++ '/' :: "f.txt".toList) ⟨[], []⟩ = .ok (some info) ∧
      overlay_files info.physical = true ∧
      info.virtual_ = cleanse ("/m".toList ++ '/' :: "f.txt".toList) :=
  round_trip overlay_files impl_default.empty
    [("/a".toList, "/m".toList), ("/b".toList, "/m".toList)] "/b".toList "/m".toList
    "f.txt".toList [] (by decide) (by decide) (fun c hc => by cases hc; decide) (by decide)
    (by decide) (by decide) (by decide) (fun c hc => by cases hc; decide)
    (fun n f hn hf => by cases hn; cases hf; rfl) (by decide)

theorem trim_eq_nil_iff (s : Str) : trim s = [] ↔ ∀ c ∈ s, is_space c = true := by
  unfold trim
  rw [List.reverse_eq_nil_iff, List.dropWhile_eq_nil_iff]
  constructor
  · intro h
    have hd : s.dropWhile is_space = [] := by
      cases hd : s.dropWhile is_space with
      | nil => rfl
      | cons a t =>
        have h1 := List.head?_dropWhile_not is_space s
        rw [hd] at h1 h
        have h2 := h a (by simp)
        simp only [List.head?_cons, Option.some.injEq, forall_eq'] at h1
        rw [h2] at h1
        simp at h1
    exact List.dropWhile_eq_nil_iff.1 hd
  · intro h
    rw [List.dropWhile_eq_nil_iff.2 h]
    simp

theorem cleanse_eq_nil_iff (q : Str) : cleanse q = [] ↔ ∀ c ∈ q, is_space c = true := by
  unfold cleanse
  rw [trim_eq_nil_iff]
  unfold replace_backslash
  constructor
  · intro h c hc
    have := h _ (List.mem_map_of_mem _ hc)
    by_cases hb : c = '\\'
    · rw [if_pos hb] at this
      exact absurd this (by decide)
    · rw [if_neg hb] at this
      exact this
  · intro h c hc
    obtain ⟨d, hd, rfl⟩ := List.mem_map.1 hc
    have hs := h d hd
    by_cases hb : d = '\\'
    · rw [hb] at hs
      exact absurd hs (by decide)
    · rw [if_neg hb]
      exact hs

/-- C11 fails on the code. With the directory `/a/b` mounted on `/m` and the file
`/a/b/f.txt` existing, forward resolution of `/m/f.txt` finds the file, but
`get_info_physical("/a/b/f.txt")` forwards `virtual_full + substr(size + 1)`, which is
`/m` followed by `f.txt` without a separator, that is `/mf.txt`, and returns the empty
optional, whatever the file system answers. -/
theorem inverse_round_trip_fails (file_exists is_regular_file : Str → Bool) :
    deep_files ("/a/b".toList ++ "/".toList ++ "f.txt".toList) = true ∧
    get_info_virtual deep_files deep_state.m_virtual_file_root "/m/f.txt".toList root_info =
      .ok (some ⟨"/a/b/f.txt".toList, "/m/f.txt".toList⟩) ∧
    (substr "/a/b/f.txt".toList ("/a/b".toList.length + 1)).map (fun t => "/m".toList ++ t) =
      .ok "/mf.txt".toList ∧
    get_info_physical file_exists is_regular_file deep_state
      ("/a/b".toList ++ "/".toList ++ "f.txt".toList) root_info = .ok none :=
  ⟨by decide, rfl, rfl, rfl⟩

/-- C12. Postcondition of `add_mapping(P, V)`: the non-empty segments of `V` (split on `/` after
replacing `\` by `/`) lead from the new root to a node whose overlay list is the overlay list
the node had before the call (the empty list when there was no such node) followed by the
lexically normalized, slash-normalized `P`; when `V` has no non-empty segment that node is the
root. -/
theorem add_mapping_postcondition (s : impl_default) (P V : Str) :
    (∃ n, node_at (add_mapping s P V).m_virtual_file_root (segments (replace_backslash V)) =
        some n ∧
      n.physical = (match node_at s.m_virtual_file_root (segments (replace_backslash V)) with
        | some old => old.physical
        | none => []) ++ [lexically_normal (replace_backslash P)]) ∧
    (segments (replace_backslash V) = [] →
      (add_mapping s P V).m_virtual_file_root.physical =
        s.m_virtual_file_root.physical ++ [lexically_normal (replace_backslash P)]) := by
  refine ⟨add_mapping_reaches s P V, ?_⟩
  intro hs
  obtain ⟨n, hn, hp⟩ := add_mapping_reaches s P V
  rw [hs] at hn hp
  simp only [node_at, Option.some.injEq] at hn hp
  rw [hn, hp]

theorem add_mapping_walk_frame (phys : Str) (it : List Str) :
    ∀ (pe : List Str) (tree : path_element) (ks : List Str) (n : path_element),
      node_at tree ks = some n →
      ∃ n2, node_at (add_mapping_walk phys pe it tree).1 ks = some n2 ∧
        n2.virtual_full = n.virtual_full ∧
        n2.physical = n.physical ++
          (if ks = it.filter (fun t => !t.isEmpty) then [phys] else []) := by
  induction it with
  | nil =>
    intro pe tree ks n h
    cases ks with
    | nil =>
      simp only [node_at, Option.some.injEq] at h
      subst h
      exact ⟨_, rfl, rfl, by simp [add_mapping_walk, physical_mk]⟩
    | cons k ks2 =>
      refine ⟨n, ?_, rfl, by simp⟩
      rw [← h]
      rfl
  | cons seg rest ih =>
    intro pe tree ks n h
    by_cases hs : seg = []
    · rw [add_mapping_walk, if_pos hs]
      simp only [hs, List.filter_cons, List.isEmpty_nil, Bool.not_true]
      exact ih pe tree ks n h
    · have hne : (!seg.isEmpty) = true := by
        cases seg with
        | nil => exact absurd rfl hs
        | cons _ _ => rfl
      rw [add_mapping_walk_cons phys pe seg rest tree hs]
      simp only [List.filter_cons, hne, if_true]
      cases ks with
      | nil =>
        simp only [node_at, Option.some.injEq] at h
        subst h
        exact ⟨_, rfl, rfl, by simp [physical_mk]⟩
      | cons k ks2 =>
        simp only [node_at] at h ⊢
        simp only [next_mk]
        by_cases hk : k = seg
        · subst hk
          rw [map_find_map_set_self]
          cases hf : map_find tree.next k with
          | none => rw [hf] at h; cases h
          | some child =>
            rw [hf] at h
            obtain ⟨n2, h2, hv, hp⟩ := ih (pe ++ [k]) child ks2 n h
            refine ⟨n2, h2, hv, ?_⟩
            rw [hp]
            simp
        · rw [map_find_map_set_ne _ _ _ _ hk]
          refine ⟨n, h, rfl, ?_⟩
          simp [hk]

/-- C13. `add_mapping` only adds: a key path that led to a node before `add_mapping(P, V)`
leads to a node after it, with the same `virtual_full`; the overlay list of that node is the
former one, followed by the normalized `P` when the key path is the one of `V` and by nothing
otherwise. -/
theorem add_mapping_only_adds (s : impl_default) (P V : Str) (ks : List Str)
    (n : path_element) (h : node_at s.m_virtual_file_root ks = some n) :
    ∃ n2, node_at (add_mapping s P V).m_virtual_file_root ks = some n2 ∧
      n2.virtual_full = n.virtual_full ∧
      n2.physical = n.physical ++
        (if ks = segments (replace_backslash V) then [lexically_normal (replace_backslash P)]
          else []) :=
  add_mapping_walk_frame _ _ _ _ ks n h

/-- C13 on the state with two overlays on `/m`: after another `add_mapping("/c", "/m/x")` the
node `/m` is still reached by the key `m`, with its name and its two overlays unchanged. -/
theorem add_mapping_only_adds_witness :
    ∃ n2, node_at (add_mapping overlay_state "/c".toList "/m/x".toList).m_virtual_file_root
        [['m']] = some n2 ∧
      n2.virtual_full = "/m".toList ∧
      n2.physical = ["/a".toList, "/b".toList] ++
        (if [['m']] = segments (replace_backslash "/m/x".toList)
          then [lexically_normal (replace_backslash "/c".toList)] else []) :=
  add_mapping_only_adds overlay_state "/c".toList "/m/x".toList [['m']]
    (path_element.mk "/m".toList ["/a".toList, "/b".toList] []) rfl

theorem node_at_fresh (v : Str) (ks : List Str) (n : path_element)
    (h : node_at (path_element.mk v [] []) ks = some n) :
    ks = [] ∧ n = path_element.mk v [] [] := by
  cases ks with
  | nil =>
    simp only [node_at, Option.some.injEq] at h
    exact ⟨rfl, h.symm⟩
  | cons k ks2 => simp [node_at, next_mk, map_find] at h

theorem nonempty_of_ne_nil (seg : Str) (hs : seg ≠ []) : (!seg.isEmpty) = true := by
  cases seg with
  | nil => exact absurd rfl hs
  | cons _ _ => rfl

/-- Where a node of the tree after the walk of `add_mapping` comes from: it was there before,
with the same `virtual_full` and with `phys` appended when its key path is the one walked; or
it is new, its key path starts the one walked, its `virtual_full` is `"/" + key` for every
key, and its only overlay is `phys` when its key path is the one walked. -/
theorem add_mapping_walk_origin (phys : Str) (it : List Str) :
    ∀ (pe : List Str) (tree : path_element) (ks : List Str) (n2 : path_element),
      node_at (add_mapping_walk phys pe it tree).1 ks = some n2 →
      (∃ n, node_at tree ks = some n ∧ n2.virtual_full = n.virtual_full ∧
        n2.physical = n.physical ++
          (if ks = it.filter (fun t => !t.isEmpty) then [phys] else [])) ∨
      (node_at tree ks = none ∧ (∃ t, it.filter (fun t => !t.isEmpty) = ks ++ t) ∧
        n2.virtual_full = virtual_of (pe ++ ks) ∧
        n2.physical = (if ks = it.filter (fun t => !t.isEmpty) then [phys] else [])) := by
  induction it with
  | nil =>
    intro pe tree ks n2 h
    left
    cases ks with
    | nil =>
      simp only [add_mapping_walk, node_at, Option.some.injEq] at h
      subst h
      exact ⟨tree, rfl, rfl, by simp [physical_mk]⟩
    | cons k ks2 =>
      refine ⟨n2, ?_, rfl, by simp⟩
      rw [← h]
      rfl
  | cons seg rest ih =>
    intro pe tree ks n2 h
    by_cases hs : seg = []
    · rw [add_mapping_walk, if_pos hs] at h
      simp only [hs, List.filter_cons, List.isEmpty_nil, Bool.not_true]
      exact ih pe tree ks n2 h
    · have hne := nonempty_of_ne_nil seg hs
      rw [add_mapping_walk_cons phys pe seg rest tree hs] at h
      simp only [List.filter_cons, hne, if_true]
      cases ks with
      | nil =>
        left
        simp only [node_at, Option.some.injEq] at h
        subst h
        exact ⟨tree, rfl, rfl, by simp [physical_mk]⟩
      | cons k ks2 =>
        simp only [node_at, next_mk] at h
        by_cases hk : k = seg
        · subst hk
          rw [map_find_map_set_self] at h
          cases hf : map_find tree.next k with
          | none =>
            rw [hf] at h
            right
            rcases ih (pe ++ [k]) _ ks2 n2 h with ⟨n, hn, hv, hp⟩ | ⟨hn, ⟨t, ht⟩, hv, hp⟩
            · obtain ⟨hks, hnf⟩ := node_at_fresh _ _ _ hn
              subst hks
              subst hnf
              refine ⟨by simp [node_at, hf], ⟨_, rfl⟩, ?_, ?_⟩
              · rw [hv]; rfl
              · rw [hp]
                simp [physical_mk]
            · refine ⟨by simp [node_at, hf], ⟨t, by rw [ht]; rfl⟩, ?_, ?_⟩
              · rw [hv]; simp
              · rw [hp]; simp
          | some child =>
            rw [hf] at h
            rcases ih (pe ++ [k]) _ ks2 n2 h with ⟨n, hn, hv, hp⟩ | ⟨hn, ⟨t, ht⟩, hv, hp⟩
            · left
              refine ⟨n, by simp [node_at, hf, hn], hv, ?_⟩
              rw [hp]; simp
            · right
              refine ⟨by simp [node_at, hf, hn], ⟨t, by rw [ht]; rfl⟩, ?_, ?_⟩
              · rw [hv]; simp
              · rw [hp]; simp
        · rw [map_find_map_set_ne _ _ _ _ hk] at h
          left
          refine ⟨n2, by simp only [node_at]; exact h, rfl, ?_⟩
          simp [hk]

theorem map_set_keys (m : List (Str × path_element)) (k : Str) (v : path_element) :
    (map_set m k v).map Prod.fst =
      if k ∈ m.map Prod.fst then m.map Prod.fst else m.map Prod.fst ++ [k] := by
  induction m with
  | nil => simp [map_set]
  | cons e rest ih =>
    obtain ⟨k2, w⟩ := e
    rw [map_set]
    by_cases h : k2 = k
    · subst h
      simp only [if_true, List.map_cons, List.mem_cons, true_or]
    · have h2 : ¬ k = k2 := fun he => h he.symm
      simp only [h, if_false, List.map_cons, ih, List.mem_cons, h2, false_or]
      split
      · rfl
      · rfl

theorem map_set_keys_nodup (m : List (Str × path_element)) (k : Str) (v : path_element)
    (h : (m.map Prod.fst).Nodup) : ((map_set m k v).map Prod.fst).Nodup := by
  rw [map_set_keys]
  split
  · exact h
  · rename_i hk
    rw [List.nodup_append]
    refine ⟨h, List.nodup_singleton k, ?_⟩
    intro a ha hb
    rw [List.mem_singleton] at hb
    rw [hb] at ha
    exact hk ha

theorem add_mapping_walk_keys_nodup (phys : Str) (it : List Str) :
    ∀ (pe : List Str) (tree : path_element),
      (∀ ks n, node_at tree ks = some n → (n.next.map Prod.fst).Nodup) →
      ∀ ks n2, node_at (add_mapping_walk phys pe it tree).1 ks = some n2 →
        (n2.next.map Prod.fst).Nodup := by
  induction it with
  | nil =>
    intro pe tree hall ks n2 h
    cases ks with
    | nil =>
      simp only [add_mapping_walk, node_at, Option.some.injEq] at h
      subst h
      exact hall [] tree rfl
    | cons k ks2 => exact hall (k :: ks2) n2 h
  | cons seg rest ih =>
    intro pe tree hall ks n2 h
    by_cases hs : seg = []
    · rw [add_mapping_walk, if_pos hs] at h
      exact ih pe tree hall ks n2 h
    · rw [add_mapping_walk_cons phys pe seg rest tree hs] at h
      cases ks with
      | nil =>
        simp only [node_at, Option.some.injEq] at h
        subst h
        rw [next_mk]
        exact map_set_keys_nodup _ _ _ (hall [] tree rfl)
      | cons k ks2 =>
        simp only [node_at, next_mk] at h
        by_cases hk : k = seg
        · subst hk
          rw [map_find_map_set_self] at h
          refine ih (pe ++ [k]) _ ?_ ks2 n2 h
          intro ks n hn
          cases hf : map_find tree.next k with
          | none =>
            rw [hf] at hn
            obtain ⟨-, hnf⟩ := node_at_fresh _ _ _ hn
            rw [hnf, next_mk]
            exact List.nodup_nil
          | some child =>
            rw [hf] at hn
            exact hall (k :: ks) n (by simp only [node_at, hf]; exact hn)
        · rw [map_find_map_set_ne _ _ _ _ hk] at h
          exact hall (k :: ks2) n2 (by simp only [node_at]; exact h)

theorem istream_split_mem (str : Str) :
    ∀ s ∈ istream_split str, '/' ∉ s ∧ ∀ c ∈ s, c ∈ str := by
  induction str with
  | nil => simp [istream_split]
  | cons c cs ih =>
    intro s hs
    rw [istream_split] at hs
    by_cases hc : c = '/'
    · simp only [hc, if_true, List.mem_cons] at hs
      rcases hs with rfl | hs
      · simp
      · obtain ⟨h1, h2⟩ := ih s hs
        exact ⟨h1, fun d hd => List.mem_cons_of_mem _ (h2 d hd)⟩
    · simp only [hc, if_false] at hs
      cases hi : istream_split cs with
      | nil =>
        rw [hi] at hs
        simp only [List.mem_singleton] at hs
        subst hs
        refine ⟨by simpa using fun h => hc h.symm, by simp⟩
      | cons t ts =>
        rw [hi] at hs
        simp only [List.mem_cons] at hs
        obtain ⟨h1, h2⟩ := ih t (by rw [hi]; exact List.mem_cons_self _ _)
        rcases hs with rfl | hs
        · refine ⟨?_, ?_⟩
          · intro hm
            rcases List.mem_cons.1 hm with h | h
            · exact hc h.symm
            · exact h1 h
          · intro d hd
            rcases List.mem_cons.1 hd with rfl | hd
            · exact List.mem_cons_self _ _
            · exact List.mem_cons_of_mem _ (h2 d hd)
        · obtain ⟨h3, h4⟩ := ih s (by rw [hi]; exact List.mem_cons_of_mem _ hs)
          exact ⟨h3, fun d hd => List.mem_cons_of_mem _ (h4 d hd)⟩

theorem replace_backslash_no_backslash (s : Str) : '\\' ∉ replace_backslash s := by
  unfold replace_backslash
  intro h
  obtain ⟨c, -, hc⟩ := List.mem_map.1 h
  by_cases hb : c = '\\'
  · rw [if_pos hb] at hc
    exact absurd hc (by decide)
  · rw [if_neg hb] at hc
    exact hb hc

theorem segments_good (V : Str) :
    ∀ k ∈ segments (replace_backslash V), k ≠ [] ∧ '/' ∉ k ∧ '\\' ∉ k := by
  intro k hk
  unfold segments at hk
  obtain ⟨hm, hne⟩ := List.mem_filter.1 hk
  obtain ⟨h1, h2⟩ := istream_split_mem _ k hm
  refine ⟨?_, h1, fun hb => replace_backslash_no_backslash V (h2 _ hb)⟩
  intro he
  rw [he] at hne
  simp at hne

theorem tree_inv_empty : tree_inv impl_default.empty.m_virtual_file_root := by
  intro ks n h
  obtain ⟨hks, hn⟩ := node_at_fresh _ _ _ h
  subst hks
  subst hn
  exact ⟨rfl, by simp, List.nodup_nil⟩

theorem tree_inv_add_mapping (s : impl_default) (P V : Str)
    (h : tree_inv s.m_virtual_file_root) : tree_inv (add_mapping s P V).m_virtual_file_root := by
  intro ks n2 h2
  refine ⟨?_, ?_, ?_⟩
  · rcases add_mapping_walk_origin _ _ _ _ ks n2 h2 with ⟨n, hn, hv, -⟩ | ⟨-, -, hv, -⟩
    · rw [hv]
      exact (h ks n hn).1
    · rw [hv]
      rfl
  · rcases add_mapping_walk_origin _ _ _ _ ks n2 h2 with ⟨n, hn, -, -⟩ | ⟨-, ⟨t, ht⟩, -, -⟩
    · exact (h ks n hn).2.1
    · intro k hk
      apply segments_good V
      unfold segments
      rw [ht]
      exact List.mem_append_left _ hk
  · exact add_mapping_walk_keys_nodup _ _ _ _ (fun ks n hn => (h ks n hn).2.2) ks n2 h2

theorem tree_inv_add_mappings (ms : List (Str × Str)) :
    ∀ s : impl_default, tree_inv s.m_virtual_file_root →
      tree_inv (add_mappings s ms).m_virtual_file_root := by
  induction ms with
  | nil => intro s h; exact h
  | cons m rest ih =>
    intro s h
    obtain ⟨p, v⟩ := m
    exact ih _ (tree_inv_add_mapping s p v h)

theorem virtual_of_head (l : List Str) : virtual_of l = [] ∨ (virtual_of l).head? = some '/' := by
  cases l with
  | nil => left; rfl
  | cons a t => right; rfl

theorem append_slash_inj (x : Str) :
    ∀ (y u v : Str), '/' ∉ x → '/' ∉ y → (u = [] ∨ u.head? = some '/') →
      (v = [] ∨ v.head? = some '/') → x ++ u = y ++ v → x = y ∧ u = v := by
  induction x with
  | nil =>
    intro y u v _ hy hu _ h
    cases y with
    | nil => exact ⟨rfl, h⟩
    | cons d y2 =>
      exfalso
      rw [List.nil_append] at h
      rcases hu with hu | hu
      · rw [hu] at h
        cases h
      · rw [h] at hu
        simp only [List.cons_append, List.head?_cons, Option.some.injEq] at hu
        exact hy (hu ▸ List.mem_cons_self _ _)
  | cons c x2 ih =>
    intro y u v hx hy hu hv h
    cases y with
    | nil =>
      exfalso
      rw [List.nil_append] at h
      rcases hv with hv | hv
      · rw [hv] at h
        cases h
      · rw [← h] at hv
        simp only [List.cons_append, List.head?_cons, Option.some.injEq] at hv
        exact hx (hv ▸ List.mem_cons_self _ _)
    | cons d y2 =>
      simp only [List.cons_append, List.cons.injEq] at h
      obtain ⟨h1, h2⟩ := ih y2 u v (fun hm => hx (List.mem_cons_of_mem _ hm))
        (fun hm => hy (List.mem_cons_of_mem _ hm)) hu hv h.2
      exact ⟨by rw [h.1, h1], h2⟩

theorem virtual_of_inj (a : List Str) :
    ∀ b : List Str, (∀ k ∈ a, '/' ∉ k) → (∀ k ∈ b, '/' ∉ k) →
      virtual_of a = virtual_of b → a = b := by
  induction a with
  | nil =>
    intro b _ _ h
    cases b with
    | nil => rfl
    | cons y b2 => simp [virtual_of] at h
  | cons x a2 ih =>
    intro b ha hb h
    cases b with
    | nil => simp [virtual_of] at h
    | cons y b2 =>
      simp only [virtual_of, List.cons.injEq, true_and] at h
      obtain ⟨h1, h2⟩ := append_slash_inj x y _ _ (ha x (List.mem_cons_self _ _))
        (hb y (List.mem_cons_self _ _)) (virtual_of_head a2) (virtual_of_head b2) h
      rw [h1, ih b2 (fun k hk => ha k (List.mem_cons_of_mem _ hk))
        (fun k hk => hb k (List.mem_cons_of_mem _ hk)) h2]

/-- C14. Tree invariant: in every state reached from the empty tree by `add_mapping` calls, a
node reached by the key path `ks1` has non-empty keys without a slash and the `virtual_full`
`"/" + s1 + "/" + ... + "/" + sn`; two key paths that reach nodes with the same
`virtual_full` are the same path, so no node is reached by two sequences; and no node has two
children under one key, so every child is reached through its key. -/
theorem tree_invariant (ms : List (Str × Str)) (ks1 ks2 : List Str) (n1 n2 : path_element)
    (h1 : node_at (add_mappings impl_default.empty ms).m_virtual_file_root ks1 = some n1)
    (h2 : node_at (add_mappings impl_default.empty ms).m_virtual_file_root ks2 = some n2) :
    (∀ k ∈ ks1, k ≠ [] ∧ '/' ∉ k) ∧ n1.virtual_full = virtual_of ks1 ∧
    (n1.virtual_full = n2.virtual_full → ks1 = ks2) ∧ (n1.next.map Prod.fst).Nodup := by
  have hinv := tree_inv_add_mappings ms impl_default.empty tree_inv_empty
  obtain ⟨hv1, hk1, hd1⟩ := hinv ks1 n1 h1
  obtain ⟨hv2, hk2, -⟩ := hinv ks2 n2 h2
  refine ⟨fun k hk => ⟨(hk1 k hk).1, (hk1 k hk).2.1⟩, hv1, ?_, hd1⟩
  intro he
  rw [hv1, hv2] at he
  exact virtual_of_inj ks1 ks2 (fun k hk => (hk1 k hk).2.1) (fun k hk => (hk2 k hk).2.1) he

/-- C14 on the state with the mounts `(/p1, /m)` and `(/p2, /m/sub)`: the node reached by
`m`, `sub` is named `/m/sub`. -/
theorem tree_invariant_witness :
    (path_element.mk "/m/sub".toList ["/p2".toList] []).virtual_full =
      virtual_of [['m'], ['s', 'u', 'b']] :=
  (tree_invariant shadow_mounts [['m'], ['s', 'u', 'b']] [['m'], ['s', 'u', 'b']]
    (path_element.mk "/m/sub".toList ["/p2".toList] [])
    (path_element.mk "/m/sub".toList ["/p2".toList] []) rfl rfl).2.1

theorem add_mapping_walk_cons_created (phys : Str) (pe : List Str) (seg : Str) (it : List Str)
    (tree : path_element) (hs : seg ≠ []) :
    (add_mapping_walk phys pe (seg :: it) tree).2 =
      match map_find tree.next seg with
      | none => (pe ++ [seg]) ::
          (add_mapping_walk phys (pe ++ [seg]) it
            (path_element.mk (virtual_of (pe ++ [seg])) [] [])).2
      | some child => (add_mapping_walk phys (pe ++ [seg]) it child).2 := by
  rw [add_mapping_walk, if_neg hs]
  cases map_find tree.next seg <;> rfl

theorem inits_filter_fresh (v : Str) (l : List Str) :
    l.inits.filter (fun ks => (node_at (path_element.mk v [] []) ks).isNone) = l.inits.tail := by
  cases l with
  | nil => rfl
  | cons a t =>
    rw [List.inits_cons, List.filter_cons]
    simp only [node_at, Option.isNone_some, List.tail_cons]
    rw [if_neg (by simp)]
    rw [List.filter_eq_self]
    intro ks hks
    obtain ⟨ks2, -, rfl⟩ := List.mem_map.1 hks
    simp [node_at, next_mk, map_find]

/-- The nodes the walk of `add_mapping` creates: the starts of the key path walked that
were no nodes before, the shorter before the longer. -/
theorem add_mapping_walk_created (phys : Str) (it : List Str) :
    ∀ (pe : List Str) (tree : path_element),
      (add_mapping_walk phys pe it tree).2 =
        (((it.filter (fun t => !t.isEmpty)).inits.filter
          (fun ks => (node_at tree ks).isNone)).map (fun ks => pe ++ ks)) := by
  induction it with
  | nil =>
    intro pe tree
    simp [add_mapping_walk, node_at]
  | cons seg rest ih =>
    intro pe tree
    by_cases hs : seg = []
    · rw [add_mapping_walk, if_pos hs]
      simp only [hs, List.filter_cons, List.isEmpty_nil, Bool.not_true]
      exact ih pe tree
    · have hne := nonempty_of_ne_nil seg hs
      rw [add_mapping_walk_cons_created phys pe seg rest tree hs]
      simp only [List.filter_cons, hne, if_true]
      rw [List.inits_cons, List.filter_cons]
      simp only [node_at, Option.isNone_some]
      rw [if_neg (by simp), List.filter_map, List.map_map]
      cases hf : map_find tree.next seg with
      | none =>
        simp only
        rw [ih, inits_filter_fresh]
        have hfilt : List.filter ((fun ks => (node_at tree ks).isNone) ∘ fun t => seg :: t)
            (rest.filter (fun t => !t.isEmpty)).inits =
              (rest.filter (fun t => !t.isEmpty)).inits := by
          rw [List.filter_eq_self]
          intro ks _
          simp [node_at, hf]
        rw [hfilt]
        cases hi : (rest.filter (fun t => !t.isEmpty)).inits with
        | nil =>
          have := congrArg List.length hi
          simp [List.length_inits] at this
        | cons a t =>
          have ha : a = [] := by
            cases hr : rest.filter (fun t => !t.isEmpty) with
            | nil => rw [hr] at hi; simp at hi; exact hi.1
            | cons b u => rw [hr, List.inits_cons] at hi; simp at hi; exact hi.1
          subst ha
          simp
      | some child =>
        simp only
        rw [ih]
        have hfilt : List.filter ((fun ks => (node_at tree ks).isNone) ∘ fun t => seg :: t)
            (rest.filter (fun t => !t.isEmpty)).inits =
              List.filter (fun ks => (node_at child ks).isNone)
                (rest.filter (fun t => !t.isEmpty)).inits := by
          apply List.filter_congr
          intro ks _
          simp [node_at, hf]
        rw [hfilt]
        simp

theorem nodup_inits {α : Type} (l : List α) : l.inits.Nodup := by
  induction l with
  | nil => simp
  | cons a t ih =>
    rw [List.inits_cons, List.nodup_cons]
    refine ⟨by simp, ih.map ?_⟩
    intro x y h
    exact List.tail_eq_of_cons_eq h

theorem node_at_append_left (a : List Str) :
    ∀ (t : path_element) (b : List Str) (n : path_element),
      node_at t (a ++ b) = some n → ∃ m, node_at t a = some m := by
  induction a with
  | nil => intro t b n _; exact ⟨t, rfl⟩
  | cons k a2 ih =>
    intro t b n h
    simp only [List.cons_append, node_at] at h ⊢
    cases hf : map_find t.next k with
    | none => rw [hf] at h; cases h
    | some c =>
      rw [hf] at h
      exact ih c b n h

theorem add_mapping_index (s : impl_default) (P V : Str) :
    (add_mapping s P V).m_path_elements = s.m_path_elements ++
      (segments (replace_backslash V)).inits.filter
        (fun ks => (node_at s.m_virtual_file_root ks).isNone) := by
  unfold add_mapping
  simp only
  rw [add_mapping_walk_created]
  simp [segments]

theorem index_inv_add_mapping (s : impl_default) (P V : Str) (h : index_inv s) :
    index_inv (add_mapping s P V) := by
  obtain ⟨hnd, hmem⟩ := h
  have hidx := add_mapping_index s P V
  constructor
  · rw [hidx, List.nodup_append]
    refine ⟨hnd, (nodup_inits _).filter _, ?_⟩
    intro ks h1 h2
    have hsome := ((hmem ks).1 h1).2
    have hnone := (List.mem_filter.1 h2).2
    cases hn : node_at s.m_virtual_file_root ks with
    | none => rw [hn] at hsome; cases hsome
    | some n => rw [hn] at hnone; cases hnone
  · intro ks
    rw [hidx, List.mem_append]
    constructor
    · rintro (h1 | h2)
      · obtain ⟨hne, hsome⟩ := (hmem ks).1 h1
        refine ⟨hne, ?_⟩
        cases hn : node_at s.m_virtual_file_root ks with
        | none => rw [hn] at hsome; cases hsome
        | some n =>
          obtain ⟨n2, h2, -⟩ := add_mapping_keeps s P V ks n hn
          rw [h2]; rfl
      · obtain ⟨hin, hnone⟩ := List.mem_filter.1 h2
        constructor
        · intro he
          rw [he] at hnone
          simp [node_at] at hnone
        · obtain ⟨t, ht⟩ := (List.mem_inits _ _).1 hin
          obtain ⟨n, hn, -⟩ := add_mapping_reaches s P V
          rw [← ht] at hn
          obtain ⟨m, hm⟩ := node_at_append_left ks _ t n hn
          rw [hm]; rfl
    · rintro ⟨hne, hsome⟩
      cases hn : node_at (add_mapping s P V).m_virtual_file_root ks with
      | none => rw [hn] at hsome; cases hsome
      | some n2 =>
        rcases add_mapping_walk_origin _ _ _ _ ks n2 hn with ⟨n, hold, -, -⟩ | ⟨hold, ⟨t, ht⟩, -, -⟩
        · left
          exact (hmem ks).2 ⟨hne, by rw [hold]; rfl⟩
        · right
          refine List.mem_filter.2 ⟨(List.mem_inits _ _).2 ⟨t, ht.symm⟩, ?_⟩
          rw [hold]; rfl

theorem index_inv_empty : index_inv impl_default.empty := by
  constructor
  · exact List.nodup_nil
  · intro ks
    constructor
    · intro h; cases h
    · rintro ⟨hne, hsome⟩
      cases hn : node_at impl_default.empty.m_virtual_file_root ks with
      | none => rw [hn] at hsome; cases hsome
      | some n => exact absurd (node_at_fresh _ _ _ hn).1 hne

theorem index_inv_add_mappings (ms : List (Str × Str)) :
    ∀ s : impl_default, index_inv s → index_inv (add_mappings s ms) := by
  induction ms with
  | nil => intro s h; exact h
  | cons m rest ih =>
    intro s h
    obtain ⟨p, v⟩ := m
    exact ih _ (index_inv_add_mapping s p v h)

/-- C15. Flat index invariant: in every state reached from the empty tree by `add_mapping`
calls, `m_path_elements` has no node twice and lists exactly the non-root nodes; a further
`add_mapping(P, V)` appends to it the nodes it creates, which are the starts of the key path
of `V` that were no nodes before, the shorter before the longer, and leaves it unchanged when
the node of `V` exists already. -/
theorem flat_index_invariant (ms : List (Str × Str)) :
    (add_mappings impl_default.empty ms).m_path_elements.Nodup ∧
    (∀ ks, ks ∈ (add_mappings impl_default.empty ms).m_path_elements ↔
      ks ≠ [] ∧
        (node_at (add_mappings impl_default.empty ms).m_virtual_file_root ks).isSome = true) ∧
    (∀ P V, (add_mapping (add_mappings impl_default.empty ms) P V).m_path_elements =
      (add_mappings impl_default.empty ms).m_path_elements ++
        (segments (replace_backslash V)).inits.filter (fun ks =>
          (node_at (add_mappings impl_default.empty ms).m_virtual_file_root ks).isNone)) ∧
    (∀ P V, (node_at (add_mappings impl_default.empty ms).m_virtual_file_root
        (segments (replace_backslash V))).isSome = true →
      (add_mapping (add_mappings impl_default.empty ms) P V).m_path_elements =
        (add_mappings impl_default.empty ms).m_path_elements) := by
  obtain ⟨hnd, hmem⟩ := index_inv_add_mappings ms impl_default.empty index_inv_empty
  refine ⟨hnd, hmem, fun P V => add_mapping_index _ P V, ?_⟩
  intro P V hsome
  rw [add_mapping_index, List.filter_eq_nil_iff.2, List.append_nil]
  intro ks hks
  obtain ⟨t, ht⟩ := (List.mem_inits _ _).1 hks
  cases hn : node_at (add_mappings impl_default.empty ms).m_virtual_file_root
      (segments (replace_backslash V)) with
  | none => rw [hn] at hsome; cases hsome
  | some n =>
    rw [← ht] at hn
    obtain ⟨m, hm⟩ := node_at_append_left ks _ t n hn
    rw [hm]
    simp

theorem mem_of_mem_dropWhile {α : Type} (p : α → Bool) (l : List α) (c : α)
    (h : c ∈ l.dropWhile p) : c ∈ l :=
  (List.dropWhile_suffix p).subset h

theorem mem_of_mem_trim (s : Str) (c : Char) (h : c ∈ trim s) : c ∈ s := by
  unfold trim at h
  rw [List.mem_reverse] at h
  have h2 := mem_of_mem_dropWhile _ _ _ h
  rw [List.mem_reverse] at h2
  exact mem_of_mem_dropWhile _ _ _ h2

theorem cleanse_no_backslash (q : Str) : '\\' ∉ cleanse q :=
  fun h => replace_backslash_no_backslash q (mem_of_mem_trim _ _ h)

theorem mem_istream_split_of_mem (str : Str) :
    ∀ c ∈ str, c = '/' ∨ ∃ s ∈ istream_split str, c ∈ s := by
  induction str with
  | nil => intro c hc; cases hc
  | cons d ds ih =>
    intro c hc
    rw [istream_split]
    by_cases hd : d = '/'
    · simp only [hd, if_true]
      rcases List.mem_cons.1 hc with h | h
      · left; rw [h, hd]
      · rcases ih c h with h2 | ⟨s, hs, hcs⟩
        · left; exact h2
        · right; exact ⟨s, List.mem_cons_of_mem _ hs, hcs⟩
    · simp only [hd, if_false]
      cases hi : istream_split ds with
      | nil =>
        have hds : ds = [] := istream_split_eq_nil ds hi
        rw [hds] at hc
        exact Or.inr ⟨[d], List.mem_cons_self _ _, hc⟩
      | cons t ts =>
        rcases List.mem_cons.1 hc with h | h
        · exact Or.inr ⟨d :: t, List.mem_cons_self _ _, by rw [h]; exact List.mem_cons_self _ _⟩
        · rcases ih c h with h2 | ⟨s, hs, hcs⟩
          · exact Or.inl h2
          · rw [hi] at hs
            rcases List.mem_cons.1 hs with h3 | h3
            · exact Or.inr ⟨d :: t, List.mem_cons_self _ _,
                by rw [← h3]; exact List.mem_cons_of_mem _ hcs⟩
            · exact Or.inr ⟨s, List.mem_cons_of_mem _ h3, hcs⟩

theorem explore_rest_mem (segs : List Str) :
    ∀ (nodes nodes2 : List path_element) (it : List Str),
      explore nodes segs = .ok (nodes2, it) → ∀ s ∈ it, s ∈ segs := by
  induction segs with
  | nil =>
    intro nodes nodes2 it h s hs
    rw [explore_nil] at h
    simp only [Except.ok.injEq, Prod.mk.injEq] at h
    rw [← h.2] at hs
    exact hs
  | cons seg rest ih =>
    intro nodes nodes2 it h s hs
    cases nodes with
    | nil =>
      rw [explore_empty_nodes] at h
      split at h
      · exact List.mem_cons_of_mem _ (ih _ _ _ h s hs)
      · simp only [Except.ok.injEq, Prod.mk.injEq] at h
        rw [← h.2] at hs
        exact hs
    | cons b ns =>
      rw [explore_cons] at h
      split at h
      · exact List.mem_cons_of_mem _ (ih _ _ _ h s hs)
      · split at h
        · exact List.mem_cons_of_mem _ (ih _ _ _ h s hs)
        · split at h
          · simp only [Except.ok.injEq, Prod.mk.injEq] at h
            rw [← h.2] at hs
            exact hs
          · exact List.mem_cons_of_mem _ (ih _ _ _ h s hs)

theorem explore_rest_nonempty (segs : List Str) :
    ∀ (nodes nodes2 : List path_element) (it : List Str), (∀ s ∈ segs.tail, s ≠ []) →
      explore nodes segs = .ok (nodes2, it) → ∀ s ∈ it, s ≠ [] := by
  induction segs with
  | nil =>
    intro nodes nodes2 it _ h s hs
    rw [explore_nil] at h
    simp only [Except.ok.injEq, Prod.mk.injEq] at h
    rw [← h.2] at hs
    cases hs
  | cons seg rest ih =>
    intro nodes nodes2 it htail h s hs
    have hrest : ∀ s ∈ rest.tail, s ≠ [] := fun s hs => htail s (List.mem_of_mem_tail hs)
    have hbreak : seg ≠ [] → ∀ s ∈ seg :: rest, s ≠ [] := by
      intro hseg s hs
      rcases List.mem_cons.1 hs with h | h
      · rw [h]; exact hseg
      · exact htail s h
    cases nodes with
    | nil =>
      rw [explore_empty_nodes] at h
      split at h
      · exact ih _ _ _ hrest h s hs
      · rename_i hseg
        simp only [Except.ok.injEq, Prod.mk.injEq] at h
        rw [← h.2] at hs
        exact hbreak hseg s hs
    | cons b ns =>
      rw [explore_cons] at h
      split at h
      · exact ih _ _ _ hrest h s hs
      · rename_i hseg
        split at h
        · exact ih _ _ _ hrest h s hs
        · split at h
          · simp only [Except.ok.injEq, Prod.mk.injEq] at h
            rw [← h.2] at hs
            exact hbreak hseg s hs
          · exact ih _ _ _ hrest h s hs

theorem build_remainder_last (it : List Str) (h : ∀ s ∈ it, s ≠ [] ∧ '/' ∉ s) :
    (build_remainder it).getLast? ≠ some '/' := by
  induction it with
  | nil => simp [build_remainder]
  | cons seg rest ih =>
    have hrest := ih (fun s hs => h s (List.mem_cons_of_mem _ hs))
    obtain ⟨hne, hsl⟩ := h seg (List.mem_cons_self _ _)
    rw [build_remainder]
    split
    · exact hrest
    · cases hr : build_remainder rest with
      | nil =>
        rw [List.append_nil]
        cases seg with
        | nil => exact absurd rfl hne
        | cons c cs =>
          rw [List.getLast?_cons_cons]
          intro hl
          exact hsl (List.mem_of_getLast?_eq_some hl)
      | cons c cs =>
        rw [hr] at hrest
        rw [← List.cons_append, List.getLast?_append_of_ne_nil _ (by simp)]
        exact hrest

theorem overlays_add_mapping (Q : Str → Prop) (s : impl_default) (P V : Str)
    (hold : ∀ ks n, node_at s.m_virtual_file_root ks = some n → ∀ p ∈ n.physical, Q p)
    (hQ : Q (lexically_normal (replace_backslash P))) :
    ∀ ks n, node_at (add_mapping s P V).m_virtual_file_root ks = some n →
      ∀ p ∈ n.physical, Q p := by
  intro ks n2 h2 p hp
  rcases add_mapping_walk_origin _ _ _ _ ks n2 h2 with ⟨n, hn, -, hphys⟩ | ⟨-, -, -, hphys⟩
  · rw [hphys, List.mem_append] at hp
    rcases hp with hp | hp
    · exact hold ks n hn p hp
    · split at hp
      · rw [List.mem_singleton.1 hp]; exact hQ
      · cases hp
  · rw [hphys] at hp
    split at hp
    · rw [List.mem_singleton.1 hp]; exact hQ
    · cases hp

theorem overlays_add_mappings (Q : Str → Prop) (ms : List (Str × Str)) :
    ∀ s : impl_default,
      (∀ ks n, node_at s.m_virtual_file_root ks = some n → ∀ p ∈ n.physical, Q p) →
      (∀ pv ∈ ms, Q (lexically_normal (replace_backslash pv.1))) →
      ∀ ks n, node_at (add_mappings s ms).m_virtual_file_root ks = some n →
        ∀ p ∈ n.physical, Q p := by
  induction ms with
  | nil => intro s hold _; exact hold
  | cons m rest ih =>
    intro s hold hQ
    obtain ⟨p, v⟩ := m
    exact ih _ (overlays_add_mapping Q s p v hold (hQ (p, v) (List.mem_cons_self _ _)))
      (fun pv hpv => hQ pv (List.mem_cons_of_mem _ hpv))

/-- C16, as stated, fails: on the state with the node `/m`, the query `/m/f.txt/` with a
trailing slash resolves to the file `/a/f.txt` and the returned virtual path is the cleansed
query `/m/f.txt/`, which ends with `/`. -/
theorem pathinfo_shape_counterexample :
    get_info_virtual overlay_files overlay_state.m_virtual_file_root "/m/f.txt/".toList
        root_info = .ok (some ⟨"/a/f.txt".toList, "/m/f.txt/".toList⟩) ∧
    ("/m/f.txt/".toList).getLast? = some '/' :=
  ⟨rfl, rfl⟩

/-- C16, amended. In every state reached from the empty tree by `add_mapping` calls, a
`pathinfo` returned by `get_info_virtual` has a virtual path without backslash; the virtual
path does not end with `/` when the cleansed query does not end with `/`; and the physical
path does not end with `/` when the cleansed query has no empty segment after its first one
(no doubled `/`) and no mounted directory, normalized, ends with `/`. -/
theorem pathinfo_shape (file_exists : Str → Bool) (ms : List (Str × Str))
    (viewVirtual : Str) (current : pathinfo) (info : pathinfo)
    (h : get_info_virtual file_exists (add_mappings impl_default.empty ms).m_virtual_file_root
      viewVirtual current = .ok (some info)) :
    '\\' ∉ info.virtual_ ∧
    ((cleanse viewVirtual).getLast? ≠ some '/' → info.virtual_.getLast? ≠ some '/') ∧
    ((∀ s ∈ (istream_split (cleanse viewVirtual)).tail, s ≠ []) →
      (∀ pv ∈ ms, (lexically_normal (replace_backslash pv.1)).getLast? ≠ some '/') →
      info.physical.getLast? ≠ some '/') := by
  have hv := get_info_virtual_virtual _ _ _ _ _ h
  rw [get_info_virtual_eq] at h
  cases hw : walk_result (add_mappings impl_default.empty ms).m_virtual_file_root viewVirtual
      current with
  | none => rw [hw] at h; cases h
  | some nr =>
    obtain ⟨n, r⟩ := nr
    rw [hw] at h
    simp only [Except.ok.injEq] at h
    obtain ⟨-, -, p, hp, hphys⟩ := test_physical_some _ _ _ _ _ h
    have hne := walk_result_some_nonempty _ _ _ _ _ hw
    obtain ⟨nodes0, ns, it, h0, h1, hr⟩ := walk_result_cases _ _ _ _ _ hw
    refine ⟨?_, ?_, ?_⟩
    · rw [hv]
      unfold virt_full
      split
      · rename_i hc
        intro hm
        rcases List.mem_append.1 hm with hm | hm
        · unfold start_nodes at h0
          rw [if_pos hc.1, if_pos hc.2] at h0
          rcases navigate_current_spec (istream_split current.virtual_)
            (add_mappings impl_default.empty ms).m_virtual_file_root [] with hn | ⟨m, rest, hn, -⟩
          · rw [hn.2] at h0
            cases h0
          · have hinv := tree_inv_add_mappings ms impl_default.empty tree_inv_empty _ _ hn
            rcases mem_istream_split_of_mem _ _ hm with hs | ⟨s, hs, hcs⟩
            · exact absurd hs (by decide)
            · have hsne : (!s.isEmpty) = true := by
                cases s with
                | nil => cases hcs
                | cons _ _ => rfl
              exact (hinv.2.1 s (List.mem_filter.2 ⟨hs, hsne⟩)).2.2 hcs
        · rcases List.mem_cons.1 hm with hm | hm
          · exact absurd hm (by decide)
          · exact cleanse_no_backslash _ hm
      · exact cleanse_no_backslash _
    · intro hl
      rw [hv]
      unfold virt_full
      split
      · rw [List.getLast?_append_of_ne_nil _ (by simp)]
        cases hq : cleanse viewVirtual with
        | nil => exact absurd hq hne
        | cons c cs =>
          rw [List.getLast?_cons_cons, ← hq]
          exact hl
      · exact hl
    · intro hseg hmount
      rw [hphys]
      have hit : ∀ s ∈ it, s ≠ [] ∧ '/' ∉ s := by
        intro s hs
        exact ⟨explore_rest_nonempty _ _ _ _ hseg h1 s hs,
          (istream_split_mem _ s (explore_rest_mem _ _ _ _ h1 s hs)).1⟩
      have hlast := build_remainder_last it hit
      rw [← hr] at hlast
      cases hrr : r with
      | nil =>
        rw [List.append_nil]
        have hP := walk_result_invariant
          (fun m => ∀ ks m2, node_at m ks = some m2 → ∀ p ∈ m2.physical,
            p.getLast? ≠ some '/')
          (by
            intro m hm k c hc ks m2 hm2
            exact hm (k :: ks) m2 (by simp only [node_at, hc]; exact hm2))
          (add_mappings impl_default.empty ms).m_virtual_file_root
          (overlays_add_mappings _ ms impl_default.empty
            (by
              intro ks m hm q hq
              obtain ⟨-, hm2⟩ := node_at_fresh _ _ _ hm
              rw [hm2] at hq
              cases hq)
            hmount)
          viewVirtual current n r hw
        exact hP [] n rfl p hp
      | cons c cs =>
        rw [hrr] at hlast
        rw [List.getLast?_append_of_ne_nil _ (by simp)]
        exact hlast

/-- C16, amended, on the state with two overlays on `/m`: the query `/m/f.txt` returns the
virtual path `/m/f.txt` and the physical path `/a/f.txt`, neither ending with `/`. -/
theorem pathinfo_shape_witness :
    '\\' ∉ "/m/f.txt".toList ∧
    ((cleanse "/m/f.txt".toList).getLast? ≠ some '/' →
      ("/m/f.txt".toList).getLast? ≠ some '/') ∧
    ((∀ s ∈ (istream_split (cleanse "/m/f.txt".toList)).tail, s ≠ []) →
      (∀ pv ∈ [("/a".toList, "/m".toList), ("/b".toList, "/m".toList)],
        (lexically_normal (replace_backslash pv.1)).getLast? ≠ some '/') →
      ("/a/f.txt".toList).getLast? ≠ some '/') :=
  pathinfo_shape overlay_files [("/a".toList, "/m".toList), ("/b".toList, "/m".toList)]
    "/m/f.txt".toList root_info ⟨"/a/f.txt".toList, "/m/f.txt".toList⟩ rfl

/-! ### Containment, absolute queries and root mounts -/

theorem node_at_snoc : ∀ (ks : List Str) (t m c : path_element) (k : Str),
    node_at t ks = some m → map_find m.next k = some c → node_at t (ks ++ [k]) = some c := by
  intro ks
  induction ks with
  | nil =>
    intro t m c k h hc
    simp only [node_at, Option.some.injEq] at h
    subst h
    simp only [List.nil_append, node_at, hc]
  | cons a ks ih =>
    intro t m c k h hc
    simp only [node_at, List.cons_append] at h ⊢
    cases ha : map_find t.next a with
    | none => rw [ha] at h; cases h
    | some d =>
      rw [ha] at h
      simp only at h ⊢
      exact ih d m c k h hc

theorem walk_result_node (root : path_element) (viewVirtual : Str) (current : pathinfo)
    (n : path_element) (r : Str) (h : walk_result root viewVirtual current = some (n, r)) :
    ∃ ks, node_at root ks = some n :=
  walk_result_invariant (fun m => ∃ ks, node_at root ks = some m)
    (fun _ hm k c hc => hm.elim fun ks hks => ⟨ks ++ [k], node_at_snoc ks root _ c k hks hc⟩)
    root ⟨[], rfl⟩ viewVirtual current n r h

theorem walk_result_remainder (root : path_element) (viewVirtual : Str) (current : pathinfo)
    (n : path_element) (r : Str) (h : walk_result root viewVirtual current = some (n, r)) :
    ∃ segs, r = virtual_of segs ∧ ∀ s ∈ segs, s ≠ dotdot ∧ '/' ∉ s := by
  obtain ⟨nodes0, ns, it, -, h1, hr⟩ := walk_result_cases root viewVirtual current n r h
  refine ⟨it.filter (fun s => s ≠ dotdot), ?_, ?_⟩
  · rw [hr, build_remainder_eq]
  · intro s hs
    rw [List.mem_filter] at hs
    refine ⟨by simpa using hs.2, ?_⟩
    exact (istream_split_mem _ s (explore_rest_mem _ _ _ _ h1 s hs.1)).1

/-- C26. Path-traversal containment: every physical path returned by `get_info_virtual` is
`p ++ r`, where `p` is a stored overlay of a node of the mount tree (a node some key path
leads to from the root) and `r` is the concatenation of `"/" + s` over a list of segments
(empty for the empty list), none of which is `..` or holds a slash; it is a path the
file-existence test accepted, and the paths tested on the way are the overlays of that node
followed by the same `r`. -/
theorem traversal_containment (file_exists : Str → Bool) (root : path_element)
    (viewVirtual : Str) (current : pathinfo) (info : pathinfo)
    (h : get_info_virtual file_exists root viewVirtual current = .ok (some info)) :
    ∃ ks n p segs, node_at root ks = some n ∧ p ∈ n.physical ∧
      info.physical = p ++ virtual_of segs ∧ (∀ s ∈ segs, s ≠ dotdot ∧ '/' ∉ s) ∧
      file_exists info.physical = true ∧
      get_info_virtual file_exists root viewVirtual current =
        .ok (test_physical file_exists (virtual_of segs)
          (virt_full (cleanse viewVirtual) current) n.physical) := by
  have hq := get_info_virtual_eq file_exists root viewVirtual current
  rw [hq] at h
  have h2 := Except.ok.inj h
  cases hw : walk_result root viewVirtual current with
  | none => rw [hw] at h2; cases h2
  | some nr =>
    obtain ⟨n, r⟩ := nr
    rw [hw] at h2 hq
    simp only at h2 hq
    obtain ⟨hfe, -, p, hp, hphys⟩ := test_physical_some _ _ _ _ _ h2
    obtain ⟨ks, hks⟩ := walk_result_node root viewVirtual current n r hw
    obtain ⟨segs, hr, hsegs⟩ := walk_result_remainder root viewVirtual current n r hw
    exact ⟨ks, n, p, segs, hks, hp, by rw [hphys, hr], hsegs, hfe, by rw [hq, hr]⟩

/-- C26 on two mounts on `/m`: the query `/m/../m/f.txt` resolves to `/a/f.txt`. -/
theorem traversal_containment_witness :
    ∃ ks n p segs, node_at overlay_state.m_virtual_file_root ks = some n ∧ p ∈ n.physical ∧
      "/a/f.txt".toList = p ++ virtual_of segs ∧ (∀ s ∈ segs, s ≠ dotdot ∧ '/' ∉ s) ∧
      overlay_files "/a/f.txt".toList = true ∧
      get_info_virtual overlay_files overlay_state.m_virtual_file_root "/m/../m/f.txt".toList
          root_info =
        .ok (test_physical overlay_files (virtual_of segs)
          (virt_full (cleanse "/m/../m/f.txt".toList) root_info) n.physical) :=
  traversal_containment overlay_files overlay_state.m_virtual_file_root
    "/m/../m/f.txt".toList root_info ⟨"/a/f.txt".toList, "/m/../m/f.txt".toList⟩ rfl

/-- C27. Absolute queries ignore the current file: for every query whose cleansed form
(backslashes replaced, trimmed) starts with `'/'`, every mount tree, every file system and
every two current `pathinfo` values, `get_info_virtual` gives the same result. -/
theorem absolute_query_ignores_current (file_exists : Str → Bool) (root : path_element)
    (viewVirtual : Str) (c1 c2 : pathinfo) (h : (cleanse viewVirtual).head? = some '/') :
    get_info_virtual file_exists root viewVirtual c1 =
      get_info_virtual file_exists root viewVirtual c2 := by
  unfold get_info_virtual
  simp only [start_nodes, virt_full, h, ne_eq, not_true_eq_false, false_and, if_false]

/-- C27 on two mounts on `/m`: `/m/f.txt` resolves alike from the root and from a file of an
unknown directory. -/
theorem absolute_query_ignores_current_witness :
    get_info_virtual overlay_files overlay_state.m_virtual_file_root "/m/f.txt".toList root_info
      = get_info_virtual overlay_files overlay_state.m_virtual_file_root "/m/f.txt".toList
        ⟨"/zz/g.txt".toList, "/nowhere/g.txt".toList⟩ :=
  absolute_query_ignores_current overlay_files overlay_state.m_virtual_file_root
    "/m/f.txt".toList root_info ⟨"/zz/g.txt".toList, "/nowhere/g.txt".toList⟩ (by decide)

theorem node_at_cons_of_find (a c : path_element) (k : Str) (ks : List Str)
    (hc : map_find a.next k = some c) : node_at a (k :: ks) = node_at c ks := by
  simp only [node_at, hc]

theorem node_at_cons_of_find_none (a : path_element) (k : Str) (ks : List Str)
    (hc : map_find a.next k = none) : node_at a (k :: ks) = none := by
  simp only [node_at, hc]

theorem overlays_grown_child (a b c : path_element) (k : Str) (h : overlays_grown a b)
    (hc : map_find a.next k = some c) :
    ∃ c2, map_find b.next k = some c2 ∧ overlays_grown c c2 := by
  obtain ⟨c2, hc2, -⟩ := h.1 [k] c (by rw [node_at_cons_of_find a c k [] hc]; rfl)
  cases hb : map_find b.next k with
  | none => rw [node_at_cons_of_find_none b k [] hb] at hc2; cases hc2
  | some d =>
    rw [node_at_cons_of_find b d k [] hb] at hc2
    simp only [node_at, Option.some.injEq] at hc2
    subst hc2
    refine ⟨d, rfl, ?_, ?_⟩
    · intro ks n hn
      rw [← node_at_cons_of_find a c k ks hc] at hn
      rw [← node_at_cons_of_find b d k ks hb]
      exact h.1 _ n hn
    · intro ks hn
      rw [← node_at_cons_of_find a c k ks hc] at hn
      rw [← node_at_cons_of_find b d k ks hb]
      exact h.2 _ hn

theorem overlays_grown_child_none (a b : path_element) (k : Str) (h : overlays_grown a b)
    (hc : map_find a.next k = none) : map_find b.next k = none := by
  have h2 := h.2 [k] (node_at_cons_of_find_none a k [] hc)
  cases hb : map_find b.next k with
  | none => rfl
  | some d => rw [node_at_cons_of_find b d k [] hb] at h2; cases h2

theorem explore_grown (segs : List Str) :
    ∀ (nodes nodes2 ns : List path_element) (it : List Str),
      List.Forall₂ overlays_grown nodes nodes2 → explore nodes segs = .ok (ns, it) →
      ∃ ns2, explore nodes2 segs = .ok (ns2, it) ∧ List.Forall₂ overlays_grown ns ns2 := by
  induction segs with
  | nil =>
    intro nodes nodes2 ns it hrel h
    rw [explore_nil] at h
    cases h
    exact ⟨nodes2, explore_nil _, hrel⟩
  | cons seg rest ih =>
    intro nodes nodes2 ns it hrel h
    cases hrel with
    | nil =>
      rw [explore_empty_nodes] at h ⊢
      by_cases hs : seg = []
      · rw [if_pos hs] at h ⊢
        exact ih [] [] ns it List.Forall₂.nil h
      · rw [if_neg hs] at h ⊢
        cases h
        exact ⟨[], rfl, List.Forall₂.nil⟩
    | cons hb htl =>
      rename_i b b2 l l2
      rw [explore_cons] at h ⊢
      by_cases hs : seg = []
      · rw [if_pos hs] at h ⊢
        exact ih _ _ ns it (List.Forall₂.cons hb htl) h
      · rw [if_neg hs] at h ⊢
        by_cases hd : seg = dotdot
        · rw [if_pos hd] at h ⊢
          exact ih _ _ ns it htl h
        · rw [if_neg hd] at h ⊢
          cases hf : map_find b.next seg with
          | none =>
            rw [hf] at h
            cases h
            rw [overlays_grown_child_none b b2 seg hb hf]
            exact ⟨_, rfl, List.Forall₂.cons hb htl⟩
          | some c =>
            rw [hf] at h
            obtain ⟨c2, hc2, hcc⟩ := overlays_grown_child b b2 c seg hb hf
            rw [hc2]
            exact ih _ _ ns it (List.Forall₂.cons hcc (List.Forall₂.cons hb htl)) h

theorem navigate_current_grown (segs : List Str) :
    ∀ (b b2 : path_element) (l l2 : List path_element),
      List.Forall₂ overlays_grown (b :: l) (b2 :: l2) →
      (∀ ns, navigate_current (b :: l) segs = .ok (some ns) →
        ∃ ns2, navigate_current (b2 :: l2) segs = .ok (some ns2) ∧
          List.Forall₂ overlays_grown ns ns2) := by
  induction segs with
  | nil =>
    intro b b2 l l2 hrel ns h
    rw [navigate_current_nil] at h
    cases h
    exact ⟨_, navigate_current_nil _, hrel⟩
  | cons seg rest ih =>
    intro b b2 l l2 hrel ns h
    rw [navigate_current_cons] at h ⊢
    by_cases hs : seg = []
    · rw [if_pos hs] at h ⊢
      exact ih _ _ _ _ hrel ns h
    · rw [if_neg hs] at h ⊢
      cases hrel with
      | cons hb htl =>
        cases hf : map_find b.next seg with
        | none => rw [hf] at h; cases h
        | some c =>
          rw [hf] at h
          obtain ⟨c2, hc2, hcc⟩ := overlays_grown_child b b2 c seg hb hf
          rw [hc2]
          exact ih _ _ _ _ (List.Forall₂.cons hcc (List.Forall₂.cons hb htl)) ns h

theorem start_nodes_grown (a b : path_element) (h : overlays_grown a b) (virt : Str)
    (current : pathinfo) (ns : List path_element)
    (h0 : start_nodes a virt current = .ok (some ns)) :
    ∃ ns2, start_nodes b virt current = .ok (some ns2) ∧
      List.Forall₂ overlays_grown ns ns2 := by
  have hrel : List.Forall₂ overlays_grown [a] [b] := List.Forall₂.cons h List.Forall₂.nil
  unfold start_nodes at h0 ⊢
  by_cases hv : virt.head? ≠ some '/'
  · rw [if_pos hv] at h0 ⊢
    by_cases hc : current.virtual_ ≠ []
    · rw [if_pos hc] at h0 ⊢
      exact navigate_current_grown _ a b [] [] hrel ns h0
    · rw [if_neg hc] at h0 ⊢
      cases h0; exact ⟨_, rfl, hrel⟩
  · rw [if_neg hv] at h0 ⊢
    cases h0; exact ⟨_, rfl, hrel⟩

theorem walk_result_grown (a b : path_element) (h : overlays_grown a b) (viewVirtual : Str)
    (current : pathinfo) (n : path_element) (r : Str)
    (hw : walk_result a viewVirtual current = some (n, r)) :
    ∃ n2, walk_result b viewVirtual current = some (n2, r) ∧
      ∃ extra, n2.physical = n.physical ++ extra := by
  obtain ⟨nodes0, ns, it, h0, h1, hr⟩ := walk_result_cases a viewVirtual current n r hw
  obtain ⟨nodes02, h02, hrel0⟩ := start_nodes_grown a b h _ current nodes0 h0
  obtain ⟨ns2, h12, hrel⟩ := explore_grown _ _ _ _ it hrel0 h1
  cases hrel with
  | cons hb htl =>
    rename_i n2 l2
    refine ⟨n2, ?_, ?_⟩
    · rw [walk_result_of_explore b viewVirtual current nodes02 _ it
        (walk_result_some_nonempty a viewVirtual current n r hw) h02 h12, hr]
    · obtain ⟨m, hm, extra, hex⟩ := hb.1 [] n rfl
      simp only [node_at, Option.some.injEq] at hm
      subst hm
      exact ⟨extra, hex⟩

theorem test_physical_append (fe : Str → Bool) (r vf : Str) (extra : List Str)
    (info : pathinfo) :
    ∀ ps : List Str, test_physical fe r vf ps = some info →
      test_physical fe r vf (ps ++ extra) = some info := by
  intro ps
  induction ps with
  | nil => intro h; cases h
  | cons p rest ih =>
    intro h
    simp only [test_physical, List.cons_append] at h ⊢
    split
    · rename_i hp
      rw [if_pos hp] at h
      exact h
    · rename_i hp
      rw [if_neg hp] at h
      exact ih h

theorem get_info_virtual_grown (fe : Str → Bool) (a b : path_element)
    (h : overlays_grown a b) (viewVirtual : Str) (current info : pathinfo)
    (hq : get_info_virtual fe a viewVirtual current = .ok (some info)) :
    get_info_virtual fe b viewVirtual current = .ok (some info) := by
  rw [get_info_virtual_eq] at hq ⊢
  have h2 := Except.ok.inj hq
  cases hw : walk_result a viewVirtual current with
  | none => rw [hw] at h2; cases h2
  | some nr =>
    obtain ⟨n, r⟩ := nr
    rw [hw] at h2
    simp only at h2
    obtain ⟨n2, hw2, extra, hex⟩ := walk_result_grown a b h viewVirtual current n r hw
    rw [hw2]
    simp only
    rw [hex, test_physical_append fe r _ extra info _ h2]

theorem overlays_grown_add_mapping (s : impl_default) (P V : Str)
    (hex : (node_at s.m_virtual_file_root (segments (replace_backslash V))).isSome = true) :
    overlays_grown s.m_virtual_file_root (add_mapping s P V).m_virtual_file_root := by
  refine ⟨fun ks n hn => ?_, fun ks hn => ?_⟩
  · obtain ⟨n2, h2, -, hextra⟩ := add_mapping_keeps s P V ks n hn
    exact ⟨n2, h2, hextra⟩
  · cases h2 : node_at (add_mapping s P V).m_virtual_file_root ks with
    | none => rfl
    | some n2 =>
      exfalso
      rcases add_mapping_walk_origin _ _ _ _ ks n2 h2 with ⟨n, hn2, -⟩ | ⟨-, ⟨t, ht⟩, -⟩
      · rw [hn] at hn2; cases hn2
      · obtain ⟨m, hm⟩ := Option.isSome_iff_exists.1 hex
        have hseg : segments (replace_backslash V) = ks ++ t := ht
        rw [hseg] at hm
        obtain ⟨m2, hm2⟩ := node_at_append_left ks _ t m hm
        rw [hn] at hm2
        cases hm2

theorem add_mapping_index_same (s : impl_default) (P V : Str)
    (hex : (node_at s.m_virtual_file_root (segments (replace_backslash V))).isSome = true) :
    (add_mapping s P V).m_path_elements = s.m_path_elements := by
  rw [add_mapping_index]
  have hf : (segments (replace_backslash V)).inits.filter
      (fun ks => (node_at s.m_virtual_file_root ks).isNone) = [] := by
    rw [List.filter_eq_nil_iff]
    intro ks hks
    obtain ⟨t, ht⟩ := (List.mem_inits _ _).1 hks
    obtain ⟨m, hm⟩ := Option.isSome_iff_exists.1 hex
    rw [← ht] at hm
    obtain ⟨m2, hm2⟩ := node_at_append_left ks _ t m hm
    simp [hm2]
  rw [hf, List.append_nil]

/-- C28. Mounting onto an existing node is monotone: when the non-empty segments of `V` lead
to a node of the tree, `add_mapping(P, V)` creates no node (the flat index stays as it is),
and every query that resolved to a `pathinfo` before the call resolves to the same `pathinfo`
after it, for the same current file and the same file-existence predicate. -/
theorem add_mapping_monotone (file_exists : Str → Bool) (s : impl_default) (P V : Str)
    (viewVirtual : Str) (current info : pathinfo)
    (hex : (node_at s.m_virtual_file_root (segments (replace_backslash V))).isSome = true)
    (h : get_info_virtual file_exists s.m_virtual_file_root viewVirtual current =
      .ok (some info)) :
    (add_mapping s P V).m_path_elements = s.m_path_elements ∧
    get_info_virtual file_exists (add_mapping s P V).m_virtual_file_root viewVirtual current =
      .ok (some info) :=
  ⟨add_mapping_index_same s P V hex,
    get_info_virtual_grown file_exists _ _ (overlays_grown_add_mapping s P V hex)
      viewVirtual current info h⟩

/-- C28 on two mounts on `/m`, with `/b` mounted on `/m` once more in front of the file
system holding `/a/f.txt` and `/b/f.txt`: `/m/f.txt` still resolves to `/a/f.txt`. -/
theorem add_mapping_monotone_witness :
    (add_mapping overlay_state "/b".toList "/m".toList).m_path_elements =
      overlay_state.m_path_elements ∧
    get_info_virtual overlay_files
      (add_mapping overlay_state "/b".toList "/m".toList).m_virtual_file_root
      "/m/f.txt".toList root_info = .ok (some ⟨"/a/f.txt".toList, "/m/f.txt".toList⟩) :=
  add_mapping_monotone overlay_files overlay_state "/b".toList "/m".toList "/m/f.txt".toList
    root_info ⟨"/a/f.txt".toList, "/m/f.txt".toList⟩ (by decide) rfl

/-! ### Inverse resolution and equal paths -/

theorem mismatch_self (l : List Str) : mismatch l l = .ok [] := by
  induction l with
  | nil => rfl
  | cons a t ih => simp only [mismatch, if_true, ih]

theorem physical_overlays_skip (fe : Str → Bool) (root : path_element) (toFindPath : Str)
    (current : pathinfo) (virtual_full phys : Str) (rest : List Str)
    (h : path_elements phys = path_elements toFindPath) :
    physical_overlays fe root toFindPath current virtual_full (phys :: rest) =
      physical_overlays fe root toFindPath current virtual_full rest := by
  rw [physical_overlays, h, mismatch_self]
  simp [bind, Except.bind]

theorem physical_overlays_all_equal (fe : Str → Bool) (root : path_element) (toFindPath : Str)
    (current : pathinfo) (virtual_full : Str) :
    ∀ ps : List Str, (∀ p ∈ ps, path_elements p = path_elements toFindPath) →
      physical_overlays fe root toFindPath current virtual_full ps = .ok none := by
  intro ps
  induction ps with
  | nil => intro _; rfl
  | cons p rest ih =>
    intro h
    rw [physical_overlays_skip fe root toFindPath current virtual_full p rest
      (h p (List.mem_cons_self _ _))]
    exact ih (fun q hq => h q (List.mem_cons_of_mem _ hq))

theorem physical_nodes_all_equal (fe : Str → Bool) (root : path_element) (toFindPath : Str)
    (current : pathinfo) :
    ∀ nodes : List path_element,
      (∀ n ∈ nodes, ∀ p ∈ n.physical, path_elements p = path_elements toFindPath) →
      physical_nodes fe root toFindPath current nodes = .ok none := by
  intro nodes
  induction nodes with
  | nil => intro _; rfl
  | cons n rest ih =>
    intro h
    rw [physical_nodes, physical_overlays_all_equal fe root toFindPath current _ _
      (h n (List.mem_cons_self _ _))]
    simp only [bind, Except.bind]
    exact ih (fun m hm => h m (List.mem_cons_of_mem _ hm))

theorem lexically_normal_head (p : Str) (h : p.head? = some '/') :
    (lexically_normal p).head? = some '/' := by
  have hne : p ≠ [] := by
    intro he
    rw [he] at h
    cases h
  unfold lexically_normal
  simp [hne, h]

theorem to_find_path_absolute (is_regular_file : Str → Bool) (viewVirtual : Str)
    (current : pathinfo) (h : viewVirtual.head? = some '/') :
    to_find_path is_regular_file viewVirtual current = lexically_normal viewVirtual := by
  have hn := lexically_normal_head viewVirtual h
  cases viewVirtual with
  | nil => cases h
  | cons c cs =>
    simp only [List.head?_cons, Option.some.injEq] at h
    subst h
    unfold to_find_path
    simp only [is_relative, hn]
    cases cs with
    | nil => simp
    | cons d ds =>
      cases ds with
      | nil => simp
      | cons e es => simp

theorem get_info_physical_of_equal (fe irf : Str → Bool) (P V : Str) (current : pathinfo)
    (hq : path_elements (lexically_normal (replace_backslash P)) =
      path_elements (to_find_path irf P current)) :
    get_info_physical fe irf (add_mapping impl_default.empty P V) P current = .ok none := by
  unfold get_info_physical
  apply physical_nodes_all_equal
  intro n hn p hp
  obtain ⟨ks, -, hks⟩ := List.mem_filterMap.1 hn
  have hall := overlays_add_mapping (fun q => q = lexically_normal (replace_backslash P))
    impl_default.empty P V
    (fun ks2 n2 h2 q hq2 => by
      have h3 := (node_at_fresh _ ks2 n2 h2).2
      rw [h3] at hq2
      cases hq2)
    rfl ks n hks p hp
  rw [hall, hq]

/-- C25, as stated, fails in its second part. With the single mount of `\` on `/m` (the stored
overlay is `/`, the backslash being replaced) and the current directory `/`, the query `\` is
looked for as `/\`, of which the overlay `/` is a strict prefix: `get_info_physical` forwards
`/m` and returns `/` with the virtual path `/m` when `/` can be opened. -/
theorem strict_prefix_counterexample :
    lexically_normal (replace_backslash ['\\']) = ['/'] ∧
    to_find_path (fun _ => false) ['\\'] ⟨['/'], []⟩ = ['/', '\\'] ∧
    get_info_physical (fun p => decide (p = ['/'])) (fun _ => false)
      (add_mapping impl_default.empty ['\\'] "/m".toList) ['\\'] ⟨['/'], []⟩ =
      .ok (some ⟨['/'], "/m".toList⟩) :=
  ⟨by decide, by decide, rfl⟩

/-- C25, amended. Inverse resolution uses strict prefixes only: in the loop of
`get_info_physical`, an overlay whose path components equal the ones of the normalised query
is skipped, whatever the mount set, the file system and the overlays after it; and with a
single mount `(P, V)` whose `P` starts with `'/'` and holds no backslash,
`get_info_physical(P, current)` returns the empty optional. -/
theorem strict_prefix_only :
    (∀ (file_exists : Str → Bool) (root : path_element) (toFindPath : Str)
        (current : pathinfo) (virtual_full phys : Str) (rest : List Str),
      path_elements phys = path_elements toFindPath →
      physical_overlays file_exists root toFindPath current virtual_full (phys :: rest) =
        physical_overlays file_exists root toFindPath current virtual_full rest) ∧
    (∀ (file_exists is_regular_file : Str → Bool) (P V : Str) (current : pathinfo),
      P.head? = some '/' → '\\' ∉ P →
      get_info_physical file_exists is_regular_file (add_mapping impl_default.empty P V) P
        current = .ok none) := by
  refine ⟨physical_overlays_skip, fun fe irf P V current hP hb => ?_⟩
  apply get_info_physical_of_equal
  rw [to_find_path_absolute irf P current hP, replace_backslash_eq_self P hb]

/-- C25, amended, for the directory `/a/b` mounted on `/m`: the query `/a/b` is not found,
although every file exists. -/
theorem strict_prefix_only_witness :
    get_info_physical (fun _ => true) (fun _ => false) deep_state "/a/b".toList root_info =
      .ok none :=
  strict_prefix_only.2 (fun _ => true) (fun _ => false) "/a/b".toList "/m".toList root_info
    (by decide) (by decide)

/-! ### Preprocessor macros -/

/-- C23. Object versus callable construction: for every name, content and argument list,
`macro(name)`, `macro(name, content)` and their `diag_info` variants give `is_callable()`
false, empty `args()` and `has_callback()` false; `macro(name, args, content)`,
`macro(diag_info, name, args)` and `macro(diag_info, name, args, content)` give
`is_callable()` true and `args()` equal to the given list, the empty list included; `name()`
and `content()` return the given strings (the empty string where no content is given), and
`diag_info()` the given value. -/
theorem macro_construction {diag_info : Type} [Inhabited diag_info] (dinf : diag_info)
    (name content : Str) (args : List Str) :
    ((macro_.of_name name : macro_ diag_info).is_callable = false
      ∧ (macro_.of_name name : macro_ diag_info).args = []
      ∧ (macro_.of_name name : macro_ diag_info).has_callback = false
      ∧ (macro_.of_name name : macro_ diag_info).name = name
      ∧ (macro_.of_name name : macro_ diag_info).content = [])
    ∧ ((macro_.of_name_content name content : macro_ diag_info).is_callable = false
      ∧ (macro_.of_name_content name content : macro_ diag_info).args = []
      ∧ (macro_.of_name_content name content : macro_ diag_info).has_callback = false
      ∧ (macro_.of_name_content name content : macro_ diag_info).name = name
      ∧ (macro_.of_name_content name content : macro_ diag_info).content = content)
    ∧ ((macro_.of_dinf_name dinf name).is_callable = false
      ∧ (macro_.of_dinf_name dinf name).args = []
      ∧ (macro_.of_dinf_name dinf name).has_callback = false
      ∧ (macro_.of_dinf_name dinf name).name = name
      ∧ (macro_.of_dinf_name dinf name).content = []
      ∧ (macro_.of_dinf_name dinf name).diag_info_of = dinf)
    ∧ ((macro_.of_dinf_name_content dinf name content).is_callable = false
      ∧ (macro_.of_dinf_name_content dinf name content).args = []
      ∧ (macro_.of_dinf_name_content dinf name content).has_callback = false
      ∧ (macro_.of_dinf_name_content dinf name content).name = name
      ∧ (macro_.of_dinf_name_content dinf name content).content = content
      ∧ (macro_.of_dinf_name_content dinf name content).diag_info_of = dinf)
    ∧ ((macro_.of_name_args_content name args content : macro_ diag_info).is_callable = true
      ∧ (macro_.of_name_args_content name args content : macro_ diag_info).args = args
      ∧ (macro_.of_name_args_content name args content : macro_ diag_info).name = name
      ∧ (macro_.of_name_args_content name args content : macro_ diag_info).content = content
      ∧ (macro_.of_name_args_content name [] content : macro_ diag_info).is_callable = true
      ∧ (macro_.of_name_args_content name [] content : macro_ diag_info).args = [])
    ∧ ((macro_.of_dinf_name_args dinf name args).is_callable = true
      ∧ (macro_.of_dinf_name_args dinf name args).args = args
      ∧ (macro_.of_dinf_name_args dinf name args).name = name
      ∧ (macro_.of_dinf_name_args dinf name args).content = []
      ∧ (macro_.of_dinf_name_args dinf name args).diag_info_of = dinf
      ∧ (macro_.of_dinf_name_args dinf name []).is_callable = true
      ∧ (macro_.of_dinf_name_args dinf name []).args = [])
    ∧ ((macro_.of_dinf_name_args_content dinf name args content).is_callable = true
      ∧ (macro_.of_dinf_name_args_content dinf name args content).args = args
      ∧ (macro_.of_dinf_name_args_content dinf name args content).name = name
      ∧ (macro_.of_dinf_name_args_content dinf name args content).content = content
      ∧ (macro_.of_dinf_name_args_content dinf name args content).diag_info_of = dinf
      ∧ (macro_.of_dinf_name_args_content dinf name [] content).is_callable = true
      ∧ (macro_.of_dinf_name_args_content dinf name [] content).args = []) :=
  ⟨⟨rfl, rfl, rfl, rfl, rfl⟩, ⟨rfl, rfl, rfl, rfl, rfl⟩, ⟨rfl, rfl, rfl, rfl, rfl, rfl⟩,
    ⟨rfl, rfl, rfl, rfl, rfl, rfl⟩, ⟨rfl, rfl, rfl, rfl, rfl, rfl⟩,
    ⟨rfl, rfl, rfl, rfl, rfl, rfl, rfl⟩, ⟨rfl, rfl, rfl, rfl, rfl, rfl, rfl⟩⟩

end sqf

/-! # Theorems about the diagnostics -/

open logmessage logmessage.runtime

theorem digitChar_isDigit (d : Nat) (h : d < 10) : (Nat.digitChar d).isDigit = true := by
  interval_cases d <;> rfl

theorem toDigitsCore_isDigit (f : Nat) :
    ∀ (n : Nat) (acc : List Char), (∀ c ∈ acc, c.isDigit = true) →
      ∀ c ∈ Nat.toDigitsCore 10 f n acc, c.isDigit = true := by
  induction f with
  | zero =>
    intro n acc hacc c hc
    simp only [Nat.toDigitsCore] at hc
    exact hacc c hc
  | succ f ih =>
    intro n acc hacc c hc
    have hd : ∀ c ∈ Nat.digitChar (n % 10) :: acc, c.isDigit = true := by
      intro c hc
      rcases List.mem_cons.1 hc with rfl | hc
      · exact digitChar_isDigit _ (Nat.mod_lt _ (by decide))
      · exact hacc c hc
    simp only [Nat.toDigitsCore] at hc
    split at hc
    · exact hd c hc
    · exact ih _ _ hd c hc

theorem decimal_isDigit (num : Nat) : ∀ c ∈ decimal num, c.isDigit = true :=
  toDigitsCore_isDigit _ _ _ (by simp)

theorem decimal_no_line_feed (num : Nat) : '\n' ∉ decimal num := by
  intro h
  have := decimal_isDigit num _ h
  exact absurd this (by decide)

theorem location_format_parts (self : LogLocationInfo) :
    self.format = "[L".toList ++ decimal self.line ++ "[C".toList ++ decimal self.col ++
      (if self.path = [] then [] else "|".toList ++ self.path) ++ "]\t".toList := by
  unfold LogLocationInfo.format
  by_cases h : self.path = []
  · simp [h]
  · simp [h]

/-- C17, as stated, fails: for the empty path, line 1 and column 2 the result is `[L1[C2]`
followed by a tab, without the `|` of the claimed `[L1[C2|]`. -/
theorem location_format_counterexample :
    (LogLocationInfo.mk [] 1 2).format = "[L1[C2]\t".toList ∧
    (LogLocationInfo.mk [] 1 2).format ≠
      "[L".toList ++ decimal 1 ++ "[C".toList ++ decimal 2 ++ "|".toList ++ [] ++ "]\t".toList := by
  refine ⟨by decide, by decide⟩

/-- C17, amended. For every line, column and path, `LogLocationInfo::format()` returns
`"[L" + decimal(line) + "[C" + decimal(col)`, then `"|" + path` when the path is not empty and
nothing when it is empty, then `"]"` and a tab. -/
theorem location_format_eq (self : LogLocationInfo) :
    self.format = "[L".toList ++ decimal self.line ++ "[C".toList ++ decimal self.col ++
      (if self.path = [] then [] else "|".toList ++ self.path) ++ "]\t".toList :=
  location_format_parts self

/-- C18 fails on the code. `ExpectedArrayTypeMissmatch::formatMessage` and
`ExpectedArrayTypeMissmatchWeak::formatMessage` build their text in a local stream and end
without a `return` statement, so for every payload they return no string at all; every other
message kind returns a string that starts with `location.format()`. -/
theorem formatMessage_location_first (type_str : type → Str) (m : Message) :
    match m with
    | .runtime_ExpectedArrayTypeMissmatch .. =>
      m.formatMessage type_str = .error .no_return_value
    | .runtime_ExpectedArrayTypeMissmatchWeak .. =>
      m.formatMessage type_str = .error .no_return_value
    | _ => ∃ text, m.formatMessage type_str = .ok text ∧ m.location.format <+: text := by
  cases m <;> simp only [Message.formatMessage, Message.location] <;>
    first
    | rfl
    | (split <;> simp [List.append_assoc])
    | simp [List.append_assoc]

theorem location_format_no_line_feed (self : LogLocationInfo) (h : '\n' ∉ self.path) :
    '\n' ∉ self.format := by
  rw [location_format_parts]
  simp only [List.mem_append, not_or]
  refine ⟨⟨⟨⟨⟨by decide, decimal_no_line_feed _⟩, by decide⟩, decimal_no_line_feed _⟩, ?_⟩,
    by decide⟩
  split
  · simp
  · simp only [List.mem_append, not_or]
    exact ⟨by decide, h⟩

theorem to_cardinal_string_no_line_feed (num : Nat) : '\n' ∉ to_cardinal_string num := by
  unfold to_cardinal_string
  split <;> first | decide | exact decimal_no_line_feed _

/-- C19, as stated, fails: a `Stacktrace` message whose stack trace has two lines renders
with a line feed in it. -/
theorem single_line_counterexample :
    ∃ text, (Message.runtime_Stacktrace ⟨"a.sqf".toList, 1, 2⟩ "f\ng".toList).formatMessage
        (fun _ => []) = .ok text ∧ '\n' ∈ text :=
  ⟨_, rfl, by decide⟩

set_option maxRecDepth 4000 in
/-- C19, amended. For every message kind and payload for which `formatMessage()` returns a
string: when neither the path of the location, nor a string of the payload (macro name,
include tree, stack trace, info message text, file name and the like), nor the name of a
type of the payload contains a line feed, the returned string contains no line feed. -/
theorem formatMessage_single_line (type_str : type → Str) (m : Message) (text : Str)
    (hpay : ∀ t ∈ m.texts type_str, '\n' ∉ t)
    (hfmt : m.formatMessage type_str = .ok text) : '\n' ∉ text := by
  cases m <;> simp only [Message.formatMessage, Message.texts] at hfmt hpay
  all_goals (try split at hfmt)
  all_goals first
    | (cases hfmt; done)
    | (injection hfmt with hfmt
       subst hfmt
       simp only [List.mem_append, not_or]
       repeat' constructor
       all_goals first
         | decide
         | exact to_cardinal_string_no_line_feed _
         | exact location_format_no_line_feed _ (hpay _ (List.mem_cons_self _ _))
         | exact hpay _ (by simp))

/-- C19, amended, for an `InfoMessage` without line feed in its source and text. -/
theorem formatMessage_single_line_witness :
    '\n' ∉ "[L1[C2|a.sqf]\t[diag] ready".toList :=
  formatMessage_single_line (fun _ => [])
    (Message.runtime_InfoMessage ⟨"a.sqf".toList, 1, 2⟩ "diag".toList "ready".toList)
    "[L1[C2|a.sqf]\t[diag] ready".toList
    (by decide) rfl

/-! ## The cardinal formatter and the messages built on it -/

theorem to_cardinal_string_large (num : Nat) (h : 12 < num) :
    to_cardinal_string num = to_string num := by
  unfold to_cardinal_string to_string
  split <;> first | omega | rfl

/-- C30. The cardinal formatter returns the English words "zero", "one", ... , "twelve" for
the numbers 0 to 12, and `to_string(n)`, the decimal digits of `n`, for every `n` above 12. -/
theorem to_cardinal_string_spec :
    to_cardinal_string 0 = "zero".toList ∧ to_cardinal_string 1 = "one".toList
    ∧ to_cardinal_string 2 = "two".toList ∧ to_cardinal_string 3 = "three".toList
    ∧ to_cardinal_string 4 = "four".toList ∧ to_cardinal_string 5 = "five".toList
    ∧ to_cardinal_string 6 = "six".toList ∧ to_cardinal_string 7 = "seven".toList
    ∧ to_cardinal_string 8 = "eight".toList ∧ to_cardinal_string 9 = "nine".toList
    ∧ to_cardinal_string 10 = "ten".toList ∧ to_cardinal_string 11 = "eleven".toList
    ∧ to_cardinal_string 12 = "twelve".toList
    ∧ ∀ n, 12 < n →
        to_cardinal_string n = to_string n ∧ to_string n = (Nat.repr n).toList :=
  ⟨rfl, rfl, rfl, rfl, rfl, rfl, rfl, rfl, rfl, rfl, rfl, rfl, rfl,
    fun n h => ⟨to_cardinal_string_large n h, rfl⟩⟩

/-- C30 at 13: the first number rendered in digits. -/
theorem to_cardinal_string_spec_witness :
    to_cardinal_string 13 = "13".toList :=
  (to_cardinal_string_spec.2.2.2.2.2.2.2.2.2.2.2.2.2 13 (by decide)).1.trans (by decide)

/-- C21, as stated, fails: for the count 1000 the cardinal formatter returns the digits
"1000", not the words "one thousand", and the message holds the digits. -/
theorem maximum_instruction_count_counterexample :
    to_cardinal_string 1000 = "1000".toList
    ∧ (Message.runtime_MaximumInstructionCountReached ⟨"a.sqf".toList, 1, 2⟩ 1000).formatMessage
        (fun _ => [])
      = .ok ((LogLocationInfo.format ⟨"a.sqf".toList, 1, 2⟩)
          ++ "Maxium instruction count of 1000 reached.".toList)
    ∧ (Message.runtime_MaximumInstructionCountReached ⟨"a.sqf".toList, 1, 2⟩ 1000).formatMessage
        (fun _ => [])
      ≠ .ok ((LogLocationInfo.format ⟨"a.sqf".toList, 1, 2⟩)
          ++ "Maxium instruction count of one thousand reached.".toList) :=
  ⟨by decide, rfl, fun h => absurd (Except.ok.inj h) (by decide)⟩

/-- C21, amended. `MaximumInstructionCountReached::formatMessage` renders its count through the
cardinal formatter: the message is the location prefix followed by "Maxium instruction count
of ", the cardinal string of the count and " reached."; for the count 1000 the rendered value
is "1000", so the message is the prefix followed by "Maxium instruction count of 1000
reached.". -/
theorem maximum_instruction_count_message (type_str : type → Str)
    (location : LogLocationInfo) :
    (∀ count, (Message.runtime_MaximumInstructionCountReached location count).formatMessage
        type_str
      = .ok (location.format ++ "Maxium instruction count of ".toList
          ++ to_cardinal_string count ++ " reached.".toList))
    ∧ (Message.runtime_MaximumInstructionCountReached location 1000).formatMessage type_str
      = .ok (location.format ++ "Maxium instruction count of 1000 reached.".toList) := by
  refine ⟨fun _ => rfl, ?_⟩
  show Except.ok (location.format ++ "Maxium instruction count of ".toList
          ++ to_cardinal_string 1000 ++ " reached.".toList) = _
  have h : to_cardinal_string 1000 = "1000".toList := by decide
  rw [h, List.append_assoc, List.append_assoc]
  rfl

/-- C22. The two definitions of `ExpectedArraySizeMissmatchWeak::formatMessage` return the
same string for every location and every `(m_expected_min, m_expected_max, m_got)`, and that
string equals the one of `ExpectedArraySizeMissmatch::formatMessage` for the same inputs; it
is the string the message renders to. -/
theorem ExpectedArraySizeMissmatchWeak_definitions_agree (type_str : type → Str)
    (location : LogLocationInfo) (m_expected_min m_expected_max m_got : Nat) :
    ExpectedArraySizeMissmatchWeak_formatMessage_first location m_expected_min m_expected_max
        m_got
      = ExpectedArraySizeMissmatchWeak_formatMessage_second location m_expected_min
        m_expected_max m_got
    ∧ ExpectedArraySizeMissmatchWeak_formatMessage_first location m_expected_min m_expected_max
        m_got
      = ExpectedArraySizeMissmatch_formatMessage location m_expected_min m_expected_max m_got
    ∧ (Message.runtime_ExpectedArraySizeMissmatchWeak location m_expected_min m_expected_max
        m_got).formatMessage type_str
      = .ok (ExpectedArraySizeMissmatchWeak_formatMessage_first location m_expected_min
        m_expected_max m_got)
    ∧ (Message.runtime_ExpectedArraySizeMissmatch location m_expected_min m_expected_max
        m_got).formatMessage type_str
      = .ok (ExpectedArraySizeMissmatch_formatMessage location m_expected_min m_expected_max
        m_got) := by
  refine ⟨rfl, rfl, ?_, ?_⟩
  · simp only [Message.formatMessage, ExpectedArraySizeMissmatchWeak_formatMessage_first]
    split <;> rfl
  · simp only [Message.formatMessage, ExpectedArraySizeMissmatch_formatMessage]
    split <;> rfl

/-! ## Numbers and locations can be read back -/

theorem digitChar_value (d : Nat) (h : d < 10) : (Nat.digitChar d).toNat - 48 = d := by
  interval_cases d <;> rfl

theorem toDigitsCore_value (f : Nat) :
    ∀ (n : Nat) (acc : List Char), n < f →
      (Nat.toDigitsCore 10 f n acc).foldl (fun a c => a * 10 + (c.toNat - 48)) 0 =
        acc.foldl (fun a c => a * 10 + (c.toNat - 48)) n := by
  induction f with
  | zero => intro n acc h; omega
  | succ f ih =>
    intro n acc h
    have hd := digitChar_value (n % 10) (Nat.mod_lt _ (by decide))
    simp only [Nat.toDigitsCore]
    split
    · rename_i h0
      simp only [List.foldl_cons, hd, Nat.zero_mul, Nat.zero_add]
      have : n % 10 = n := by omega
      rw [this]
    · rename_i h0
      rw [ih (n / 10) _ (by omega)]
      simp only [List.foldl_cons, hd]
      have : n / 10 * 10 + n % 10 = n := by omega
      rw [this]

theorem decimal_value (n : Nat) :
    (decimal n).foldl (fun a c => a * 10 + (c.toNat - 48)) 0 = n :=
  toDigitsCore_value (n + 1) n [] (Nat.lt_succ_self n)

theorem decimal_injective (m n : Nat) (h : decimal m = decimal n) : m = n := by
  have h2 := congrArg (List.foldl (fun a c => a * 10 + (c.toNat - 48)) 0) h
  rw [decimal_value, decimal_value] at h2
  exact h2

theorem decimal_ne_nil (n : Nat) : decimal n ≠ [] := by
  intro h
  have h2 := decimal_value n
  rw [h] at h2
  simp only [List.foldl_nil] at h2
  subst h2
  exact absurd h (by decide)

theorem digits_prefix_unique :
    ∀ (d1 d2 r1 r2 : Str), (∀ c ∈ d1, c.isDigit = true) → (∀ c ∈ d2, c.isDigit = true) →
      (∀ c, r1.head? = some c → c.isDigit = false) →
      (∀ c, r2.head? = some c → c.isDigit = false) → r1 ≠ [] → r2 ≠ [] →
      d1 ++ r1 = d2 ++ r2 → d1 = d2 ∧ r1 = r2 := by
  intro d1
  induction d1 with
  | nil =>
    intro d2 r1 r2 _ h2 hr1 _ _ _ h
    cases d2 with
    | nil => exact ⟨rfl, h⟩
    | cons a t =>
      exfalso
      rw [List.nil_append, List.cons_append] at h
      have ha := h2 a (List.mem_cons_self _ _)
      have hb := hr1 a (by rw [h]; rfl)
      rw [ha] at hb
      cases hb
  | cons a t ih =>
    intro d2 r1 r2 h1 h2 hr1 hr2 n1 n2 h
    cases d2 with
    | nil =>
      exfalso
      rw [List.nil_append, List.cons_append] at h
      have ha := h1 a (List.mem_cons_self _ _)
      have hb := hr2 a (by rw [← h]; rfl)
      rw [ha] at hb
      cases hb
    | cons b u =>
      rw [List.cons_append, List.cons_append] at h
      injection h with hab htu
      obtain ⟨e1, e2⟩ := ih u r1 r2 (fun c hc => h1 c (List.mem_cons_of_mem _ hc))
        (fun c hc => h2 c (List.mem_cons_of_mem _ hc)) hr1 hr2 n1 n2 htu
      exact ⟨by rw [hab, e1], e2⟩

theorem to_cardinal_string_small_inj (m n : Nat) (hm : m ≤ 12) (hn : n ≤ 12)
    (h : to_cardinal_string m = to_cardinal_string n) : m = n := by
  interval_cases m <;> interval_cases n <;>
    first
      | rfl
      | exact absurd h (by decide)

theorem to_cardinal_string_small_letter (m : Nat) (hm : m ≤ 12) :
    ∃ c ∈ to_cardinal_string m, c.isDigit = false := by
  interval_cases m <;> decide

theorem to_cardinal_string_small_ne_large (m n : Nat) (hm : m ≤ 12) (hn : 12 < n) :
    to_cardinal_string m ≠ to_cardinal_string n := by
  intro h
  obtain ⟨c, hc, hd⟩ := to_cardinal_string_small_letter m hm
  rw [h, to_cardinal_string_large n hn] at hc
  have := decimal_isDigit n c hc
  rw [this] at hd
  cases hd

theorem to_cardinal_string_inj (m n : Nat)
    (h : to_cardinal_string m = to_cardinal_string n) : m = n := by
  by_cases hm : m ≤ 12
  · by_cases hn : n ≤ 12
    · exact to_cardinal_string_small_inj m n hm hn h
    · exact absurd h (to_cardinal_string_small_ne_large m n hm (by omega))
  · by_cases hn : n ≤ 12
    · exact absurd h.symm (to_cardinal_string_small_ne_large n m hn (by omega))
    · rw [to_cardinal_string_large m (by omega), to_cardinal_string_large n (by omega)] at h
      exact decimal_injective m n h

/-- C31. The cardinal formatter is injective: for all natural numbers `m` and `n`, equal
results of `to_cardinal_string` imply `m = n`. -/
theorem to_cardinal_string_injective :
    Function.Injective to_cardinal_string :=
  fun m n h => to_cardinal_string_inj m n h

theorem location_format_cons (self : LogLocationInfo) :
    self.format = '[' :: 'L' :: (decimal self.line ++ ('[' :: 'C' :: (decimal self.col ++
      ((if self.path = [] then [] else '|' :: self.path) ++ [']', '\t'])))) := by
  rw [location_format_parts]
  by_cases h : self.path = []
  · simp [h]
  · simp [h]

theorem location_tail_head (path : Str) :
    (∀ c, ((if path = [] then [] else '|' :: path) ++ [']', '\t']).head? = some c →
      c.isDigit = false) ∧
    (if path = [] then [] else '|' :: path) ++ [']', '\t'] ≠ [] := by
  by_cases h : path = []
  · simp only [h, if_true, List.nil_append]
    refine ⟨fun c hc => ?_, by simp⟩
    simp only [List.head?_cons, Option.some.injEq] at hc
    subst hc
    decide
  · simp only [h, if_false, List.cons_append]
    refine ⟨fun c hc => ?_, by simp⟩
    simp only [List.head?_cons, Option.some.injEq] at hc
    subst hc
    decide

theorem location_format_inj (a b : LogLocationInfo) (h : a.format = b.format) :
    a.line = b.line ∧ a.col = b.col ∧ a.path = b.path := by
  rw [location_format_cons a, location_format_cons b] at h
  injection h with _ h
  injection h with _ h
  obtain ⟨hl, h⟩ := digits_prefix_unique _ _ _ _ (decimal_isDigit _) (decimal_isDigit _)
    (fun c hc => by
      simp only [List.head?_cons, Option.some.injEq] at hc
      subst hc
      decide)
    (fun c hc => by
      simp only [List.head?_cons, Option.some.injEq] at hc
      subst hc
      decide)
    (by simp) (by simp) h
  injection h with _ h
  injection h with _ h
  obtain ⟨hc, h⟩ := digits_prefix_unique _ _ _ _ (decimal_isDigit _) (decimal_isDigit _)
    (location_tail_head a.path).1 (location_tail_head b.path).1
    (location_tail_head a.path).2 (location_tail_head b.path).2 h
  have ht := List.append_cancel_right h
  refine ⟨decimal_injective _ _ hl, decimal_injective _ _ hc, ?_⟩
  by_cases ha : a.path = []
  · by_cases hb : b.path = []
    · rw [ha, hb]
    · rw [if_pos ha, if_neg hb] at ht
      cases ht
  · by_cases hb : b.path = []
    · rw [if_neg ha, if_pos hb] at ht
      cases ht
    · rw [if_neg ha, if_neg hb] at ht
      injection ht

/-- C33. The location prefix can be parsed back: for all `(line1, col1, path1)` and
`(line2, col2, path2)`, equal `format()` strings imply `line1 = line2`, `col1 = col2` and
`path1 = path2`; the empty path is rendered without `'|'`, a path that is not empty with
it. -/
theorem location_format_injective (line1 col1 line2 col2 : Nat) (path1 path2 : Str)
    (h : (LogLocationInfo.mk path1 line1 col1).format =
      (LogLocationInfo.mk path2 line2 col2).format) :
    (line1 = line2 ∧ col1 = col2 ∧ path1 = path2) ∧
    (LogLocationInfo.mk [] line1 col1).format =
      "[L".toList ++ decimal line1 ++ "[C".toList ++ decimal col1 ++ "]\t".toList ∧
    (path1 ≠ [] → (LogLocationInfo.mk path1 line1 col1).format =
      "[L".toList ++ decimal line1 ++ "[C".toList ++ decimal col1 ++ "|".toList ++ path1 ++
        "]\t".toList) := by
  refine ⟨location_format_inj _ _ h, ?_, fun hp => ?_⟩
  · rw [location_format_parts]
    simp
  · rw [location_format_parts]
    simp [hp]

/-- C33 for two equal renderings of line 12, column 3 of `a.sqf`. -/
theorem location_format_injective_witness :
    ((12 = 12 ∧ 3 = 3 ∧ "a.sqf".toList = "a.sqf".toList) ∧
    (LogLocationInfo.mk [] 12 3).format =
      "[L".toList ++ decimal 12 ++ "[C".toList ++ decimal 3 ++ "]\t".toList ∧
    ("a.sqf".toList ≠ [] → (LogLocationInfo.mk "a.sqf".toList 12 3).format =
      "[L".toList ++ decimal 12 ++ "[C".toList ++ decimal 3 ++ "|".toList ++ "a.sqf".toList ++
        "]\t".toList)) :=
  location_format_injective 12 3 12 3 "a.sqf".toList "a.sqf".toList rfl

/-- C32. Array-size mismatch wording: for every location and sizes,
`ExpectedArraySizeMissmatch::formatMessage` returns the location prefix followed by "Array
was expected to have " + c(min) + " elements but has " + c(got) + "." when `expected_min =
expected_max`, and by "Array was expected to have " + c(min) + " to " + c(max) + " elements
but has " + c(got) + "." otherwise, where `c` is `to_cardinal_string`. -/
theorem array_size_mismatch_wording (type_str : type → Str) (location : LogLocationInfo)
    (m_expected_min m_expected_max m_got : Nat) :
    (Message.runtime_ExpectedArraySizeMissmatch location m_expected_min m_expected_max
        m_got).formatMessage type_str
      = .ok (ExpectedArraySizeMissmatch_formatMessage location m_expected_min m_expected_max
        m_got)
    ∧ (m_expected_min = m_expected_max →
      ExpectedArraySizeMissmatch_formatMessage location m_expected_min m_expected_max m_got
        = location.format ++ "Array was expected to have ".toList
          ++ to_cardinal_string m_expected_min ++ " elements but has ".toList
          ++ to_cardinal_string m_got ++ ".".toList)
    ∧ (m_expected_min ≠ m_expected_max →
      ExpectedArraySizeMissmatch_formatMessage location m_expected_min m_expected_max m_got
        = location.format ++ "Array was expected to have ".toList
          ++ to_cardinal_string m_expected_min ++ " to ".toList
          ++ to_cardinal_string m_expected_max ++ " elements but has ".toList
          ++ to_cardinal_string m_got ++ ".".toList) := by
  refine ⟨?_, fun h => ?_, fun h => ?_⟩
  · simp only [Message.formatMessage, ExpectedArraySizeMissmatch_formatMessage]
    split <;> rfl
  · simp only [ExpectedArraySizeMissmatch_formatMessage, if_pos h]
  · simp only [ExpectedArraySizeMissmatch_formatMessage, if_neg h]

/-- C32 for an array of 3 elements where 2 are expected, and where 1 to 2 are expected. -/
theorem array_size_mismatch_wording_witness :
    ExpectedArraySizeMissmatch_formatMessage ⟨"a.sqf".toList, 1, 2⟩ 2 2 3
      = "[L1[C2|a.sqf]\tArray was expected to have two elements but has three.".toList
    ∧ ExpectedArraySizeMissmatch_formatMessage ⟨"a.sqf".toList, 1, 2⟩ 1 2 3
      = "[L1[C2|a.sqf]\tArray was expected to have one to two elements but has three.".toList :=
  ⟨((array_size_mismatch_wording (fun _ => []) ⟨"a.sqf".toList, 1, 2⟩ 2 2 3).2.1 rfl).trans
      (by decide),
    ((array_size_mismatch_wording (fun _ => []) ⟨"a.sqf".toList, 1, 2⟩ 1 2 3).2.2
      (by decide)).trans (by decide)⟩

/-! ## The logger sinks -/

theorem ostream_insert_plain (os : ostream) (s : Str) (hg : os.good = true)
    (hw : os.width = 0) :
    os.insert s = ⟨os.content ++ s, true, 0, os.fill, os.left⟩ := by
  unfold ostream.insert ostream.pad
  rw [if_pos hg, hw, hg]
  simp

/-- C34, as stated, fails: what is appended depends on the state of the stream. On a stream
with a pending field width of 8 and the fill character `*` the level string is padded, and on
a stream that is not good nothing is written. -/
theorem logger_sinks_counterexample :
    (StreamLogger.log (fun _ => "[INF]".toList) ⟨"first\n".toList, true, 8, '*', false⟩
        loglevel.info "ready".toList).content = "first\n***[INF] ready\n".toList ∧
    (StreamLogger.log (fun _ => "[INF]".toList) ⟨"first\n".toList, true, 8, '*', false⟩
        loglevel.info "ready".toList).content ≠
      "first\n".toList ++ ("[INF]".toList ++ " ".toList ++ "ready".toList ++ "\n".toList) ∧
    (StreamLogger.log (fun _ => "[INF]".toList) ⟨"first\n".toList, false, 0, ' ', false⟩
        loglevel.info "ready".toList).content = "first\n".toList ∧
    (StreamLogger.log (fun _ => "[INF]".toList) ⟨"first\n".toList, false, 0, ' ', false⟩
        loglevel.info "ready".toList).content ≠
      "first\n".toList ++ ("[INF]".toList ++ " ".toList ++ "ready".toList ++ "\n".toList) :=
  ⟨by decide, by decide, by decide, by decide⟩

/-- C34, amended. Logger sinks agree: for every level and message, `StreamLogger::log` on a
target stream that is good and has no field width pending appends exactly
`loglevelstring(level)`, a blank, the message and a line feed to the stream, the earlier
content staying in front; `StdOutLogger::log` writes the same bytes to standard output in
that state, and in every state it does to standard output what `StreamLogger::log` does to
its target. -/
theorem logger_sinks_agree (loglevelstring : loglevel → Str) (os : ostream)
    (level : loglevel) (message : Str) (hg : os.good = true) (hw : os.width = 0) :
    (StreamLogger.log loglevelstring os level message).content =
      os.content ++ (loglevelstring level ++ " ".toList ++ message ++ "\n".toList) ∧
    (StdOutLogger.log loglevelstring os level message).content =
      os.content ++ (loglevelstring level ++ " ".toList ++ message ++ "\n".toList) ∧
    ∀ out : ostream, StdOutLogger.log loglevelstring out level message =
      StreamLogger.log loglevelstring out level message := by
  have h : (StreamLogger.log loglevelstring os level message).content =
      os.content ++ (loglevelstring level ++ " ".toList ++ message ++ "\n".toList) := by
    unfold StreamLogger.log
    rw [ostream_insert_plain os _ hg hw, ostream_insert_plain _ _ rfl rfl,
      ostream_insert_plain _ _ rfl rfl]
    simp [ostream.endl]
  exact ⟨h, h, fun _ => rfl⟩

/-- C34, amended, for the message `ready` at level `info` on a stream that holds one
line. -/
theorem logger_sinks_agree_witness :
    (StreamLogger.log (fun _ => "[INF]".toList) ⟨"first\n".toList, true, 0, ' ', false⟩
        loglevel.info "ready".toList).content = "first\n[INF] ready\n".toList :=
  (logger_sinks_agree (fun _ => "[INF]".toList) ⟨"first\n".toList, true, 0, ' ', false⟩
    loglevel.info "ready".toList rfl rfl).1.trans (by decide)

/-! # Theorems about the generated parser -/

open sqc

theorem unpair_backslashes_plain (c : Char) (rest : Str) (h : c ≠ '\\') :
    unpair_backslashes (c :: rest) = (unpair_backslashes rest).map (fun r => c :: r) := by
  cases rest <;> simp [unpair_backslashes, h]

theorem unpair_backslashes_pair (rest : Str) :
    unpair_backslashes ('\\' :: '\\' :: rest) =
      (unpair_backslashes rest).map (fun r => '\\' :: r) := by
  simp [unpair_backslashes]

theorem unpair_backslashes_lone (rest : Str) (h : rest.head? ≠ some '\\') :
    unpair_backslashes ('\\' :: rest) = none := by
  cases rest with
  | nil => simp [unpair_backslashes]
  | cons d rest2 =>
    have hd : d ≠ '\\' := fun he => h (by rw [he]; rfl)
    simp [unpair_backslashes, hd]

theorem yytnamerr_scan_plain (c : Char) (rest yyr : Str) (h1 : c ≠ '\'') (h2 : c ≠ ',')
    (h3 : c ≠ '\\') (h4 : c ≠ '"') :
    yytnamerr_scan (c :: rest) yyr = yytnamerr_scan rest (yyr ++ [c]) := by
  cases rest <;> simp [yytnamerr_scan, h1, h2, h3, h4]

theorem yytnamerr_scan_pair (rest yyr : Str) :
    yytnamerr_scan ('\\' :: '\\' :: rest) yyr = yytnamerr_scan rest (yyr ++ ['\\']) := by
  simp [yytnamerr_scan]

theorem yytnamerr_scan_lone (rest yyr : Str) (h : rest.head? ≠ some '\\') :
    yytnamerr_scan ('\\' :: rest) yyr = .ok none := by
  cases rest with
  | nil => simp [yytnamerr_scan]
  | cons d rest2 =>
    have hd : d ≠ '\\' := fun he => h (by rw [he]; rfl)
    simp [yytnamerr_scan, hd]

theorem yytnamerr_scan_stop (c : Char) (rest yyr : Str) (h : c = '\'' ∨ c = ',') :
    yytnamerr_scan (c :: rest) yyr = .ok none := by
  cases rest <;> simp [yytnamerr_scan, h]

theorem yytnamerr_scan_quote (rest yyr : Str) :
    yytnamerr_scan ('"' :: rest) yyr = .ok (some yyr) := by
  cases rest <;> simp [yytnamerr_scan]

theorem yytnamerr_scan_clean (n : Nat) :
    ∀ (body tail yyr r : Str), body.length ≤ n → '\'' ∉ body → ',' ∉ body → '"' ∉ body →
      unpair_backslashes body = some r →
      yytnamerr_scan (body ++ tail) yyr = yytnamerr_scan tail (yyr ++ r) := by
  induction n with
  | zero =>
    intro body tail yyr r hl _ _ _ hu
    have hb : body = [] := List.eq_nil_of_length_eq_zero (Nat.le_zero.1 hl)
    subst hb
    simp only [unpair_backslashes, Option.some.injEq] at hu
    subst hu
    simp
  | succ n ih =>
    intro body tail yyr r hl ha hc hq hu
    cases body with
    | nil =>
      simp only [unpair_backslashes, Option.some.injEq] at hu
      subst hu
      simp
    | cons c rest =>
      have hca : c ≠ '\'' := fun he => ha (he ▸ List.mem_cons_self _ _)
      have hcc : c ≠ ',' := fun he => hc (he ▸ List.mem_cons_self _ _)
      have hcq : c ≠ '"' := fun he => hq (he ▸ List.mem_cons_self _ _)
      have ha2 : '\'' ∉ rest := fun h => ha (List.mem_cons_of_mem _ h)
      have hc2 : ',' ∉ rest := fun h => hc (List.mem_cons_of_mem _ h)
      have hq2 : '"' ∉ rest := fun h => hq (List.mem_cons_of_mem _ h)
      simp only [List.length_cons] at hl
      by_cases hb : c = '\\'
      · subst hb
        by_cases hh : rest.head? = some '\\'
        · cases rest with
          | nil => cases hh
          | cons d rest2 =>
            simp only [List.head?_cons, Option.some.injEq] at hh
            subst hh
            rw [unpair_backslashes_pair, Option.map_eq_some'] at hu
            obtain ⟨r2, hr2, hr⟩ := hu
            subst hr
            simp only [List.length_cons] at hl
            have := ih rest2 tail (yyr ++ ['\\']) r2 (by omega)
              (fun h => ha2 (List.mem_cons_of_mem _ h))
              (fun h => hc2 (List.mem_cons_of_mem _ h))
              (fun h => hq2 (List.mem_cons_of_mem _ h)) hr2
            rw [List.cons_append, List.cons_append, yytnamerr_scan_pair, this,
              List.append_assoc, List.singleton_append]
        · rw [unpair_backslashes_lone rest hh] at hu
          cases hu
      · rw [unpair_backslashes_plain c rest hb, Option.map_eq_some'] at hu
        obtain ⟨r2, hr2, hr⟩ := hu
        subst hr
        rw [List.cons_append, yytnamerr_scan_plain c _ yyr hca hcc hb hcq,
          ih rest tail (yyr ++ [c]) r2 (by omega) ha2 hc2 hq2 hr2,
          List.append_assoc, List.singleton_append]

theorem yytnamerr_of_quote (rest : Str) :
    yytnamerr_ ('"' :: rest) =
      match yytnamerr_scan rest [] with
      | .ok (some yyr) => .ok yyr
      | .ok none => .ok ('"' :: rest)
      | .error e => .error e := by
  simp [yytnamerr_]

theorem yytnamerr_plain (yystr : Str) (h : yystr.head? ≠ some '"') :
    yytnamerr_ yystr = .ok yystr := by
  simp [yytnamerr_, h]

theorem yytnamerr_strips (body tail r : Str) (ha : '\'' ∉ body) (hc : ',' ∉ body)
    (hq : '"' ∉ body) (hu : unpair_backslashes body = some r) :
    yytnamerr_ ('"' :: (body ++ '"' :: tail)) = .ok r := by
  rw [yytnamerr_of_quote, yytnamerr_scan_clean body.length body _ [] r (Nat.le_refl _) ha hc hq
    hu, yytnamerr_scan_quote]
  rfl

theorem yytnamerr_keeps (pre rest r : Str) (c : Char) (ha : '\'' ∉ pre) (hc : ',' ∉ pre)
    (hq : '"' ∉ pre) (hu : unpair_backslashes pre = some r)
    (hstop : c = '\'' ∨ c = ',' ∨ (c = '\\' ∧ rest.head? ≠ some '\\')) :
    yytnamerr_ ('"' :: (pre ++ c :: rest)) = .ok ('"' :: (pre ++ c :: rest)) := by
  rw [yytnamerr_of_quote, yytnamerr_scan_clean pre.length pre _ [] r (Nat.le_refl _) ha hc hq hu]
  rcases hstop with h | h | ⟨h, hr⟩
  · rw [yytnamerr_scan_stop c rest _ (Or.inl h)]
  · rw [yytnamerr_scan_stop c rest _ (Or.inr h)]
  · subst h
    rw [yytnamerr_scan_lone rest _ hr]

/-- C35, as stated, fails in its second part: the body `a"b` holds no apostrophe, no comma and
no backslash, and `yytnamerr_` returns `a` for `"a"b"`, not the body. -/
theorem yytnamerr_counterexample :
    '\'' ∉ "a\"b".toList ∧ ',' ∉ "a\"b".toList ∧
    unpair_backslashes "a\"b".toList = some "a\"b".toList ∧
    yytnamerr_ ('"' :: ("a\"b".toList ++ ['"'])) = .ok "a".toList ∧
    yytnamerr_ ('"' :: ("a\"b".toList ++ ['"'])) ≠ .ok "a\"b".toList :=
  ⟨by decide, by decide, by decide, rfl, fun h => absurd (Except.ok.inj h) (by decide)⟩

/-- C35, amended. `yytnamerr_(s)` returns `s` unchanged when `s` does not start with `'"'`;
for `s = '"' + body + '"'` it returns `body` with every pair of backslashes replaced by one
backslash when `body` holds no apostrophe, no comma, no double quote and no backslash outside
such pairs; and it returns `s` unchanged, quotes kept, when an apostrophe, a comma or a
backslash that no backslash follows comes, after such a part `pre`, before any double quote
other than the opening one. -/
theorem yytnamerr_spec :
    (∀ s : Str, s.head? ≠ some '"' → yytnamerr_ s = .ok s) ∧
    (∀ body r : Str, '\'' ∉ body → ',' ∉ body → '"' ∉ body →
      unpair_backslashes body = some r → yytnamerr_ ('"' :: (body ++ ['"'])) = .ok r) ∧
    (∀ (pre rest r : Str) (c : Char), '\'' ∉ pre → ',' ∉ pre → '"' ∉ pre →
      unpair_backslashes pre = some r →
      (c = '\'' ∨ c = ',' ∨ (c = '\\' ∧ rest.head? ≠ some '\\')) →
      yytnamerr_ ('"' :: (pre ++ c :: rest)) = .ok ('"' :: (pre ++ c :: rest))) :=
  ⟨yytnamerr_plain, fun body r ha hc hq hu => yytnamerr_strips body [] r ha hc hq hu,
    yytnamerr_keeps⟩

/-- C35, amended, on the names `IDENT`, `"a\\b"` and `","`. -/
theorem yytnamerr_spec_witness :
    yytnamerr_ "IDENT".toList = .ok "IDENT".toList ∧
    yytnamerr_ "\"a\\\\b\"".toList = .ok "a\\b".toList ∧
    yytnamerr_ "\",\"".toList = .ok "\",\"".toList :=
  ⟨yytnamerr_spec.1 "IDENT".toList (by decide),
    yytnamerr_spec.2.1 "a\\\\b".toList "a\\b".toList (by decide) (by decide) (by decide)
      (by decide),
    yytnamerr_spec.2.2 [] "\"".toList [] ',' (by decide) (by decide) (by decide) rfl
      (Or.inr (Or.inl rfl))⟩

theorem array_at_ok {α : Type} (a : List α) (i : Int) (d : α) (h0 : 0 ≤ i)
    (h1 : i.toNat < a.length) : array_at a i = .ok (a.getD i.toNat d) := by
  unfold array_at
  rw [if_neg (by omega)]
  rw [List.getElem?_eq_getElem h1, List.getD_eq_getElem a d h1]

theorem range_filter_window (p : Nat → Bool) (b n m : Nat) (h : b + n ≤ m) :
    (List.range m).filter (fun x => decide (b ≤ x ∧ x < b + n) && p x) =
      (List.range' b n).filter p := by
  have hm : m = ((m - (b + n)) + n) + b := by omega
  rw [List.range_eq_range', hm, ← List.range'_append_1 0 b, Nat.zero_add,
    ← List.range'_append_1 b n, List.filter_append, List.filter_append]
  have h1 : (List.range' 0 b).filter (fun x => decide (b ≤ x ∧ x < b + n) && p x) = [] := by
    rw [List.filter_eq_nil_iff]
    intro x hx
    rw [List.mem_range'_1] at hx
    have : ¬ (b ≤ x ∧ x < b + n) := by omega
    simp [this]
  have h3 : (List.range' (b + n) (m - (b + n))).filter
      (fun x => decide (b ≤ x ∧ x < b + n) && p x) = [] := by
    rw [List.filter_eq_nil_iff]
    intro x hx
    rw [List.mem_range'_1] at hx
    have : ¬ (b ≤ x ∧ x < b + n) := by omega
    simp [this]
  have h2 : (List.range' b n).filter (fun x => decide (b ≤ x ∧ x < b + n) && p x) =
      (List.range' b n).filter p := by
    apply List.filter_congr
    intro x hx
    rw [List.mem_range'_1] at hx
    simp [hx]
  rw [h1, h2, h3, List.nil_append, List.append_nil]

set_option maxRecDepth 100000 in
theorem yycheck_length : yycheck_.length = 786 := by decide

set_option maxRecDepth 100000 in
theorem yytable_length : yytable_.length = 786 := by decide

set_option maxRecDepth 100000 in
theorem yytname_length : yytname_.length = 104 := by decide

set_option maxRecDepth 100000 in
theorem yypact_length : yypact_.length = 247 := by decide

theorem yysyntax_error_expected_eq (yyn : Int) :
    ∀ (xs : List Nat) (yyarg : List Str),
      (∀ x ∈ xs, 0 ≤ yyn + (x : Int) ∧ yyn + (x : Int) ≤ 785 ∧ x < 68) →
      1 ≤ yyarg.length → yyarg.length ≤ 5 →
      yysyntax_error_expected yyn xs yyarg =
        .ok (if yyarg.length + (xs.filter (token_acceptable yyn)).length ≤ 5 then
          yyarg ++ (xs.filter (token_acceptable yyn)).map (fun x => yytname_.getD x [])
          else yyarg.take 1) := by
  intro xs
  induction xs with
  | nil =>
    intro yyarg _ _ h5
    simp [yysyntax_error_expected, h5]
  | cons x rest ih =>
    intro yyarg hx h1 h5
    obtain ⟨hx0, hx1, hx2⟩ := hx x (List.mem_cons_self _ _)
    have hrest : ∀ y ∈ rest, 0 ≤ yyn + (y : Int) ∧ yyn + (y : Int) ≤ 785 ∧ y < 68 :=
      fun y hy => hx y (List.mem_cons_of_mem _ hy)
    have hc : array_at yycheck_ ((x : Int) + yyn) =
        .ok (yycheck_.getD (yyn + (x : Int)).toNat (-1)) := by
      rw [Int.add_comm]
      exact array_at_ok _ _ _ hx0 (by
        have := yycheck_length
        omega)
    have ht : array_at yytable_ ((x : Int) + yyn) =
        .ok (yytable_.getD (yyn + (x : Int)).toNat 0) := by
      rw [Int.add_comm]
      exact array_at_ok _ _ _ hx0 (by
        have := yytable_length
        omega)
    have hn : array_at yytname_ (x : Int) = .ok (yytname_.getD x []) := by
      have := array_at_ok yytname_ (x : Int) [] (by omega) (by
        have := yytname_length
        omega)
      simpa using this
    rw [yysyntax_error_expected]
    simp only [hc, ht, hn, bind, Except.bind, yy_table_value_is_error_]
    by_cases hacc : token_acceptable yyn x = true
    · have hacc2 := hacc
      simp only [token_acceptable, decide_eq_true_eq] at hacc2
      obtain ⟨a1, a2, a3⟩ := hacc2
      rw [List.filter_cons_of_pos hacc]
      simp only [a1, a2, ne_eq, not_false_eq_true, and_self, if_true, beq_iff_eq, a3, if_false,
        List.length_cons, List.map_cons]
      by_cases h55 : yyarg.length = 5
      · rw [if_pos h55, if_neg (by omega)]
      · rw [if_neg h55, ih _ hrest (by simp) (by simp; omega)]
        simp only [List.length_append, List.length_singleton]
        by_cases hle : yyarg.length + ((rest.filter (token_acceptable yyn)).length + 1) ≤ 5
        · rw [if_pos (by omega), if_pos hle]
          simp
        · rw [if_neg (by omega), if_neg hle]
          cases yyarg with
          | nil => simp at h1
          | cons a t => simp
    · have hacc2 := hacc
      simp only [token_acceptable, decide_eq_true_eq, not_and_or] at hacc2
      rw [List.filter_cons_of_neg hacc]
      by_cases h12 : yycheck_.getD (yyn + (x : Int)).toNat (-1) = (x : Int) ∧ x ≠ yyterror_
      · rw [if_pos h12]
        have h3 : yytable_.getD (yyn + (x : Int)).toNat 0 = yytable_ninf_ := by
          rcases hacc2 with h | h | h
          · exact absurd h12.1 h
          · exact absurd h12.2 h
          · exact not_not.1 h
        simp only [h3, beq_self_eq_true, if_true]
        exact ih _ hrest h1 h5
      · rw [if_neg h12]
        exact ih _ hrest h1 h5

theorem yysyntax_error_fill_char (yycount : Nat) (yyarg : List Str) (c : Char) (l : Str)
    (yyi : Nat) (yyres : Str) (h : c ≠ '%') :
    yysyntax_error_fill yycount yyarg (c :: l) yyi yyres =
      yysyntax_error_fill yycount yyarg l yyi (yyres ++ [c]) := by
  cases l with
  | nil => simp [yysyntax_error_fill]
  | cons d rest =>
    rw [yysyntax_error_fill]
    simp [h]

theorem yysyntax_error_fill_text (yycount : Nat) (yyarg : List Str) (text : Str)
    (h : '%' ∉ text) :
    ∀ (l : Str) (yyi : Nat) (yyres : Str),
      yysyntax_error_fill yycount yyarg (text ++ l) yyi yyres =
        yysyntax_error_fill yycount yyarg l yyi (yyres ++ text) := by
  induction text with
  | nil => intro l yyi yyres; simp
  | cons c t ih =>
    intro l yyi yyres
    have hc : c ≠ '%' := fun he => h (he ▸ List.mem_cons_self _ _)
    rw [List.cons_append, yysyntax_error_fill_char _ _ c _ _ _ hc,
      ih (fun hm => h (List.mem_cons_of_mem _ hm)), List.append_assoc, List.singleton_append]

theorem yysyntax_error_fill_arg (yycount : Nat) (yyarg : List Str) (l : Str)
    (yyi : Nat) (yyres arg name : Str) (hi : yyi < yycount) (ha : yyarg[yyi]? = some arg)
    (hn : yytnamerr_ arg = .ok name) :
    yysyntax_error_fill yycount yyarg ('%' :: 's' :: l) yyi yyres =
      yysyntax_error_fill yycount yyarg l (yyi + 1) (yyres ++ name) := by
  rw [yysyntax_error_fill]
  have h2 : array_at yyarg (yyi : Int) = .ok arg := by
    unfold array_at
    simp [ha]
  simp [hi, h2, hn, bind, Except.bind]

theorem yysyntax_error_fill_nil (yycount : Nat) (yyarg : List Str) (yyi : Nat) (yyres : Str) :
    yysyntax_error_fill yycount yyarg [] yyi yyres = .ok yyres := by
  rw [yysyntax_error_fill]

theorem fill_one (a0 e0 : Str) (h0 : yytnamerr_ a0 = .ok e0) :
    yysyntax_error_fill 1 [a0] "syntax error, unexpected %s".toList 0 [] =
      .ok (syntax_error_shape e0 []) := by
  have hf : "syntax error, unexpected %s".toList =
      "syntax error, unexpected ".toList ++ '%' :: 's' :: [] := by decide
  rw [hf, yysyntax_error_fill_text _ _ _ (by decide),
    yysyntax_error_fill_arg _ _ _ 0 _ a0 e0 (by decide) rfl h0, yysyntax_error_fill_nil]
  simp [syntax_error_shape]

theorem fill_two (a0 e0 a1 e1 : Str) (h0 : yytnamerr_ a0 = .ok e0)
    (h1 : yytnamerr_ a1 = .ok e1) :
    yysyntax_error_fill 2 [a0, a1] "syntax error, unexpected %s, expecting %s".toList 0 [] =
      .ok (syntax_error_shape e0 [e1]) := by
  have hf : "syntax error, unexpected %s, expecting %s".toList =
      "syntax error, unexpected ".toList ++ '%' :: 's' ::
        (", expecting ".toList ++ '%' :: 's' :: []) := by decide
  rw [hf, yysyntax_error_fill_text _ _ _ (by decide),
    yysyntax_error_fill_arg _ _ _ 0 _ a0 e0 (by decide) rfl h0,
    yysyntax_error_fill_text _ _ _ (by decide),
    yysyntax_error_fill_arg _ _ _ 1 _ a1 e1 (by decide) rfl h1, yysyntax_error_fill_nil]
  simp [syntax_error_shape]

theorem fill_three (a0 e0 a1 e1 a2 e2 : Str) (h0 : yytnamerr_ a0 = .ok e0)
    (h1 : yytnamerr_ a1 = .ok e1) (h2 : yytnamerr_ a2 = .ok e2) :
    yysyntax_error_fill 3 [a0, a1, a2]
        "syntax error, unexpected %s, expecting %s or %s".toList 0 [] =
      .ok (syntax_error_shape e0 [e1, e2]) := by
  have hf : "syntax error, unexpected %s, expecting %s or %s".toList =
      "syntax error, unexpected ".toList ++ '%' :: 's' ::
        (", expecting ".toList ++ '%' :: 's' :: (" or ".toList ++ '%' :: 's' :: [])) := by
    decide
  rw [hf, yysyntax_error_fill_text _ _ _ (by decide),
    yysyntax_error_fill_arg _ _ _ 0 _ a0 e0 (by decide) rfl h0,
    yysyntax_error_fill_text _ _ _ (by decide),
    yysyntax_error_fill_arg _ _ _ 1 _ a1 e1 (by decide) rfl h1,
    yysyntax_error_fill_text _ _ _ (by decide),
    yysyntax_error_fill_arg _ _ _ 2 _ a2 e2 (by decide) rfl h2, yysyntax_error_fill_nil]
  simp [syntax_error_shape]

theorem fill_four (a0 e0 a1 e1 a2 e2 a3 e3 : Str) (h0 : yytnamerr_ a0 = .ok e0)
    (h1 : yytnamerr_ a1 = .ok e1) (h2 : yytnamerr_ a2 = .ok e2)
    (h3 : yytnamerr_ a3 = .ok e3) :
    yysyntax_error_fill 4 [a0, a1, a2, a3]
        "syntax error, unexpected %s, expecting %s or %s or %s".toList 0 [] =
      .ok (syntax_error_shape e0 [e1, e2, e3]) := by
  have hf : "syntax error, unexpected %s, expecting %s or %s or %s".toList =
      "syntax error, unexpected ".toList ++ '%' :: 's' ::
        (", expecting ".toList ++ '%' :: 's' :: (" or ".toList ++ '%' :: 's' ::
          (" or ".toList ++ '%' :: 's' :: []))) := by
    decide
  rw [hf, yysyntax_error_fill_text _ _ _ (by decide),
    yysyntax_error_fill_arg _ _ _ 0 _ a0 e0 (by decide) rfl h0,
    yysyntax_error_fill_text _ _ _ (by decide),
    yysyntax_error_fill_arg _ _ _ 1 _ a1 e1 (by decide) rfl h1,
    yysyntax_error_fill_text _ _ _ (by decide),
    yysyntax_error_fill_arg _ _ _ 2 _ a2 e2 (by decide) rfl h2,
    yysyntax_error_fill_text _ _ _ (by decide),
    yysyntax_error_fill_arg _ _ _ 3 _ a3 e3 (by decide) rfl h3, yysyntax_error_fill_nil]
  simp [syntax_error_shape]

theorem fill_five (a0 e0 a1 e1 a2 e2 a3 e3 a4 e4 : Str) (h0 : yytnamerr_ a0 = .ok e0)
    (h1 : yytnamerr_ a1 = .ok e1) (h2 : yytnamerr_ a2 = .ok e2)
    (h3 : yytnamerr_ a3 = .ok e3) (h4 : yytnamerr_ a4 = .ok e4) :
    yysyntax_error_fill 5 [a0, a1, a2, a3, a4]
        "syntax error, unexpected %s, expecting %s or %s or %s or %s".toList 0 [] =
      .ok (syntax_error_shape e0 [e1, e2, e3, e4]) := by
  have hf : "syntax error, unexpected %s, expecting %s or %s or %s or %s".toList =
      "syntax error, unexpected ".toList ++ '%' :: 's' ::
        (", expecting ".toList ++ '%' :: 's' :: (" or ".toList ++ '%' :: 's' ::
          (" or ".toList ++ '%' :: 's' :: (" or ".toList ++ '%' :: 's' :: [])))) := by
    decide
  rw [hf, yysyntax_error_fill_text _ _ _ (by decide),
    yysyntax_error_fill_arg _ _ _ 0 _ a0 e0 (by decide) rfl h0,
    yysyntax_error_fill_text _ _ _ (by decide),
    yysyntax_error_fill_arg _ _ _ 1 _ a1 e1 (by decide) rfl h1,
    yysyntax_error_fill_text _ _ _ (by decide),
    yysyntax_error_fill_arg _ _ _ 2 _ a2 e2 (by decide) rfl h2,
    yysyntax_error_fill_text _ _ _ (by decide),
    yysyntax_error_fill_arg _ _ _ 3 _ a3 e3 (by decide) rfl h3,
    yysyntax_error_fill_text _ _ _ (by decide),
    yysyntax_error_fill_arg _ _ _ 4 _ a4 e4 (by decide) rfl h4, yysyntax_error_fill_nil]
  simp [syntax_error_shape]

set_option maxRecDepth 100000 in
theorem yytname_all_ok : ∀ name ∈ yytname_, (yytnamerr_ name).toOption.isSome = true := by
  decide

theorem token_name_ok (x : Nat) (h : x < 104) :
    yytnamerr_ (yytname_.getD x []) = .ok (token_name x) := by
  have hl : x < yytname_.length := by rw [yytname_length]; exact h
  have hm : yytname_.getD x [] ∈ yytname_ := by
    rw [List.getD_eq_getElem _ _ hl]
    exact List.getElem_mem hl
  have hok := yytname_all_ok _ hm
  unfold token_name
  cases hr : yytnamerr_ (yytname_.getD x []) with
  | ok r => rfl
  | error e => rw [hr] at hok; cases hok

theorem yysyntax_error_of_args (yystate yytoken : Nat) (listed : List Nat)
    (hl : listed.length ≤ 4) (ht : yytoken < 104) (hx : ∀ x ∈ listed, x < 104)
    (h : yysyntax_error_args yystate (some yytoken) =
      .ok (yytname_.getD yytoken [] :: listed.map (fun x => yytname_.getD x []))) :
    yysyntax_error_ yystate (some yytoken) =
      .ok (syntax_error_shape (token_name yytoken) (listed.map token_name)) := by
  unfold yysyntax_error_
  rw [h]
  simp only [bind, Except.bind, List.length_cons, List.length_map]
  have h0 := token_name_ok yytoken ht
  match listed, hl, hx with
  | [], _, _ => exact fill_one _ _ h0
  | [x1], _, hx =>
    exact fill_two _ _ _ _ h0 (token_name_ok x1 (hx x1 (by simp)))
  | [x1, x2], _, hx =>
    exact fill_three _ _ _ _ _ _ h0 (token_name_ok x1 (hx x1 (by simp)))
      (token_name_ok x2 (hx x2 (by simp)))
  | [x1, x2, x3], _, hx =>
    exact fill_four _ _ _ _ _ _ _ _ h0 (token_name_ok x1 (hx x1 (by simp)))
      (token_name_ok x2 (hx x2 (by simp))) (token_name_ok x3 (hx x3 (by simp)))
  | [x1, x2, x3, x4], _, hx =>
    exact fill_five _ _ _ _ _ _ _ _ _ _ h0 (token_name_ok x1 (hx x1 (by simp)))
      (token_name_ok x2 (hx x2 (by simp))) (token_name_ok x3 (hx x3 (by simp)))
      (token_name_ok x4 (hx x4 (by simp)))
  | _ :: _ :: _ :: _ :: _ :: _, hl, _ => simp at hl

theorem acceptable_tokens_eq (yystate : Nat) :
    acceptable_tokens yystate =
      (List.range'
        (if yypact_.getD yystate 0 < 0 then -yypact_.getD yystate 0 else 0).toNat
        ((if yylast_ - yypact_.getD yystate 0 + 1 < (yyntokens_ : Int) then
            yylast_ - yypact_.getD yystate 0 + 1 else (yyntokens_ : Int)) -
          (if yypact_.getD yystate 0 < 0 then -yypact_.getD yystate 0 else 0)).toNat).filter
        (token_acceptable (yypact_.getD yystate 0)) := by
  unfold acceptable_tokens
  generalize yypact_.getD yystate 0 = yyn
  generalize hb : (if yyn < 0 then -yyn else 0).toNat = b
  generalize hn : ((if yylast_ - yyn + 1 < (yyntokens_ : Int) then yylast_ - yyn + 1
    else (yyntokens_ : Int)) - (if yyn < 0 then -yyn else 0)).toNat = n
  have hwin : ∀ x : Nat, x < 68 → ((0 ≤ yyn + (x : Int) ∧ yyn + (x : Int) ≤ yylast_) ↔
      (b ≤ x ∧ x < b + n)) := by
    intro x hx
    subst hb hn
    simp only [yylast_, yyntokens_]
    split <;> split <;> constructor <;> intro h <;> omega
  by_cases h0 : n = 0
  · subst h0
    rw [List.range'_zero, List.filter_nil, List.filter_eq_nil_iff]
    intro x hx
    rw [List.mem_range] at hx
    have := (hwin x hx).not.2 (by omega)
    simp [this]
  · have hle : b + n ≤ yyntokens_ := by
      subst hb hn
      simp only [yylast_, yyntokens_] at h0 ⊢
      split <;> split <;> omega
    rw [← range_filter_window (token_acceptable yyn) b n yyntokens_ hle]
    apply List.filter_congr
    intro x hx
    rw [List.mem_range] at hx
    have := hwin x hx
    by_cases hw : b ≤ x ∧ x < b + n
    · simp [hw, this.2 hw]
    · simp [hw, this.not.2 hw]

theorem acceptable_tokens_lt (yystate x : Nat) (h : x ∈ acceptable_tokens yystate) :
    x < 68 := by
  unfold acceptable_tokens at h
  exact List.mem_range.1 (List.mem_filter.1 h).1

theorem yysyntax_error_args_eq (yystate yytoken : Nat) (hs : yystate < 247)
    (ht : yytoken < 104) :
    yysyntax_error_args yystate (some yytoken) =
      .ok (yytname_.getD yytoken [] ::
        (if yy_pact_value_is_default_ (yypact_.getD yystate 0) = true ∨
            4 < (acceptable_tokens yystate).length then []
          else acceptable_tokens yystate).map (fun x => yytname_.getD x [])) := by
  have hn : array_at yytname_ (yytoken : Int) = .ok (yytname_.getD yytoken []) := by
    have := array_at_ok yytname_ (yytoken : Int) [] (by omega) (by
      have := yytname_length
      omega)
    simpa using this
  have hp : array_at yypact_ (yystate : Int) = .ok (yypact_.getD yystate 0) := by
    have := array_at_ok yypact_ (yystate : Int) 0 (by omega) (by
      have := yypact_length
      omega)
    simpa using this
  have hL : ∀ x ∈ List.range'
      (if yypact_.getD yystate 0 < 0 then -yypact_.getD yystate 0 else 0).toNat
      ((if yylast_ - yypact_.getD yystate 0 + 1 < (yyntokens_ : Int) then
          yylast_ - yypact_.getD yystate 0 + 1 else (yyntokens_ : Int)) -
        (if yypact_.getD yystate 0 < 0 then -yypact_.getD yystate 0 else 0)).toNat,
      0 ≤ yypact_.getD yystate 0 + (x : Int) ∧ yypact_.getD yystate 0 + (x : Int) ≤ 785 ∧
        x < 68 := by
    intro x hx
    rw [List.mem_range'_1] at hx
    revert hx
    generalize yypact_.getD yystate 0 = yyn
    simp only [yylast_, yyntokens_]
    intro hx
    split at hx <;> split at hx <;> omega
  unfold yysyntax_error_args
  simp only [hn, hp, bind, Except.bind]
  rw [acceptable_tokens_eq yystate]
  revert hL
  generalize List.range'
      (if yypact_.getD yystate 0 < 0 then -yypact_.getD yystate 0 else 0).toNat
      ((if yylast_ - yypact_.getD yystate 0 + 1 < (yyntokens_ : Int) then
          yylast_ - yypact_.getD yystate 0 + 1 else (yyntokens_ : Int)) -
        (if yypact_.getD yystate 0 < 0 then -yypact_.getD yystate 0 else 0)).toNat = L
  intro hL
  by_cases hd : yy_pact_value_is_default_ (yypact_.getD yystate 0) = true
  · rw [hd]
    simp
  · have hd2 : yy_pact_value_is_default_ (yypact_.getD yystate 0) = false := by
      simpa using hd
    rw [hd2, yysyntax_error_expected_eq _ L _ hL (by simp) (by simp)]
    simp only [List.length_singleton, Bool.not_false, if_true]
    by_cases hk : 4 < (L.filter (token_acceptable (yypact_.getD yystate 0))).length
    · rw [if_neg (by omega), if_pos (Or.inr hk)]
      rfl
    · rw [if_pos (by omega), if_neg (fun h => h.elim (fun h2 => Bool.noConfusion h2) hk)]
      rfl

theorem yysyntax_error_empty (yystate : Nat) :
    yysyntax_error_ yystate none = .ok "syntax error".toList := by
  unfold yysyntax_error_ yysyntax_error_args
  simp only [bind, Except.bind, List.length_nil, yysyntax_error_format]
  have h := yysyntax_error_fill_text 0 [] "syntax error".toList (by decide) [] 0 []
  rw [List.append_nil, yysyntax_error_fill_nil, List.nil_append] at h
  exact h

/-- C36. Syntax-error message shape: for every parser state and lookahead,
`yysyntax_error_` returns "syntax error" when the lookahead is empty; otherwise "syntax
error, unexpected U" followed by ", expecting E1 or ... or Ek" exactly when the state has `k`
acceptable tokens with `1 ≤ k ≤ 4`, listed in increasing token number; when the state has no
or more than four acceptable tokens, or a default `yypact_` value, no expected token is
listed. `U` and the `Ei` are the names of the tokens as `yytnamerr_` returns them. -/
theorem yysyntax_error_message_shape (yystate : Nat) (hs : yystate < 247) :
    yysyntax_error_ yystate none = .ok "syntax error".toList ∧
    (acceptable_tokens yystate).Pairwise (fun x y => x < y) ∧
    ∀ yytoken, yytoken < 104 →
      yytnamerr_ (yytname_.getD yytoken []) = .ok (token_name yytoken) ∧
      (∀ x ∈ acceptable_tokens yystate,
        yytnamerr_ (yytname_.getD x []) = .ok (token_name x)) ∧
      yysyntax_error_ yystate (some yytoken) =
        .ok (syntax_error_shape (token_name yytoken)
          ((if yy_pact_value_is_default_ (yypact_.getD yystate 0) = true ∨
              (acceptable_tokens yystate).length = 0 ∨
              4 < (acceptable_tokens yystate).length then []
            else acceptable_tokens yystate).map token_name)) := by
  refine ⟨yysyntax_error_empty yystate, ?_, fun yytoken ht => ⟨token_name_ok yytoken ht,
    fun x hx => token_name_ok x (by have := acceptable_tokens_lt yystate x hx; omega), ?_⟩⟩
  · unfold acceptable_tokens
    exact List.Pairwise.filter _ (List.pairwise_lt_range _)
  · have hargs := yysyntax_error_args_eq yystate yytoken hs ht
    have hsame : (if yy_pact_value_is_default_ (yypact_.getD yystate 0) = true ∨
          (acceptable_tokens yystate).length = 0 ∨
          4 < (acceptable_tokens yystate).length then []
        else acceptable_tokens yystate) =
        (if yy_pact_value_is_default_ (yypact_.getD yystate 0) = true ∨
            4 < (acceptable_tokens yystate).length then []
          else acceptable_tokens yystate) := by
      by_cases h0 : (acceptable_tokens yystate).length = 0
      · have hnil := List.eq_nil_of_length_eq_zero h0
        rw [hnil]
        simp
      · simp only [h0, false_or]
    rw [hsame]
    apply yysyntax_error_of_args yystate yytoken _ _ ht _ hargs
    · split
      · simp
      · rename_i h
        omega
    · intro x hx
      split at hx
      · cases hx
      · have := acceptable_tokens_lt yystate x hx
        omega

set_option maxRecDepth 100000 in
/-- C36 in state 4 with the lookahead `";"`, where `IDENT` is the one acceptable token, and
in state 0 with a closing brace as lookahead, where 27 tokens are acceptable. -/
theorem yysyntax_error_message_shape_witness :
    yysyntax_error_ 4 (some 33) = .ok "syntax error, unexpected ;, expecting IDENT".toList ∧
    yysyntax_error_ 0 (some 28) = .ok "syntax error, unexpected \x7d".toList :=
  ⟨((yysyntax_error_message_shape 4 (by decide)).2.2 33 (by decide)).2.2.trans
      (congrArg Except.ok (by decide)),
    ((yysyntax_error_message_shape 0 (by decide)).2.2 28 (by decide)).2.2.trans
      (congrArg Except.ok (by decide))⟩

/-! ## Statement lists -/

set_option maxRecDepth 100000 in
theorem statement_rules_hold :
    yyr1_[6]? = some 71 ∧ yyr1_[7]? = some 71 ∧ yytname_[71]? = some "statements".toList ∧
      yytname_[72]? = some "statement".toList ∧ yyr2_[6]? = some 1 ∧ yyr2_[7]? = some 2 := by
  decide

theorem yyreduce_rule_6 {astnode token : Type} (cls : astnode_class astnode token) (t : token)
    (s0 : astnode) (below : List astnode) :
    yyreduce cls t 6 (s0 :: below) =
      some (cls.append (cls.make astkind.STATEMENTS t) s0 :: below) := by
  have h : yyr2_[6]? = some 1 := statement_rules_hold.2.2.2.2.1
  simp [yyreduce, h, semantic_action]

theorem yyreduce_rule_7 {astnode token : Type} (cls : astnode_class astnode token) (t : token)
    (s0 s1 : astnode) (below : List astnode) :
    yyreduce cls t 7 (s0 :: s1 :: below) =
      some (cls.append_children (cls.append (cls.make astkind.STATEMENTS t) s1) s0 ::
        below) := by
  have h : yyr2_[7]? = some 2 := statement_rules_hold.2.2.2.2.2
  simp [yyreduce, h, semantic_action]

theorem reduce_rule_7_spec {astnode token : Type} (cls : astnode_class astnode token)
    (hc : cls.appends) (below : List astnode) :
    ∀ (rev : List astnode) (ts : List token) (node : astnode), ts.length = rev.length →
      cls.kind node = astkind.STATEMENTS →
      ∃ node2, reduce_rule_7 cls ts (node :: (rev ++ below)) = some (node2 :: below) ∧
        cls.kind node2 = astkind.STATEMENTS ∧
        cls.children node2 = rev.reverse ++ cls.children node := by
  intro rev
  induction rev with
  | nil =>
    intro ts node hl hk
    have : ts = [] := List.eq_nil_of_length_eq_zero hl
    subst this
    exact ⟨node, rfl, hk, by simp⟩
  | cons s rev ih =>
    intro ts node hl hk
    cases ts with
    | nil => simp at hl
    | cons t ts =>
      simp only [List.length_cons, Nat.add_right_cancel_iff] at hl
      obtain ⟨hmake, happ, hch⟩ := hc
      have hk2 : cls.kind
          (cls.append_children (cls.append (cls.make astkind.STATEMENTS t) s) node) =
          astkind.STATEMENTS := by
        rw [(hch _ _).1, (happ _ _).1, (hmake _ _).1]
      obtain ⟨node2, h2, hkind, hchildren⟩ := ih ts _ hl hk2
      refine ⟨node2, ?_, hkind, ?_⟩
      · rw [reduce_rule_7, List.cons_append, yyreduce_rule_7]
        exact h2
      · rw [hchildren, (hch _ _).2, (happ _ _).2, (hmake _ _).2]
        simp

/-- C37. Statement lists are flat: rule 6 has one symbol on its right and rule 7 two, both
with `statements` on the left; when `append` adds a child and `append_children` adds the
children of a node, reducing `n ≥ 1` statements that lie on the stack, the last one on top,
by rule 6 and then rule 7 leaves in their place one `STATEMENTS` node whose children are
exactly the `n` statement nodes in source order. -/
theorem statements_flat {astnode token : Type} (cls : astnode_class astnode token)
    (hc : cls.appends) (stmts below : List astnode) (tokens : List token)
    (hn : stmts ≠ []) (hl : tokens.length = stmts.length) :
    (yyr1_[6]? = some 71 ∧ yyr1_[7]? = some 71 ∧ yytname_[71]? = some "statements".toList ∧
      yytname_[72]? = some "statement".toList ∧ yyr2_[6]? = some 1 ∧ yyr2_[7]? = some 2) ∧
    ∃ node, reduce_statements cls tokens (stmts.reverse ++ below) = some (node :: below) ∧
      cls.kind node = astkind.STATEMENTS ∧ cls.children node = stmts := by
  refine ⟨statement_rules_hold, ?_⟩
  cases hr : stmts.reverse with
  | nil => exact absurd (List.reverse_eq_nil_iff.1 hr) hn
  | cons last rev =>
    cases tokens with
    | nil =>
      have := congrArg List.length hr
      simp at this hl
      omega
    | cons t ts =>
      have hlen : ts.length = rev.length := by
        have := congrArg List.length hr
        simp at this hl
        omega
      obtain ⟨hmake, happ, hch⟩ := hc
      have hk : cls.kind (cls.append (cls.make astkind.STATEMENTS t) last) =
          astkind.STATEMENTS := by
        rw [(happ _ _).1, (hmake _ _).1]
      obtain ⟨node, h2, hkind, hchildren⟩ :=
        reduce_rule_7_spec cls ⟨hmake, happ, hch⟩ below rev ts _ hlen hk
      refine ⟨node, ?_, hkind, ?_⟩
      · rw [List.cons_append, reduce_statements, yyreduce_rule_6]
        exact h2
      · rw [hchildren, (happ _ _).2, (hmake _ _).2, List.nil_append]
        have := congrArg List.reverse hr
        simp only [List.reverse_reverse, List.reverse_cons] at this
        rw [this]

theorem sample_class_appends : sample_class.appends :=
  ⟨fun _ _ => ⟨rfl, rfl⟩, fun _ _ => ⟨rfl, rfl⟩, fun _ _ => ⟨rfl, rfl⟩⟩

/-- C37 for the three statements `return`, `throw`, `return` of the sample class. -/
theorem statements_flat_witness :
    ∃ node, reduce_statements sample_class [10, 11, 12]
        ([sample_node.mk astkind.RETURN 1 [], sample_node.mk astkind.THROW 2 [],
          sample_node.mk astkind.RETURN 3 []].reverse ++ []) = some (node :: []) ∧
      sample_class.kind node = astkind.STATEMENTS ∧
      sample_class.children node =
        [sample_node.mk astkind.RETURN 1 [], sample_node.mk astkind.THROW 2 [],
          sample_node.mk astkind.RETURN 3 []] :=
  (statements_flat sample_class sample_class_appends
    [sample_node.mk astkind.RETURN 1 [], sample_node.mk astkind.THROW 2 [],
      sample_node.mk astkind.RETURN 3 []] [] [10, 11, 12] (by simp) rfl).2
